import Mathlib

/-!
# newfs: a shallow embedding of `newfs_utils.c` and `types.h`

The C program keeps one global super block, a tree of directory entries and
index records linked by pointers, and talks to a block device through a
driver that moves exactly one I/O unit per call.  Here the device is an
explicit value, the globals travel as arguments and results, and the tree is
an inductive type.  C `int` values are naturals or integers without a bound:
the definitions give what the statements compute as long as the values stay
within `int`.  For the macro `NEWFS_INO_OFS`, whose value leaves that range on
large devices, `NEWFS_INO_OFS_int` gives the value in 32-bit arithmetic.
Bytes are naturals, and `malloc`ed memory is taken to be zero-filled.

Behaviour that C leaves undefined is recorded in flags of the results:
`fault` (a dereference of `NULL`, or of an error value used as a pointer),
`undefined_read` (the read through the never-assigned pointer in
`newfs_alloc_data`) and `overrun` (the `strcpy` of `newfs_lookup` past its
buffer).  Where a flag is set, the other fields hold what the statements after
that point compute if the program goes on.
-/

/-! ## Constants and macros of `types.h` -/

/-- The enumerator `NEWFS_REG_FILE` of `enum newfs_file_type`. -/
abbrev NEWFS_REG_FILE : Nat := 0
/-- The enumerator `NEWFS_DIR`. -/
abbrev NEWFS_DIR : Nat := 1
/-- The enumerator `NEWFS_SYM_LINK`. -/
abbrev NEWFS_SYM_LINK : Nat := 2

abbrev UINT8_BITS : Nat := 8
abbrev NEWFS_SUPER_OFS : Nat := 0
abbrev NEWFS_ROOT_INO : Nat := 0
abbrev NEWFS_ERROR_NONE : Int := 0
/-- The value of `ENOSPC`. -/
abbrev NEWFS_ERROR_NOSPACE : Int := 28
/-- The value of `EIO`. -/
abbrev NEWFS_ERROR_IO : Int := 5
abbrev NEWFS_MAX_FILE_NAME : Nat := 128
abbrev NEWFS_INODE_PER_FILE : Nat := 1
abbrev NEWFS_DATA_PER_FILE : Nat := 6

/-- Modelled from the spec: the magic marker `NEWFS_MAGIC`, which `newfs.h`
defines and `types.h` only quotes in a comment (`0x52415453`). -/
abbrev NEWFS_MAGIC : Nat := 0x52415453

/-- The value `sizeof(struct newfs_super_d)`: ten 4-byte fields. -/
abbrev SIZEOF_SUPER_D : Nat := 40
/-- The value `sizeof(struct newfs_inode_d)`: `ino`, `size`, 128 bytes of
`target_path`, `dir_cnt`, `ftype`. -/
abbrev SIZEOF_INODE_D : Nat := 144
/-- The value `sizeof(struct newfs_dentry_d)`: 128 bytes of `fname`, `ftype`,
`ino`. -/
abbrev SIZEOF_DENTRY_D : Nat := 136

/-- The macro `NEWFS_ROUND_DOWN(value, round)`. -/
def NEWFS_ROUND_DOWN (value round : Nat) : Nat :=
  if value % round = 0 then value else (value / round) * round

/-- The macro `NEWFS_ROUND_UP(value, round)`. -/
def NEWFS_ROUND_UP (value round : Nat) : Nat :=
  if value % round = 0 then value else (value / round + 1) * round

/-! ## The in-memory records -/

mutual
/-- The record `struct newfs_inode`.  The back-reference `dentry` is the entry
that holds this record in its `inode` field; `block_pointer` is never used by
the code and is left out. -/
inductive newfs_inode where
  | mk (ino : Nat) (size : Int) (target_path : List Nat) (dir_cnt : Int)
       (dentrys : List newfs_dentry) (data : List Nat)
/-- The record `struct newfs_dentry`.  The `brother` links of the children of
one directory are the list structure of `newfs_inode.dentrys` (head first);
`parent` is the entry above in the tree. -/
inductive newfs_dentry where
  | mk (fname : List Nat) (ino : Nat) (inode : Option newfs_inode) (ftype : Nat)
end

def newfs_inode.ino : newfs_inode → Nat
  | .mk i _ _ _ _ _ => i
def newfs_inode.size : newfs_inode → Int
  | .mk _ s _ _ _ _ => s
def newfs_inode.target_path : newfs_inode → List Nat
  | .mk _ _ t _ _ _ => t
def newfs_inode.dir_cnt : newfs_inode → Int
  | .mk _ _ _ c _ _ => c
def newfs_inode.dentrys : newfs_inode → List newfs_dentry
  | .mk _ _ _ _ l _ => l
def newfs_inode.data : newfs_inode → List Nat
  | .mk _ _ _ _ _ d => d

def newfs_dentry.fname : newfs_dentry → List Nat
  | .mk n _ _ _ => n
def newfs_dentry.ino : newfs_dentry → Nat
  | .mk _ i _ _ => i
def newfs_dentry.inode : newfs_dentry → Option newfs_inode
  | .mk _ _ p _ => p
def newfs_dentry.ftype : newfs_dentry → Nat
  | .mk _ _ _ t => t

/-- The global `struct newfs_super`.  The driver handle is the `Disk` value
that the operations take and return; `root_dentry` is `none` for `NULL`. -/
structure newfs_super where
  sz_io : Nat
  sz_disk : Nat
  sz_blk : Nat
  sz_usage : Nat
  max_ino : Nat
  max_data : Nat
  map_inode : List Nat
  map_inode_blks : Nat
  map_inode_offset : Nat
  map_data : List Nat
  map_data_blks : Nat
  map_data_offset : Nat
  inode_offset : Nat
  data_offset : Nat
  is_mounted : Bool
  root_dentry : Option newfs_dentry

/-- The macro `NEWFS_BLKS_SZ(blks)`. -/
def NEWFS_BLKS_SZ (sb : newfs_super) (blks : Nat) : Nat := blks * sb.sz_blk

/-- The macro `NEWFS_INO_OFS(ino)`; it starts from `data_offset`.  This is the
value of the expression over the naturals, which is what the code computes as
long as it is at most `INT_MAX` (`NEWFS_INO_OFS_int_eq`); `NEWFS_INO_OFS_int`
is the value in `int` arithmetic. -/
def NEWFS_INO_OFS (sb : newfs_super) (ino : Nat) : Nat :=
  sb.data_offset + ino * NEWFS_BLKS_SZ sb (NEWFS_INODE_PER_FILE + NEWFS_DATA_PER_FILE)

/-- The macro `NEWFS_DATA_OFS(ino)`. -/
def NEWFS_DATA_OFS (sb : newfs_super) (ino : Nat) : Nat :=
  NEWFS_INO_OFS sb ino + NEWFS_BLKS_SZ sb NEWFS_INODE_PER_FILE

/-- The value of a C `int` expression whose mathematical value is `v` on a
two's-complement machine with 32-bit `int`: `v` itself when it lies between
`INT_MIN` and `INT_MAX`, and `v` wrapped into that range otherwise (in C the
overflow itself has no defined behaviour). -/
def c_int (v : Int) : Int := (v + 2147483648) % 4294967296 - 2147483648

/-- The macro `NEWFS_INO_OFS(ino)` evaluated in `int` arithmetic, as the code
does (`ino`, `data_offset`, `sz_blk` and the two constants are all `int`):
`data_offset + ino * ((NEWFS_INODE_PER_FILE + NEWFS_DATA_PER_FILE) * sz_blk)`. -/
def NEWFS_INO_OFS_int (sb : newfs_super) (ino : Nat) : Int :=
  c_int ((sb.data_offset : Int)
    + c_int ((ino : Int)
        * c_int (((NEWFS_INODE_PER_FILE + NEWFS_DATA_PER_FILE : Nat) : Int) * (sb.sz_blk : Int))))

/-! ## The block device -/

/-- Modelled from the spec: the block device behind the driver handle, a
byte store of `sz_disk` bytes with a head position. -/
structure Disk where
  sz_disk : Nat
  sz_io : Nat
  mem : Nat → Nat
  head : Nat

/-- Modelled from the spec: `ddriver_seek(fd, offset, SEEK_SET)`. -/
def ddriver_seek (d : Disk) (offset : Nat) : Disk :=
  { d with head := offset }

/-- Modelled from the spec: `ddriver_read(fd, buf + cur, size)` reads one unit
at the head into the buffer and advances the head; a unit that does not lie
inside the device fails and leaves buffer and head as they are. -/
def ddriver_read (d : Disk) (buf : Nat → Nat) (cur size : Nat) : Disk × (Nat → Nat) × Bool :=
  if d.head + size ≤ d.sz_disk then
    ({ d with head := d.head + size },
     fun i => if cur ≤ i ∧ i < cur + size then d.mem (d.head + (i - cur)) else buf i,
     true)
  else (d, buf, false)

/-- Modelled from the spec: `ddriver_write(fd, buf + cur, size)` writes one unit
at the head and advances the head; a unit that does not lie inside the device
fails and changes nothing. -/
def ddriver_write (d : Disk) (buf : Nat → Nat) (cur size : Nat) : Disk × Bool :=
  if d.head + size ≤ d.sz_disk then
    ({ d with
        head := d.head + size,
        mem := fun a => if d.head ≤ a ∧ a < d.head + size then buf (cur + (a - d.head)) else d.mem a },
     true)
  else (d, false)

/-! ## Aligned block I/O -/

/-- The loop `while (size_aligned != 0)` of `newfs_driver_read`; the result of
`ddriver_read` is not looked at.  The fuel bounds the number of rounds. -/
def read_loop (io : Nat) : Nat → Nat → Nat → Disk → (Nat → Nat) → Disk × (Nat → Nat)
  | 0, _, _, d, temp => (d, temp)
  | fuel + 1, size_aligned, cur, d, temp =>
    if size_aligned ≠ 0 then
      let r := ddriver_read d temp cur io
      read_loop io fuel (size_aligned - io) (cur + io) r.1 r.2.1
    else (d, temp)

/-- The loop `while (size_aligned != 0)` of `newfs_driver_write`; the result
of `ddriver_write` is not looked at. -/
def write_loop (io : Nat) (temp : Nat → Nat) : Nat → Nat → Nat → Disk → Disk
  | 0, _, _, d => d
  | fuel + 1, size_aligned, cur, d =>
    if size_aligned ≠ 0 then
      write_loop io temp fuel (size_aligned - io) (cur + io) (ddriver_write d temp cur io).1
    else d

/-- What `newfs_driver_read` and `newfs_driver_write` hand back. -/
structure DriverResult where
  ret : Int
  disk : Disk
  content : List Nat

/-- The function `newfs_driver_read(offset, out_content, size)`. -/
def newfs_driver_read (sb : newfs_super) (d : Disk) (offset size : Nat) : DriverResult :=
  let offset_aligned := NEWFS_ROUND_DOWN offset sb.sz_io
  let bias := offset - offset_aligned
  let size_aligned := NEWFS_ROUND_UP (size + bias) sb.sz_io
  let temp_content : Nat → Nat := fun _ => 0
  let r := read_loop sb.sz_io size_aligned size_aligned 0
    (ddriver_seek d offset_aligned) temp_content
  { ret := NEWFS_ERROR_NONE
    disk := r.1
    content := (List.range size).map fun i => r.2 (bias + i) }

/-- The function `newfs_driver_write(offset, in_content, size)`; `content` of
the result is empty. -/
def newfs_driver_write (sb : newfs_super) (d : Disk) (offset : Nat) (in_content : List Nat)
    (size : Nat) : DriverResult :=
  let offset_aligned := NEWFS_ROUND_DOWN offset sb.sz_io
  let bias := offset - offset_aligned
  let size_aligned := NEWFS_ROUND_UP (size + bias) sb.sz_io
  let rd := newfs_driver_read sb d offset_aligned size_aligned
  let temp_content : Nat → Nat := fun i =>
    if bias ≤ i ∧ i < bias + size then in_content.getD (i - bias) 0 else rd.content.getD i 0
  let d2 := write_loop sb.sz_io temp_content size_aligned size_aligned 0
    (ddriver_seek rd.disk offset_aligned)
  { ret := NEWFS_ERROR_NONE
    disk := d2
    content := [] }

/-- Number of leading units, out of `n` starting at `h`, that lie inside a
device of `sz` bytes. -/
def ok_units (io sz : Nat) : Nat → Nat → Nat
  | 0, _ => 0
  | n + 1, h => if h + io ≤ sz then ok_units io sz n (h + io) + 1 else 0

/-- End of the part of the aligned span of `(offset, size)` that the unit loops
of the driver functions reach on device `d`. -/
def ok_span (sb : newfs_super) (d : Disk) (offset size : Nat) : Nat :=
  NEWFS_ROUND_DOWN offset sb.sz_io +
    ok_units sb.sz_io d.sz_disk
      (NEWFS_ROUND_UP (size + (offset - NEWFS_ROUND_DOWN offset sb.sz_io)) sb.sz_io / sb.sz_io)
      (NEWFS_ROUND_DOWN offset sb.sz_io) * sb.sz_io

/-- The aligned span of `(offset, size)` lies inside the device. -/
def span_inside (sb : newfs_super) (d : Disk) (offset size : Nat) : Prop :=
  NEWFS_ROUND_DOWN offset sb.sz_io +
    NEWFS_ROUND_UP (size + (offset - NEWFS_ROUND_DOWN offset sb.sz_io)) sb.sz_io ≤ d.sz_disk

instance (sb : newfs_super) (d : Disk) (offset size : Nat) : Decidable (span_inside sb d offset size) := by
  unfold span_inside; infer_instance

/-- The global `newfs_super` of a fresh process: static storage, all zero. -/
def super_zero : newfs_super :=
  { sz_io := 0, sz_disk := 0, sz_blk := 0, sz_usage := 0, max_ino := 0, max_data := 0,
    map_inode := [], map_inode_blks := 0, map_inode_offset := 0,
    map_data := [], map_data_blks := 0, map_data_offset := 0,
    inode_offset := 0, data_offset := 0, is_mounted := false, root_dentry := none }

/-- A device of `sz_disk` zero bytes with I/O unit `sz_io`. -/
def zero_disk (sz_disk sz_io : Nat) : Disk :=
  { sz_disk := sz_disk, sz_io := sz_io, mem := fun _ => 0, head := 0 }

/-! ## Directory entries and the bitmap allocator -/

/-- The bytes of a C string: what precedes the first NUL. -/
def c_string (s : List Nat) : List Nat := s.takeWhile (fun c => c ≠ 0)

/-- A name in its zero-filled field of `NEWFS_MAX_FILE_NAME` bytes, as
`memset` followed by `NEWFS_ASSIGN_FNAME` leaves it.  A name longer than the
field would be copied past its end in C; here it is cut at the field size. -/
def assign_fname (s : List Nat) : List Nat :=
  s.take NEWFS_MAX_FILE_NAME ++ List.replicate (NEWFS_MAX_FILE_NAME - (s.take NEWFS_MAX_FILE_NAME).length) 0

/-- The function `new_dentry(fname, ftype)`; `ino = -1` is the `uint32_t` value
`4294967295`. -/
def new_dentry (fname : List Nat) (ftype : Nat) : newfs_dentry :=
  .mk (assign_fname (c_string fname)) 4294967295 none ftype

/-- The inner loop `for (bit_cursor = 0; bit_cursor < UINT8_BITS; bit_cursor++)`
of the bitmap scans: the first clear bit of `byte`, if any. -/
def bit_scan (byte : Nat) : Nat → Nat → Option Nat
  | 0, _ => none
  | fuel + 1, bit_cursor =>
    if byte &&& (1 <<< bit_cursor) = 0 then some bit_cursor
    else bit_scan byte fuel (bit_cursor + 1)

/-- Outcome of a bitmap scan: the bitmap with the found bit set, the unit
cursor, and whether a clear bit was found. -/
structure MapScan where
  map : List Nat
  cursor : Nat
  is_find_free_entry : Bool

/-- The outer loop `for (byte_cursor = 0; byte_cursor < NEWFS_BLKS_SZ(blks); byte_cursor++)`
of the bitmap scans over the bytes of the bitmap buffer: it sets the first
clear bit and stops, counting the bits passed in the cursor. -/
def map_scan : Nat → List Nat → Nat → MapScan
  | 0, m, cursor => { map := m, cursor := cursor, is_find_free_entry := false }
  | _ + 1, [], cursor => { map := [], cursor := cursor, is_find_free_entry := false }
  | n + 1, byte :: rest, cursor =>
    match bit_scan byte UINT8_BITS 0 with
    | some bit_cursor =>
      { map := (byte ||| (1 <<< bit_cursor)) :: rest, cursor := cursor + bit_cursor,
        is_find_free_entry := true }
    | none =>
      let r := map_scan n rest (cursor + UINT8_BITS)
      { map := byte :: r.map, cursor := r.cursor, is_find_free_entry := r.is_find_free_entry }

/-- What `newfs_alloc_inode` leaves behind: the super block, the returned
pointer (`Except.error (-NEWFS_ERROR_NOSPACE)` for the error value) and the
owner entry. -/
structure AllocInode where
  sb : newfs_super
  ret : Except Int newfs_inode
  dentry : newfs_dentry

/-- The function `newfs_alloc_inode(dentry)`.  The bit is set inside the scan,
before the test against `max_ino`. -/
def newfs_alloc_inode (sb : newfs_super) (dentry : newfs_dentry) : AllocInode :=
  let r := map_scan (NEWFS_BLKS_SZ sb sb.map_inode_blks) sb.map_inode 0
  let sb1 := { sb with map_inode := r.map }
  if !r.is_find_free_entry || r.cursor == sb.max_ino then
    { sb := sb1, ret := .error (-NEWFS_ERROR_NOSPACE), dentry := dentry }
  else
    let data := if dentry.ftype = NEWFS_REG_FILE
      then List.replicate (NEWFS_BLKS_SZ sb NEWFS_DATA_PER_FILE) 0 else []
    let inode := newfs_inode.mk r.cursor 0 (List.replicate NEWFS_MAX_FILE_NAME 0) 0 [] data
    { sb := sb1, ret := .ok inode,
      dentry := .mk dentry.fname inode.ino (some inode) dentry.ftype }

/-- What `newfs_alloc_data` leaves behind: the super block with the data bitmap
after the scan, and `undefined_read`, which records that the call got past the
capacity test and so evaluated `NEWFS_IS_REG(inode)`, a read of the type tag
through the local pointer `inode` that is never assigned (the behaviour of
that read is undefined; the callers ignore the returned pointer). -/
structure AllocData where
  sb : newfs_super
  undefined_read : Bool

/-- The function `newfs_alloc_data(dentry)`: the scan of the data bitmap, the
return of `-NEWFS_ERROR_NOSPACE` when no clear bit was found or the cursor
equals `max_data`, and otherwise the read through the unassigned pointer. -/
def newfs_alloc_data (sb : newfs_super) (_dentry : newfs_dentry) : AllocData :=
  { sb := { sb with
      map_data := (map_scan (NEWFS_BLKS_SZ sb sb.map_data_blks) sb.map_data 0).map }
    undefined_read :=
      !(!(map_scan (NEWFS_BLKS_SZ sb sb.map_data_blks) sb.map_data 0).is_find_free_entry
        || (map_scan (NEWFS_BLKS_SZ sb sb.map_data_blks) sb.map_data 0).cursor == sb.max_data) }

/-- What `newfs_alloc_dentry` leaves behind; `undefined_read` is that of the
call of `newfs_alloc_data` it starts with, and the other fields are what the
statements after that call build. -/
structure AllocDentry where
  sb : newfs_super
  inode : newfs_inode
  ret : Int
  undefined_read : Bool

/-- The function `newfs_alloc_dentry(inode, dentry)`: `newfs_alloc_data`, then
head insertion. -/
def newfs_alloc_dentry (sb : newfs_super) (inode : newfs_inode) (dentry : newfs_dentry) :
    AllocDentry :=
  { sb := (newfs_alloc_data sb dentry).sb
    inode := .mk inode.ino inode.size inode.target_path (inode.dir_cnt + 1)
      (dentry :: inode.dentrys) inode.data
    ret := inode.dir_cnt + 1
    undefined_read := (newfs_alloc_data sb dentry).undefined_read }

/-- The super block after `n` calls of `newfs_alloc_inode`, call `j` made for
the entry `ds j`. -/
def alloc_seq (ds : Nat → newfs_dentry) : Nat → newfs_super → newfs_super
  | 0, sb => sb
  | n + 1, sb => (newfs_alloc_inode (alloc_seq ds n sb) (ds n)).sb

/-- What call number `n + 1` of such a run returns. -/
def alloc_ret (ds : Nat → newfs_dentry) (n : Nat) (sb : newfs_super) : Except Int newfs_inode :=
  (newfs_alloc_inode (alloc_seq ds n sb) (ds n)).ret

/-- Number of set bits among the eight bits of a byte. -/
def popcount_byte (b : Nat) : Nat :=
  ((List.range UINT8_BITS).filter fun k => b &&& (1 <<< k) ≠ 0).length

/-- Number of set bits of a bitmap. -/
def popcount (m : List Nat) : Nat := (m.map popcount_byte).sum

/-- The bitmap of `n` bytes whose bits `0 .. j - 1` are set, bit 0 being the
least significant bit of byte 0. -/
def low_bits_map : Nat → Nat → List Nat
  | 0, _ => []
  | n + 1, j => (2 ^ (min j 8) - 1) :: low_bits_map n (j - 8)

/-- A small super block for worked examples: blocks of 2 bytes, one bitmap
block (16 bits), capacity 3, empty bitmaps. -/
def small_super : newfs_super :=
  { super_zero with
    sz_io := 1, sz_blk := 2, max_ino := 3, max_data := 18
    map_inode_blks := 1, map_inode := [0, 0]
    map_data_blks := 1, map_data := [0, 0] }

/-! ## The on-disk records -/

/-- The four bytes of a 32-bit value, least significant first. -/
def le32 (v : Nat) : List Nat :=
  [v % 256, v / 256 % 256, v / 65536 % 256, v / 16777216 % 256]

/-- The four bytes of an `int`, two's complement. -/
def int_le32 (v : Int) : List Nat := le32 (v % 4294967296).toNat

/-- The `uint32_t` stored at byte `p` of a buffer. -/
def get_u32 (b : List Nat) (p : Nat) : Nat :=
  b.getD p 0 % 256 + 256 * (b.getD (p + 1) 0 % 256) + 65536 * (b.getD (p + 2) 0 % 256)
    + 16777216 * (b.getD (p + 3) 0 % 256)

/-- The `int` stored at byte `p` of a buffer. -/
def get_i32 (b : List Nat) (p : Nat) : Int :=
  if get_u32 b p < 2147483648 then (get_u32 b p : Int) else (get_u32 b p : Int) - 4294967296

/-- The `n` bytes that `memcpy` takes from a buffer; bytes the list does not
have read as zero. -/
def field (n : Nat) (l : List Nat) : List Nat := (List.range n).map fun i => l.getD i 0

/-- The record `struct newfs_super_d`. -/
structure newfs_super_d where
  magic_num : Nat
  sz_usage : Nat
  max_ino : Nat
  max_data : Nat
  map_inode_blks : Nat
  map_inode_offset : Nat
  map_data_blks : Nat
  map_data_offset : Nat
  inode_offset : Nat
  data_offset : Nat

/-- The record `struct newfs_inode_d`. -/
structure newfs_inode_d where
  ino : Nat
  size : Int
  target_path : List Nat
  dir_cnt : Int
  ftype : Nat

/-- The record `struct newfs_dentry_d`. -/
structure newfs_dentry_d where
  fname : List Nat
  ftype : Nat
  ino : Nat

/-- The bytes of a `struct newfs_super_d`. -/
def super_d_bytes (s : newfs_super_d) : List Nat :=
  le32 s.magic_num ++ le32 s.sz_usage ++ le32 s.max_ino ++ le32 s.max_data
    ++ le32 s.map_inode_blks ++ le32 s.map_inode_offset ++ le32 s.map_data_blks
    ++ le32 s.map_data_offset ++ le32 s.inode_offset ++ le32 s.data_offset

/-- The `struct newfs_super_d` that a buffer of `SIZEOF_SUPER_D` bytes holds. -/
def super_d_of_bytes (b : List Nat) : newfs_super_d :=
  { magic_num := get_u32 b 0, sz_usage := get_u32 b 4, max_ino := get_u32 b 8,
    max_data := get_u32 b 12, map_inode_blks := get_u32 b 16, map_inode_offset := get_u32 b 20,
    map_data_blks := get_u32 b 24, map_data_offset := get_u32 b 28, inode_offset := get_u32 b 32,
    data_offset := get_u32 b 36 }

/-- The bytes of a `struct newfs_inode_d`. -/
def inode_d_bytes (s : newfs_inode_d) : List Nat :=
  le32 s.ino ++ int_le32 s.size ++ field NEWFS_MAX_FILE_NAME s.target_path
    ++ int_le32 s.dir_cnt ++ le32 s.ftype

/-- The `struct newfs_inode_d` that a buffer of `SIZEOF_INODE_D` bytes holds. -/
def inode_d_of_bytes (b : List Nat) : newfs_inode_d :=
  { ino := get_u32 b 0, size := get_i32 b 4,
    target_path := (b.drop 8).take NEWFS_MAX_FILE_NAME,
    dir_cnt := get_i32 b 136, ftype := get_u32 b 140 }

/-- The bytes of a `struct newfs_dentry_d`. -/
def dentry_d_bytes (s : newfs_dentry_d) : List Nat :=
  field NEWFS_MAX_FILE_NAME s.fname ++ le32 s.ftype ++ le32 s.ino

/-- The `struct newfs_dentry_d` that a buffer of `SIZEOF_DENTRY_D` bytes holds. -/
def dentry_d_of_bytes (b : List Nat) : newfs_dentry_d :=
  { fname := b.take NEWFS_MAX_FILE_NAME, ftype := get_u32 b 128, ino := get_u32 b 132 }

/-! ## Reading and writing index records -/

/-- What `newfs_read_inode` leaves behind; `ret = none` is `NULL`, and
`undefined_read` records that one of its calls of `newfs_alloc_dentry` went
through the read of the unassigned pointer in `newfs_alloc_data`. -/
structure ReadInode where
  sb : newfs_super
  disk : Disk
  ret : Option newfs_inode
  undefined_read : Bool

/-- The loop `for (i = 0; i < dir_cnt; i++)` of `newfs_read_inode`, with `n`
rounds left. -/
def read_dentrys (ino : Nat) : Nat → Nat → newfs_super → Disk → newfs_inode → ReadInode
  | 0, _, sb, d, inode => { sb := sb, disk := d, ret := some inode, undefined_read := false }
  | n + 1, i, sb, d, inode =>
    let rd := newfs_driver_read sb d (NEWFS_DATA_OFS sb ino + i * SIZEOF_DENTRY_D) SIZEOF_DENTRY_D
    if rd.ret ≠ NEWFS_ERROR_NONE then
      { sb := sb, disk := rd.disk, ret := none, undefined_read := false }
    else
      let dentry_d := dentry_d_of_bytes rd.content
      let fresh := new_dentry dentry_d.fname dentry_d.ftype
      let sub_dentry := newfs_dentry.mk fresh.fname dentry_d.ino fresh.inode fresh.ftype
      let a := newfs_alloc_dentry sb inode sub_dentry
      { sb := (read_dentrys ino n (i + 1) a.sb rd.disk a.inode).sb
        disk := (read_dentrys ino n (i + 1) a.sb rd.disk a.inode).disk
        ret := (read_dentrys ino n (i + 1) a.sb rd.disk a.inode).ret
        undefined_read :=
          a.undefined_read || (read_dentrys ino n (i + 1) a.sb rd.disk a.inode).undefined_read }

/-- The function `newfs_read_inode(dentry, ino)`.  The type tests go through
`inode->dentry`, the owner entry; the tag stored on disk is not looked at. -/
def newfs_read_inode (sb : newfs_super) (d : Disk) (dentry : newfs_dentry) (ino : Nat) :
    ReadInode :=
  let rd := newfs_driver_read sb d (NEWFS_INO_OFS sb ino) SIZEOF_INODE_D
  if rd.ret ≠ NEWFS_ERROR_NONE then
    { sb := sb, disk := rd.disk, ret := none, undefined_read := false }
  else
    let inode_d := inode_d_of_bytes rd.content
    let inode := newfs_inode.mk inode_d.ino inode_d.size inode_d.target_path 0 [] []
    if dentry.ftype = NEWFS_DIR then
      read_dentrys ino inode_d.dir_cnt.toNat 0 sb rd.disk inode
    else if dentry.ftype = NEWFS_REG_FILE then
      let rd2 := newfs_driver_read sb rd.disk (NEWFS_DATA_OFS sb ino)
        (NEWFS_BLKS_SZ sb NEWFS_DATA_PER_FILE)
      if rd2.ret ≠ NEWFS_ERROR_NONE then
        { sb := sb, disk := rd2.disk, ret := none, undefined_read := false }
      else
        { sb := sb, disk := rd2.disk,
          ret := some (.mk inode_d.ino inode_d.size inode_d.target_path 0 [] rd2.content),
          undefined_read := false }
    else { sb := sb, disk := rd.disk, ret := some inode, undefined_read := false }

/-- What `newfs_sync_inode` leaves behind. -/
structure SyncInode where
  ret : Int
  disk : Disk

/-- The `struct newfs_inode_d` that `newfs_sync_inode` fills in for a record
whose owner entry has type tag `ftype`. -/
def inode_d_of (inode : newfs_inode) (ftype : Nat) : newfs_inode_d :=
  { ino := inode.ino, size := inode.size, target_path := inode.target_path,
    dir_cnt := inode.dir_cnt, ftype := ftype }

/-- The `struct newfs_dentry_d` that `newfs_sync_inode` fills in for a child
entry. -/
def dentry_d_of (dentry : newfs_dentry) : newfs_dentry_d :=
  { fname := dentry.fname, ftype := dentry.ftype, ino := dentry.ino }

mutual
/-- The function `newfs_sync_inode(inode)`, for a record whose owner entry has
type tag `ftype` (`inode->dentry->ftype`). -/
def newfs_sync_inode (sb : newfs_super) : newfs_inode → Nat → Disk → SyncInode
  | .mk ino size target_path dir_cnt dentrys data, ftype, d =>
    let w := newfs_driver_write sb d (NEWFS_INO_OFS sb ino)
      (inode_d_bytes { ino := ino, size := size, target_path := target_path,
                       dir_cnt := dir_cnt, ftype := ftype }) SIZEOF_INODE_D
    if w.ret ≠ NEWFS_ERROR_NONE then { ret := - NEWFS_ERROR_IO, disk := w.disk }
    else if ftype = NEWFS_DIR then
      sync_dentrys sb dentrys (NEWFS_DATA_OFS sb ino) w.disk
    else if ftype = NEWFS_REG_FILE then
      let w2 := newfs_driver_write sb w.disk (NEWFS_DATA_OFS sb ino) data
        (NEWFS_BLKS_SZ sb NEWFS_DATA_PER_FILE)
      if w2.ret ≠ NEWFS_ERROR_NONE then { ret := - NEWFS_ERROR_IO, disk := w2.disk }
      else { ret := NEWFS_ERROR_NONE, disk := w2.disk }
    else { ret := NEWFS_ERROR_NONE, disk := w.disk }
/-- The loop `while (dentry_cursor != NULL)` of `newfs_sync_inode`; what the
recursive call returns is not looked at. -/
def sync_dentrys (sb : newfs_super) : List newfs_dentry → Nat → Disk → SyncInode
  | [], _, d => { ret := NEWFS_ERROR_NONE, disk := d }
  | .mk fname ino inode ftype :: brother, offset, d =>
    let w := newfs_driver_write sb d offset
      (dentry_d_bytes { fname := fname, ftype := ftype, ino := ino }) SIZEOF_DENTRY_D
    if w.ret ≠ NEWFS_ERROR_NONE then { ret := - NEWFS_ERROR_IO, disk := w.disk }
    else
      match inode with
      | some child => sync_dentrys sb brother (offset + SIZEOF_DENTRY_D)
          (newfs_sync_inode sb child ftype w.disk).disk
      | none => sync_dentrys sb brother (offset + SIZEOF_DENTRY_D) w.disk
end

/-! ## Mount and unmount -/

/-- What `newfs_mount` leaves behind.  `fault` records that the C program
went through a pointer that does not point to a record (here: the error value
of `newfs_alloc_inode` handed to `newfs_sync_inode`); the other fields then
hold the state reached at that point.  `undefined_read` records that the
`newfs_read_inode` of the root went through the read of the unassigned pointer
in `newfs_alloc_data`. -/
structure MountResult where
  ret : Int
  fault : Bool
  sb : newfs_super
  disk : Disk
  undefined_read : Bool

/-- The first-use branch of `newfs_mount`: the `struct newfs_super_d` it lays
out for a device of `sz_disk` bytes and blocks of `sz_blk` bytes, starting
from the record `s` read from the device. -/
def first_use_super_d (sz_disk sz_blk : Nat) (s : newfs_super_d) : newfs_super_d :=
  let super_blks := 1
  let map_inode_blks := 1
  let map_data_blks := 1
  let inode_num := (sz_disk / sz_blk - super_blks - map_data_blks - map_inode_blks)
    / (NEWFS_DATA_PER_FILE + NEWFS_INODE_PER_FILE)
  let data_num := inode_num * 6
  let map_inode_offset := NEWFS_SUPER_OFS + super_blks * sz_blk
  let map_data_offset := map_inode_offset + map_inode_blks * sz_blk
  let inode_offset := map_data_offset + map_data_blks * sz_blk
  { s with
    magic_num := NEWFS_MAGIC
    map_inode_offset := map_inode_offset
    map_data_offset := map_data_offset
    inode_offset := inode_offset
    data_offset := inode_offset + inode_num * sz_blk
    map_inode_blks := map_inode_blks
    map_data_blks := map_data_blks
    max_ino := inode_num
    max_data := data_num
    sz_usage := 0 }

/-- The start of `newfs_mount`: the global super block once the device
size and I/O unit are known. -/
def mount_sb1 (sb0 : newfs_super) (d : Disk) : newfs_super :=
  { sb0 with is_mounted := false, sz_disk := d.sz_disk, sz_io := d.sz_io, sz_blk := d.sz_io * 2 }

/-- The `struct newfs_super_d` that `newfs_mount` reads from the device. -/
def mount_read_super_d (sb0 : newfs_super) (d : Disk) : newfs_super_d :=
  super_d_of_bytes (newfs_driver_read (mount_sb1 sb0 d) d NEWFS_SUPER_OFS SIZEOF_SUPER_D).content

/-- The test `newfs_super_d.magic_num != NEWFS_MAGIC` of `newfs_mount`. -/
def is_first_use (sb0 : newfs_super) (d : Disk) : Prop :=
  (mount_read_super_d sb0 d).magic_num ≠ NEWFS_MAGIC

instance (sb0 : newfs_super) (d : Disk) : Decidable (is_first_use sb0 d) := by
  unfold is_first_use; infer_instance

/-- The local `newfs_super_d` of `newfs_mount` after the first-use branch. -/
def mount_super_d (sb0 : newfs_super) (d : Disk) : newfs_super_d :=
  if is_first_use sb0 d then
    first_use_super_d (mount_sb1 sb0 d).sz_disk (mount_sb1 sb0 d).sz_blk (mount_read_super_d sb0 d)
  else mount_read_super_d sb0 d

/-- The global super block of `newfs_mount` once the layout is in memory
(before the bitmaps are read). -/
def mount_sb3 (sb0 : newfs_super) (d : Disk) : newfs_super :=
  let super_d := mount_super_d sb0 d
  let sb2 := if is_first_use sb0 d
    then { mount_sb1 sb0 d with max_ino := super_d.max_ino, max_data := super_d.max_data }
    else mount_sb1 sb0 d
  { sb2 with
    sz_usage := super_d.sz_usage
    map_inode_blks := super_d.map_inode_blks
    map_inode_offset := super_d.map_inode_offset
    inode_offset := super_d.inode_offset
    map_data_blks := super_d.map_data_blks
    map_data_offset := super_d.map_data_offset
    data_offset := super_d.data_offset }

/-- The global super block of `newfs_mount` once the index bitmap is read. -/
def mount_sb4 (sb0 : newfs_super) (d : Disk) : newfs_super :=
  { mount_sb3 sb0 d with
    map_inode := (newfs_driver_read (mount_sb3 sb0 d)
      (newfs_driver_read (mount_sb1 sb0 d) d NEWFS_SUPER_OFS SIZEOF_SUPER_D).disk
      (mount_super_d sb0 d).map_inode_offset
      (NEWFS_BLKS_SZ (mount_sb3 sb0 d) (mount_super_d sb0 d).map_inode_blks)).content }

/-- The global super block of `newfs_mount` once both bitmaps are read. -/
def mount_sb5 (sb0 : newfs_super) (d : Disk) : newfs_super :=
  { mount_sb4 sb0 d with
    map_data := (newfs_driver_read (mount_sb4 sb0 d)
      (newfs_driver_read (mount_sb3 sb0 d)
        (newfs_driver_read (mount_sb1 sb0 d) d NEWFS_SUPER_OFS SIZEOF_SUPER_D).disk
        (mount_super_d sb0 d).map_inode_offset
        (NEWFS_BLKS_SZ (mount_sb3 sb0 d) (mount_super_d sb0 d).map_inode_blks)).disk
      (mount_super_d sb0 d).map_data_offset
      (NEWFS_BLKS_SZ (mount_sb4 sb0 d) (mount_super_d sb0 d).map_data_blks)).content }

/-- The first-use part of the last step of `newfs_mount`, once
`newfs_alloc_inode` has returned the record `root_inode`:
`newfs_sync_inode(root_inode)`, then `newfs_read_inode(root_dentry, NEWFS_ROOT_INO)`. -/
def mount_root_init (sb : newfs_super) (root_dentry : newfs_dentry) (root_inode : newfs_inode)
    (d5 : Disk) : MountResult :=
  let sy := newfs_sync_inode sb root_inode root_dentry.ftype d5
  let r := newfs_read_inode sb sy.disk root_dentry NEWFS_ROOT_INO
  { ret := NEWFS_ERROR_NONE, fault := false,
    sb := { r.sb with
      root_dentry := some (.mk root_dentry.fname root_dentry.ino r.ret root_dentry.ftype)
      is_mounted := true },
    disk := r.disk, undefined_read := r.undefined_read }

/-- The last step of `newfs_mount`: the root entry and its record, with the
super block `sb5` and the device `d5` that the earlier steps left. -/
def mount_root (is_init : Bool) (sb5 : newfs_super) (d5 : Disk) : MountResult :=
  let root_dentry := new_dentry [47] NEWFS_DIR
  if is_init then
    let a := newfs_alloc_inode sb5 root_dentry
    match a.ret with
    | .error _ =>
      { ret := NEWFS_ERROR_NONE, fault := true, sb := a.sb, disk := d5, undefined_read := false }
    | .ok root_inode => mount_root_init a.sb a.dentry root_inode d5
  else
    let r := newfs_read_inode sb5 d5 root_dentry NEWFS_ROOT_INO
    { ret := NEWFS_ERROR_NONE, fault := false,
      sb := { r.sb with
        root_dentry := some (.mk root_dentry.fname root_dentry.ino r.ret root_dentry.ftype)
        is_mounted := true },
      disk := r.disk, undefined_read := r.undefined_read }

/-- The function `newfs_mount(options)`, started with the global super block
`sb0` on the device `d` (opening the device is taken to succeed). -/
def newfs_mount (sb0 : newfs_super) (d : Disk) : MountResult :=
  let sb1 := mount_sb1 sb0 d
  let rd := newfs_driver_read sb1 d NEWFS_SUPER_OFS SIZEOF_SUPER_D
  if rd.ret ≠ NEWFS_ERROR_NONE then
    { ret := - NEWFS_ERROR_IO, fault := false, sb := sb1, disk := rd.disk,
      undefined_read := false }
  else
    let super_d := mount_super_d sb0 d
    let sb3 := mount_sb3 sb0 d
    let rmi := newfs_driver_read sb3 rd.disk super_d.map_inode_offset
      (NEWFS_BLKS_SZ sb3 super_d.map_inode_blks)
    let sb4 := mount_sb4 sb0 d
    if rmi.ret ≠ NEWFS_ERROR_NONE then
      { ret := - NEWFS_ERROR_IO, fault := false, sb := sb4, disk := rmi.disk,
        undefined_read := false }
    else
      let rmd := newfs_driver_read sb4 rmi.disk super_d.map_data_offset
        (NEWFS_BLKS_SZ sb4 super_d.map_data_blks)
      let sb5 := mount_sb5 sb0 d
      if rmd.ret ≠ NEWFS_ERROR_NONE then
        { ret := - NEWFS_ERROR_IO, fault := false, sb := sb5, disk := rmd.disk,
          undefined_read := false }
      else mount_root (decide (is_first_use sb0 d)) sb5 rmd.disk

/-- The device as `newfs_mount` leaves it after reading the super block and
the two bitmaps. -/
def mount_disk5 (sb0 : newfs_super) (d : Disk) : Disk :=
  (newfs_driver_read (mount_sb4 sb0 d)
    (newfs_driver_read (mount_sb3 sb0 d)
      (newfs_driver_read (mount_sb1 sb0 d) d NEWFS_SUPER_OFS SIZEOF_SUPER_D).disk
      (mount_super_d sb0 d).map_inode_offset
      (NEWFS_BLKS_SZ (mount_sb3 sb0 d) (mount_super_d sb0 d).map_inode_blks)).disk
    (mount_super_d sb0 d).map_data_offset
    (NEWFS_BLKS_SZ (mount_sb4 sb0 d) (mount_super_d sb0 d).map_data_blks)).disk

/-- What `newfs_umount` leaves behind; `closed` records `ddriver_close`. -/
structure UmountResult where
  ret : Int
  fault : Bool
  sb : newfs_super
  disk : Disk
  closed : Bool

/-- The function `newfs_umount()`.  The local `struct newfs_super_d` is never
given `max_ino` and `max_data`; `junk` stands for what those two fields of the
local happen to hold. -/
def newfs_umount (sb : newfs_super) (d : Disk) (junk : newfs_super_d) : UmountResult :=
  if !sb.is_mounted then
    { ret := NEWFS_ERROR_NONE, fault := false, sb := sb, disk := d, closed := false }
  else
    match sb.root_dentry with
    | none => { ret := NEWFS_ERROR_NONE, fault := true, sb := sb, disk := d, closed := false }
    | some root =>
      match root.inode with
      | none => { ret := NEWFS_ERROR_NONE, fault := true, sb := sb, disk := d, closed := false }
      | some root_inode =>
        let sy := newfs_sync_inode sb root_inode root.ftype d
        let super_d : newfs_super_d :=
          { junk with
            magic_num := NEWFS_MAGIC
            map_inode_blks := sb.map_inode_blks
            map_inode_offset := sb.map_inode_offset
            map_data_blks := sb.map_data_blks
            map_data_offset := sb.map_data_offset
            inode_offset := sb.inode_offset
            data_offset := sb.data_offset
            sz_usage := sb.sz_usage }
        let w1 := newfs_driver_write sb sy.disk NEWFS_SUPER_OFS (super_d_bytes super_d)
          SIZEOF_SUPER_D
        if w1.ret ≠ NEWFS_ERROR_NONE then
          { ret := - NEWFS_ERROR_IO, fault := false, sb := sb, disk := w1.disk, closed := false }
        else
          let w2 := newfs_driver_write sb w1.disk super_d.map_inode_offset sb.map_inode
            (NEWFS_BLKS_SZ sb super_d.map_inode_blks)
          if w2.ret ≠ NEWFS_ERROR_NONE then
            { ret := - NEWFS_ERROR_IO, fault := false, sb := sb, disk := w2.disk, closed := false }
          else
            let w3 := newfs_driver_write sb w2.disk super_d.map_data_offset sb.map_data
              (NEWFS_BLKS_SZ sb super_d.map_data_blks)
            if w3.ret ≠ NEWFS_ERROR_NONE then
              { ret := - NEWFS_ERROR_IO, fault := false, sb := sb, disk := w3.disk,
                closed := false }
            else
              { ret := NEWFS_ERROR_NONE, fault := false, sb := sb, disk := w3.disk,
                closed := true }

/-! ## Path resolution -/

/-- The tokens that `strtok(path_cpy, "/")` and then `strtok(NULL, "/")` yield,
given the token being collected. -/
def strtok_all : List Nat → List Nat → List (List Nat)
  | [], cur => if cur = [] then [] else [cur]
  | c :: cs, cur =>
    if c = 47 then (if cur = [] then strtok_all cs [] else cur :: strtok_all cs [])
    else strtok_all cs (cur ++ [c])

/-- The function `newfs_calc_lvl(path)`. -/
def newfs_calc_lvl (path : List Nat) : Nat :=
  if c_string path = [47] then 0 else (c_string path).count 47

/-- The test `memcmp(dentry_cursor->fname, fname, strlen(fname)) == 0`.  A
component longer than the name field would be compared with what follows the
field in C; here it does not match. -/
def fname_hit (stored fname : List Nat) : Bool :=
  stored.take fname.length == fname

/-- The loop `while (dentry_cursor)` of `newfs_lookup`: position and value of
the first child that matches. -/
def scan_dentrys (fname : List Nat) : List newfs_dentry → Nat → Option (Nat × newfs_dentry)
  | [], _ => none
  | dentry_cursor :: brother, k =>
    if fname_hit dentry_cursor.fname fname then some (k, dentry_cursor)
    else scan_dentrys fname brother (k + 1)

mutual
/-- The entry at position `path` below an entry (child numbers, head first)
gets the record pointer `p` in its `inode` field. -/
def dentry_set_inode (p : Option newfs_inode) : newfs_dentry → List Nat → newfs_dentry
  | .mk fname ino _ ftype, [] => .mk fname ino p ftype
  | .mk fname ino none ftype, _ :: _ => .mk fname ino none ftype
  | .mk fname ino (some (.mk i s t c dentrys data)) ftype, k :: ks =>
    .mk fname ino (some (.mk i s t c (dentrys_set_inode p dentrys k ks) data)) ftype
/-- The same for child number `k` of a child list. -/
def dentrys_set_inode (p : Option newfs_inode) : List newfs_dentry → Nat → List Nat →
    List newfs_dentry
  | [], _, _ => []
  | x :: xs, 0, ks => dentry_set_inode p x ks :: xs
  | x :: xs, k + 1, ks => x :: dentrys_set_inode p xs k ks
end

/-- The value `sizeof(path)` in `newfs_lookup`: `path` is a `const char *`,
so this is the size of a pointer, 8 bytes on the 64-bit targets the file
system is built for. -/
abbrev SIZEOF_PATH : Nat := 8

/-- The statements `path_cpy = malloc(sizeof(path))` and
`strcpy(path_cpy, path)` of `newfs_lookup`: whether the copy, the bytes of the
string and its NUL, writes past the bytes requested for `path_cpy`. -/
def path_cpy_overrun (path : List Nat) : Bool :=
  decide (SIZEOF_PATH < (c_string path).length + 1)

/-- The variables of `newfs_lookup` while it walks: the entry `dentry_ret`
points to (with its position below the root), the flags, and the globals;
`undefined_read` records that a `newfs_read_inode` of the walk went through
the read of the unassigned pointer in `newfs_alloc_data`. -/
structure LookupState where
  fault : Bool
  dentry_ret : Option (List Nat × newfs_dentry)
  is_find : Bool
  is_root : Bool
  sb : newfs_super
  disk : Disk
  undefined_read : Bool

/-- The loop `while (fname)` of `newfs_lookup` over the tokens that are left;
`dentry_cursor` is given with its position below the root. -/
def lookup_walk (total_lvl : Nat) : List (List Nat) → Nat → newfs_dentry → List Nat →
    LookupState → LookupState
  | [], _, _, _, st => st
  | fname :: rest, lvl0, dentry_cursor, pos, st =>
    let lvl := lvl0 + 1
    let st1 := match dentry_cursor.inode with
      | none =>
        let r := newfs_read_inode st.sb st.disk dentry_cursor dentry_cursor.ino
        { st with sb := r.sb, disk := r.disk,
                  undefined_read := st.undefined_read || r.undefined_read }
      | some _ => st
    match dentry_cursor.inode with
    | none => { st1 with fault := true }
    | some inode =>
      if dentry_cursor.ftype = NEWFS_REG_FILE ∧ lvl < total_lvl then
        { st1 with dentry_ret := some (pos, dentry_cursor) }
      else if dentry_cursor.ftype = NEWFS_DIR then
        match scan_dentrys fname inode.dentrys 0 with
        | none => { st1 with is_find := false, dentry_ret := some (pos, dentry_cursor) }
        | some (k, hit) =>
          if lvl = total_lvl then
            { st1 with is_find := true, dentry_ret := some (pos ++ [k], hit) }
          else lookup_walk total_lvl rest lvl hit (pos ++ [k]) st1
      else lookup_walk total_lvl rest lvl dentry_cursor pos st1

/-- What `newfs_lookup` leaves behind: the returned entry, the two flags, and
the globals (the tree under `sb.root_dentry` with the record loaded at the
end, and the device).  `overrun` records that `strcpy(path_cpy, path)` wrote
past the `sizeof(path)` bytes requested for `path_cpy`, and `undefined_read`
that a `newfs_read_inode` of the call went through the read of the unassigned
pointer in `newfs_alloc_data`; the other fields are what the statements of the
function compute from `path`. -/
structure LookupResult where
  fault : Bool
  dentry_ret : Option newfs_dentry
  is_find : Bool
  is_root : Bool
  sb : newfs_super
  disk : Disk
  overrun : Bool
  undefined_read : Bool

/-- The function `newfs_lookup(path, is_find, is_root)`; `is_find0` is what
`*is_find` holds on entry.  `fault` records a dereference of `NULL`.  The
walk is over the tokens of `path`, which is what `strtok` finds in `path_cpy`
when the copy stays within its buffer. -/
def newfs_lookup (sb : newfs_super) (d : Disk) (path : List Nat) (is_find0 : Bool) :
    LookupResult :=
  match sb.root_dentry with
  | none =>
    { fault := true, dentry_ret := none, is_find := is_find0, is_root := false, sb := sb,
      disk := d, overrun := path_cpy_overrun path, undefined_read := false }
  | some root =>
    let total_lvl := newfs_calc_lvl path
    let st0 : LookupState :=
      if total_lvl = 0 then
        { fault := false, dentry_ret := some ([], root), is_find := true, is_root := true,
          sb := sb, disk := d, undefined_read := false }
      else
        { fault := false, dentry_ret := none, is_find := is_find0, is_root := false,
          sb := sb, disk := d, undefined_read := false }
    let st := lookup_walk total_lvl (strtok_all (c_string path) []) 0 root [] st0
    if st.fault then
      { fault := true, dentry_ret := none, is_find := st.is_find, is_root := st.is_root,
        sb := st.sb, disk := st.disk, overrun := path_cpy_overrun path,
        undefined_read := st.undefined_read }
    else
      match st.dentry_ret with
      | none =>
        { fault := true, dentry_ret := none, is_find := st.is_find, is_root := st.is_root,
          sb := st.sb, disk := st.disk, overrun := path_cpy_overrun path,
          undefined_read := st.undefined_read }
      | some (pos, dentry_ret) =>
        match dentry_ret.inode with
        | some _ =>
          { fault := false, dentry_ret := some dentry_ret, is_find := st.is_find,
            is_root := st.is_root, sb := st.sb, disk := st.disk,
            overrun := path_cpy_overrun path, undefined_read := st.undefined_read }
        | none =>
          let r := newfs_read_inode st.sb st.disk dentry_ret dentry_ret.ino
          { fault := false,
            dentry_ret := some (.mk dentry_ret.fname dentry_ret.ino r.ret dentry_ret.ftype),
            is_find := st.is_find, is_root := st.is_root,
            sb := { r.sb with root_dentry := some (dentry_set_inode r.ret root pos) },
            disk := r.disk, overrun := path_cpy_overrun path,
            undefined_read := st.undefined_read || r.undefined_read }

/-- Two super blocks agree on sizes, capacities and region offsets (all fields
but the bitmap buffers, the mounted flag and the root entry). -/
def layout_eq (a b : newfs_super) : Prop :=
  a.sz_io = b.sz_io ∧ a.sz_disk = b.sz_disk ∧ a.sz_blk = b.sz_blk ∧ a.sz_usage = b.sz_usage
  ∧ a.max_ino = b.max_ino ∧ a.max_data = b.max_data
  ∧ a.map_inode_blks = b.map_inode_blks ∧ a.map_inode_offset = b.map_inode_offset
  ∧ a.map_data_blks = b.map_data_blks ∧ a.map_data_offset = b.map_data_offset
  ∧ a.inode_offset = b.inode_offset ∧ a.data_offset = b.data_offset

/-- The root entry of an empty file system as `newfs_mount` builds it: name
`/`, index number 0, a loaded record without children. -/
def empty_root : newfs_dentry :=
  .mk (assign_fname [47]) 0
    (some (.mk 0 0 (List.replicate NEWFS_MAX_FILE_NAME 0) 0 [] [])) NEWFS_DIR

/-- Index records allocated by repeated `newfs_alloc_inode` (call `k` made for
the entry `ds k`) before the first call that fails; `none` when the fuel runs
out before a call fails. -/
def alloc_until_nospace (ds : Nat → newfs_dentry) : Nat → Nat → newfs_super → Option Nat
  | 0, _, _ => none
  | fuel + 1, k, sb =>
    match (newfs_alloc_inode sb (ds k)).ret with
    | .ok _ => (alloc_until_nospace ds fuel (k + 1) (newfs_alloc_inode sb (ds k)).sb).map (· + 1)
    | .error _ => some 0

/-! ## The persistence scenario -/

/-- Creating a directory named `fname` under the record `parent`, as the
operation layer does it: `new_dentry`, `newfs_alloc_dentry` on the parent
record, `newfs_alloc_inode` on the new entry.  The parent's child list holds
the entry itself in C, so the entry at its head is the bound one. -/
def make_dir (sb : newfs_super) (parent : newfs_inode) (fname : List Nat) :
    newfs_super × newfs_inode :=
  let dentry := new_dentry fname NEWFS_DIR
  let r := newfs_alloc_dentry sb parent dentry
  let a := newfs_alloc_inode r.sb dentry
  (a.sb, .mk r.inode.ino r.inode.size r.inode.target_path r.inode.dir_cnt
    (a.dentry :: r.inode.dentrys.tail) r.inode.data)

/-- What the persistence scenario observes. -/
structure PersistRun where
  /-- The lookup of `/a/b` before the unmount. -/
  before : LookupResult
  /-- The call of `newfs_umount`. -/
  umount : UmountResult
  /-- The second `newfs_mount`. -/
  mount2 : MountResult
  /-- The lookup of `/a/b` right after the second mount. -/
  after : LookupResult
  /-- The lookup of `/a` right after the second mount instead. -/
  after_a : LookupResult
  /-- The lookup of `/a/b` following that lookup of `/a`. -/
  after_a_b : LookupResult

/-- The persistence scenario on the device `d`: first-use mount, directory `/a`
under the root, directory `/a/b` under `/a`, unmount (with `junk` in the two
fields the local super block record is never given), mount again from a fresh
global super block, then the lookups. -/
def persist_scenario (d : Disk) (junk : newfs_super_d) : Option PersistRun :=
  let m := newfs_mount super_zero d
  match m.sb.root_dentry with
  | none => none
  | some root =>
    match root.inode with
    | none => none
    | some root_inode =>
      let mk_a := make_dir m.sb root_inode [97]
      let root1 := newfs_dentry.mk root.fname root.ino (some mk_a.2) root.ftype
      match mk_a.2.dentrys.head? with
      | none => none
      | some a =>
        match a.inode with
        | none => none
        | some a_inode =>
          let mk_b := make_dir mk_a.1 a_inode [98]
          let root2 := dentry_set_inode (some mk_b.2) root1 [0]
          let sb3 := { mk_b.1 with root_dentry := some root2 }
          let before := newfs_lookup sb3 m.disk [47, 97, 47, 98] false
          let u := newfs_umount before.sb before.disk junk
          let m2 := newfs_mount super_zero u.disk
          let after_a := newfs_lookup m2.sb m2.disk [47, 97] false
          some
            { before := before
              umount := u
              mount2 := m2
              after := newfs_lookup m2.sb m2.disk [47, 97, 47, 98] false
              after_a := after_a
              after_a_b := newfs_lookup after_a.sb after_a.disk [47, 97, 47, 98] false }

/-- The index number bound to the entry a lookup returns. -/
def LookupResult.ino (l : LookupResult) : Option Nat := l.dentry_ret.map newfs_dentry.ino

/-- Child count and size of the record loaded in the entry a lookup returns. -/
def LookupResult.meta (l : LookupResult) : Option (Int × Int) :=
  match l.dentry_ret with
  | none => none
  | some dentry => dentry.inode.map fun i => (i.dir_cnt, i.size)

/-! ## The writes of `newfs_sync_inode`, as a list -/

/-- One call `newfs_driver_write(offset, bytes, size)`. -/
structure Patch where
  offset : Nat
  bytes : List Nat
  size : Nat

mutual
/-- The calls of `newfs_driver_write` that `newfs_sync_inode` makes for a
record whose owner entry has type tag `ftype`, in order. -/
def inode_patches (sb : newfs_super) : newfs_inode → Nat → List Patch
  | .mk ino size target_path dir_cnt dentrys data, ftype =>
    { offset := NEWFS_INO_OFS sb ino
      bytes := inode_d_bytes { ino := ino, size := size, target_path := target_path,
                               dir_cnt := dir_cnt, ftype := ftype }
      size := SIZEOF_INODE_D } ::
    (if ftype = NEWFS_DIR then dentrys_patches sb dentrys (NEWFS_DATA_OFS sb ino)
     else if ftype = NEWFS_REG_FILE then
       [{ offset := NEWFS_DATA_OFS sb ino, bytes := data,
          size := NEWFS_BLKS_SZ sb NEWFS_DATA_PER_FILE }]
     else [])
/-- The calls that the loop over the children makes, starting at `offset`. -/
def dentrys_patches (sb : newfs_super) : List newfs_dentry → Nat → List Patch
  | [], _ => []
  | .mk fname ino inode ftype :: brother, offset =>
    { offset := offset
      bytes := dentry_d_bytes { fname := fname, ftype := ftype, ino := ino }
      size := SIZEOF_DENTRY_D } ::
    ((match inode with
      | some child => inode_patches sb child ftype
      | none => []) ++ dentrys_patches sb brother (offset + SIZEOF_DENTRY_D))
end

/-- The device after a list of `newfs_driver_write` calls. -/
def apply_patches (sb : newfs_super) : List Patch → Disk → Disk
  | [], d => d
  | p :: ps, d => apply_patches sb ps (newfs_driver_write sb d p.offset p.bytes p.size).disk

/-- The byte that one call writes at address `a` of a device of `sz` bytes, if
it writes there. -/
def patch_val (sb : newfs_super) (sz : Nat) (p : Patch) (a : Nat) : Option Nat :=
  if p.offset ≤ a ∧ a < p.offset + p.size
      ∧ a < ok_span sb { sz_disk := sz, sz_io := 0, mem := fun _ => 0, head := 0 } p.offset p.size
  then some (p.bytes.getD (a - p.offset) 0) else none

/-- The byte that the last call of a list to write at address `a` writes
there, if any call does. -/
def last_cover (sb : newfs_super) (sz : Nat) : List Patch → Nat → Option Nat
  | [], _ => none
  | p :: ps, a =>
    match last_cover sb sz ps a with
    | some v => some v
    | none => patch_val sb sz p a

/-! ## Well-formed records, for the round trip through the device -/

/-- The device bytes from `offset` on are the bytes `b`. -/
def mem_has (m : Nat → Nat) (offset : Nat) (b : List Nat) : Prop :=
  ∀ i, i < b.length → m (offset + i) = b.getD i 0

/-- The name field holds a C string padded with zero bytes, as
`new_dentry` leaves it. -/
def name_ok (fname : List Nat) : Bool := fname == assign_fname (c_string fname)

/-- A child entry whose name, type tag and index number fit their on-disk
fields. -/
def child_ok (dentry : newfs_dentry) : Bool :=
  name_ok dentry.fname && decide (dentry.ino < 4294967296) && decide (dentry.ftype < 4294967296)

mutual
/-- Every record loaded below (and including) this one has an index number
other than `ino0`, and every directory among them has a child list that fits
the six data blocks of its slot. -/
def inode_outside (sb : newfs_super) (ino0 : Nat) : newfs_inode → Nat → Bool
  | .mk ino _ _ _ dentrys _, ftype =>
    decide (ino ≠ ino0) &&
    (if ftype = NEWFS_DIR then
      decide (SIZEOF_DENTRY_D * dentrys.length ≤ NEWFS_BLKS_SZ sb NEWFS_DATA_PER_FILE)
        && dentrys_outside sb ino0 dentrys
     else true)
/-- The same for the records loaded in the entries of a child list. -/
def dentrys_outside (sb : newfs_super) (ino0 : Nat) : List newfs_dentry → Bool
  | [] => true
  | .mk _ _ inode ftype :: brother =>
    (match inode with
     | some child => inode_outside sb ino0 child ftype
     | none => true) && dentrys_outside sb ino0 brother
end

/-- A record, owned by an entry of type tag `ftype`, that the on-disk form can
hold: values within their fields, the child count equal to the length of the
child list, children only under a directory and fitting its data area, a data
buffer of six blocks under a regular file, and the records loaded below stored
in other slots. -/
def record_ok (sb : newfs_super) (ftype : Nat) (r : newfs_inode) : Bool :=
  decide (r.ino < 4294967296) && decide (-2147483648 ≤ r.size) && decide (r.size < 2147483648)
  && decide (r.target_path.length = NEWFS_MAX_FILE_NAME)
  && decide (r.dir_cnt = (r.dentrys.length : Int)) && decide (r.dir_cnt < 2147483648)
  && (if ftype = NEWFS_DIR then
        decide (SIZEOF_DENTRY_D * r.dentrys.length ≤ NEWFS_BLKS_SZ sb NEWFS_DATA_PER_FILE)
          && r.dentrys.all child_ok && dentrys_outside sb r.ino r.dentrys
      else decide (r.dentrys.length = 0))
  && (if ftype = NEWFS_REG_FILE
        then decide (r.data.length = NEWFS_BLKS_SZ sb NEWFS_DATA_PER_FILE) else true)

/-- A super block as `newfs_mount` lays it out, as far as addressing goes: a
positive I/O unit, blocks of two units, slots that start on a unit boundary,
and a block that holds an on-disk index record. -/
def super_ok (sb : newfs_super) : Prop :=
  0 < sb.sz_io ∧ sb.sz_blk = sb.sz_io * 2 ∧ sb.sz_io ∣ sb.data_offset
    ∧ SIZEOF_INODE_D ≤ sb.sz_blk

instance (sb : newfs_super) : Decidable (super_ok sb) := by
  unfold super_ok; infer_instance

/-- Name, type tag and bound index number of the children of a record, head
first. -/
def child_keys (r : newfs_inode) : List (List Nat × Nat × Nat) :=
  r.dentrys.map fun c => (c.fname, c.ftype, c.ino)

/-- The bytes that the child loop of `newfs_sync_inode` lays down in the data
area for a child list: the on-disk entries one after the other. -/
def dentrys_image : List newfs_dentry → List Nat
  | [] => []
  | dentry :: brother => dentry_d_bytes (dentry_d_of dentry) ++ dentrys_image brother

/-- A write that does not touch the slot of index number `ino0`. -/
def patch_outside (sb : newfs_super) (ino0 : Nat) (p : Patch) : Prop :=
  p.offset + p.size ≤ NEWFS_INO_OFS sb ino0 ∨ NEWFS_INO_OFS sb (ino0 + 1) ≤ p.offset

/-- A child entry as `newfs_read_inode` rebuilds it: the same name, type tag
and bound index number, no record loaded. -/
def unloaded (dentry : newfs_dentry) : newfs_dentry :=
  .mk dentry.fname dentry.ino none dentry.ftype

/-- A directory record with two children, `a` (a directory, index number 2)
and `b` (a regular file, index number 3), for worked examples. -/
def two_child_dir : newfs_inode :=
  .mk 1 0 (List.replicate NEWFS_MAX_FILE_NAME 0) 2
    [.mk (assign_fname [97]) 2 none NEWFS_DIR, .mk (assign_fname [98]) 3 none NEWFS_REG_FILE] []

/-- The entry that owns `two_child_dir`. -/
def two_child_owner : newfs_dentry := .mk (assign_fname [100]) 1 none NEWFS_DIR

/-! ## Bits of a bitmap, and further scenarios -/

/-- The test `map[byte_cursor] & (0x1 << bit_cursor)` of the bitmap scans, for
the unit `j` (byte `j / 8`, bit `j % 8`): whether the bit of unit `j` is set. -/
def map_bit (m : List Nat) (j : Nat) : Bool :=
  m.getD (j / UINT8_BITS) 0 &&& (1 <<< (j % UINT8_BITS)) != 0

/-- The statement `map[byte_cursor] |= (0x1 << bit_cursor)` for the unit `j`. -/
def map_set_bit (m : List Nat) (j : Nat) : List Nat :=
  m.set (j / UINT8_BITS) (m.getD (j / UINT8_BITS) 0 ||| (1 <<< (j % UINT8_BITS)))

/-- The small super block with index numbers 0 and 1 taken, for worked
examples. -/
def small_super_used : newfs_super := { small_super with map_inode := [3, 0] }

/-- The state after the first-use mount, in a fresh process, of a zero-filled
4 MiB device with 512-byte units, for worked examples. -/
def mount_4m : MountResult := newfs_mount super_zero (zero_disk 4194304 512)

/-- What the two fields `max_ino` and `max_data` of the local record of
`newfs_umount` may hold in a worked example: left-over values. -/
def stack_junk : newfs_super_d := { super_d_of_bytes [] with max_ino := 12345, max_data := 6789 }

/-- What the remount scenario observes. -/
structure RemountRun where
  /-- The first-use `newfs_mount`. -/
  mount1 : MountResult
  /-- The call of `newfs_umount`. -/
  umount : UmountResult
  /-- The second `newfs_mount`, made by a fresh process. -/
  mount2 : MountResult
  /-- The second `newfs_mount`, made instead by the process that unmounted. -/
  mount2_same : MountResult

/-- The remount scenario on the device `d`: first-use mount in a fresh
process, unmount (with `junk` in the two fields the local super block record
is never given), then a second mount, either from a fresh global super block
or from the one the unmount left. -/
def remount_scenario (d : Disk) (junk : newfs_super_d) : RemountRun :=
  let m1 := newfs_mount super_zero d
  let u := newfs_umount m1.sb m1.disk junk
  { mount1 := m1, umount := u, mount2 := newfs_mount super_zero u.disk,
    mount2_same := newfs_mount u.sb u.disk }

/-- The counts and offsets of a super block that the on-disk record has a
field for, besides the two capacities: usage counter, index-bitmap blocks and
offset, data-bitmap blocks and offset, index-region offset, data-region
offset. -/
def newfs_super.regions (sb : newfs_super) : List Nat :=
  [sb.sz_usage, sb.map_inode_blks, sb.map_inode_offset, sb.map_data_blks, sb.map_data_offset,
   sb.inode_offset, sb.data_offset]

/-- Creating a regular file named `fname` under the record `parent`, by the
same three steps as `make_dir`. -/
def make_file (sb : newfs_super) (parent : newfs_inode) (fname : List Nat) :
    newfs_super × newfs_inode :=
  let dentry := new_dentry fname NEWFS_REG_FILE
  let r := newfs_alloc_dentry sb parent dentry
  let a := newfs_alloc_inode r.sb dentry
  (a.sb, .mk r.inode.ino r.inode.size r.inode.target_path r.inode.dir_cnt
    (a.dentry :: r.inode.dentrys.tail) r.inode.data)

/-- The globals after a first-use mount of the device `d` in a fresh process
and the creation of the regular file `/fname`: super block and device; `none`
when the mount leaves no root record. -/
def file_scenario (d : Disk) (fname : List Nat) : Option (newfs_super × Disk) :=
  let m := newfs_mount super_zero d
  match m.sb.root_dentry with
  | none => none
  | some root =>
    match root.inode with
    | none => none
    | some root_inode =>
      let mk_f := make_file m.sb root_inode fname
      some ({ mk_f.1 with root_dentry := some (.mk root.fname root.ino (some mk_f.2) root.ftype) },
        m.disk)

/-- A 4 MiB device with 512-byte units that held other data before: all bytes
zero except byte 1024 (the first byte of block 1, value 1) and byte 601092
(value 77). -/
def stale_disk : Disk :=
  { sz_disk := 4194304, sz_io := 512,
    mem := fun a => if a = 1024 then 1 else if a = 601092 then 77 else 0, head := 0 }

/-- Index number, size, child count and number of children of the record
loaded in the root entry of a super block. -/
def root_record_info (sb : newfs_super) : Option (Nat × Int × Int × Nat) :=
  match sb.root_dentry with
  | none => none
  | some root => root.inode.map fun r => (r.ino, r.size, r.dir_cnt, r.dentrys.length)

/-! ## Paths, and further worked examples -/

/-- The path string `/t1/t2/.../tn` whose components are `ts`: each component
preceded by one `/`.  Not in the source: it names the well-formed absolute
paths. -/
def abs_path : List (List Nat) → List Nat
  | [] => []
  | t :: ts => 47 :: (t ++ abs_path ts)

/-- A path component: not empty, without NUL and without `/`. -/
def component_ok (t : List Nat) : Bool :=
  !t.isEmpty && t.all fun x => x != 0 && x != 47

/-- A mounted super block for worked examples: the root directory holds the
regular files `abc` (index number 2, added last, at the head) and `ab` (index
number 1), neither with its record loaded. -/
def two_name_super : newfs_super :=
  { small_super_used with
    is_mounted := true
    root_dentry := some (.mk (assign_fname [47]) 0 (some (.mk 0 0 (List.replicate NEWFS_MAX_FILE_NAME 0) 2 [.mk (assign_fname [97, 98, 99]) 2 none NEWFS_REG_FILE, .mk (assign_fname [97, 98]) 1 none NEWFS_REG_FILE] [])) NEWFS_DIR) }

/-- A directory record with index number `ino` and `n` children, each a
directory entry named `x` bound to index number 7 whose record is not loaded,
for worked examples. -/
def crowded_dir (ino n : Nat) : newfs_inode :=
  .mk ino 0 (List.replicate NEWFS_MAX_FILE_NAME 0) n
    (List.replicate n (.mk (assign_fname [120]) 7 none NEWFS_DIR)) []

/-! ## Further scenarios: a large device, a full data bitmap, a long name -/

/-- The state after the first-use mount, in a fresh process, of a zero-filled
device of 2000 MiB with 4096-byte I/O units, for worked examples. -/
def mount_2000m : MountResult := newfs_mount super_zero (zero_disk 2097152000 4096)

/-- The same for a device of 2000 MiB with 512-byte I/O units. -/
def mount_2000m_512 : MountResult := newfs_mount super_zero (zero_disk 2097152000 512)

/-- No clear bit in the part of the data bitmap that `newfs_alloc_data` scans:
the call then returns `-NEWFS_ERROR_NOSPACE` right after the scan. -/
def map_data_full (sb : newfs_super) : Bool :=
  !(map_scan (NEWFS_BLKS_SZ sb sb.map_data_blks) sb.map_data 0).is_find_free_entry

/-- The super block of `mount_4m` once every bit of its data bitmap is in
use, for worked examples. -/
def mount_4m_full : newfs_super := { mount_4m.sb with map_data := List.replicate 1024 255 }

/-- A mounted super block for worked examples: the root directory holds one
regular file whose name is 100 letters `a` (index number 1, record not
loaded, as `newfs_mount` leaves the children of the root). -/
def long_name_super : newfs_super :=
  { small_super_used with
    is_mounted := true
    root_dentry := some (.mk (assign_fname [47]) 0 (some (.mk 0 0 (List.replicate NEWFS_MAX_FILE_NAME 0) 1 [.mk (assign_fname (List.replicate 100 97)) 1 none NEWFS_REG_FILE] [])) NEWFS_DIR) }

/-! # Theorems -/

/-! ## Rounding -/

theorem round_down_eq (v r : Nat) : NEWFS_ROUND_DOWN v r = v / r * r := by
  unfold NEWFS_ROUND_DOWN
  split
  · next h =>
    have := Nat.div_add_mod v r
    rw [h] at this
    rw [Nat.mul_comm]; omega
  · rfl

theorem round_down_le (v r : Nat) : NEWFS_ROUND_DOWN v r ≤ v := by
  rw [round_down_eq]; exact Nat.div_mul_le_self v r

theorem round_down_bias (v r : Nat) : v - NEWFS_ROUND_DOWN v r = v % r := by
  rw [round_down_eq]
  have := Nat.div_add_mod v r
  rw [Nat.mul_comm] at this
  omega

theorem round_up_ge (v r : Nat) (hr : 0 < r) : v ≤ NEWFS_ROUND_UP v r := by
  unfold NEWFS_ROUND_UP
  split
  · exact le_refl _
  · have := Nat.div_add_mod v r
    have h2 := Nat.mod_lt v hr
    rw [Nat.add_mul, Nat.mul_comm]
    omega

theorem round_up_div_mul (v r : Nat) : NEWFS_ROUND_UP v r / r * r = NEWFS_ROUND_UP v r := by
  unfold NEWFS_ROUND_UP
  split
  · next h => exact Nat.div_mul_cancel (Nat.dvd_of_mod_eq_zero h)
  · rcases Nat.eq_zero_or_pos r with h0 | hr
    · subst h0; simp
    · rw [Nat.mul_div_cancel _ hr]

/-! ## The unit loops -/

theorem ok_units_fail (io sz n h : Nat) (hf : ¬ h + io ≤ sz) : ok_units io sz n h = 0 := by
  cases n with
  | zero => rfl
  | succ m => simp [ok_units, hf]

theorem ok_units_all (io sz : Nat) : ∀ (n h : Nat), h + n * io ≤ sz → ok_units io sz n h = n := by
  intro n
  induction n with
  | zero => intro h _; rfl
  | succ m ih =>
    intro h hle
    have e : (m + 1) * io = m * io + io := by ring
    rw [e] at hle
    have h1 : h + io ≤ sz := by omega
    simp only [ok_units, h1, if_true]
    rw [ih (h + io) (by omega)]

theorem ok_units_le (io sz : Nat) : ∀ (n h : Nat), ok_units io sz n h ≤ n := by
  intro n
  induction n with
  | zero => intro h; simp [ok_units]
  | succ m ih =>
    intro h
    simp only [ok_units]
    split
    · have := ih (h + io); omega
    · omega

theorem read_loop_spec (io : Nat) (hio : 0 < io) :
    ∀ (fuel n cur : Nat) (d : Disk) (temp : Nat → Nat), n ≤ fuel →
      read_loop io fuel (n * io) cur d temp =
        ({ d with head := d.head + ok_units io d.sz_disk n d.head * io },
         fun i => if cur ≤ i ∧ i < cur + ok_units io d.sz_disk n d.head * io
                  then d.mem (d.head + (i - cur)) else temp i) := by
  intro fuel
  induction fuel with
  | zero =>
    intro n cur d temp hn
    have : n = 0 := by omega
    subst this
    simp only [read_loop, ok_units, Nat.zero_mul, Nat.add_zero]
    refine Prod.ext rfl ?_
    funext i
    simp only
    rw [if_neg (by omega)]
  | succ f ih =>
    intro n cur d temp hn
    cases n with
    | zero =>
      simp only [read_loop, ok_units, Nat.zero_mul, Nat.add_zero, ne_eq, not_true_eq_false,
        if_false]
      refine Prod.ext rfl ?_
      funext i
      simp only
      rw [if_neg (by omega)]
    | succ m =>
      have hne : (m + 1) * io ≠ 0 := by positivity
      have hsub : (m + 1) * io - io = m * io := by
        have : (m + 1) * io = m * io + io := by ring
        omega
      simp only [read_loop, hne, ne_eq, not_false_eq_true, if_true, hsub]
      by_cases hok : d.head + io ≤ d.sz_disk
      · simp only [ddriver_read, hok, if_true, ok_units]
        rw [ih m (cur + io) _ _ (by omega)]
        have e : (ok_units io d.sz_disk m (d.head + io) + 1) * io
            = ok_units io d.sz_disk m (d.head + io) * io + io := by ring
        refine Prod.ext ?_ ?_
        · simp only [e]
          show ({ sz_disk := _, sz_io := _, mem := _, head := _ } : Disk) = _
          congr 1
          omega
        · funext i
          simp only [e]
          by_cases h1 : cur + io ≤ i ∧ i < cur + io + ok_units io d.sz_disk m (d.head + io) * io
          · rw [if_pos h1, if_pos (by omega)]
            congr 1; omega
          · rw [if_neg h1]
            by_cases h2 : cur ≤ i ∧ i < cur + io
            · rw [if_pos h2, if_pos (by omega)]
            · rw [if_neg h2, if_neg (by omega)]
      · simp only [ddriver_read, hok, if_false]
        rw [ih m (cur + io) _ _ (by omega)]
        rw [ok_units_fail io d.sz_disk m d.head hok, ok_units_fail io d.sz_disk (m + 1) d.head hok]
        refine Prod.ext rfl ?_
        funext i
        simp only [Nat.zero_mul, Nat.add_zero]
        rw [if_neg (by omega), if_neg (by omega)]

theorem write_loop_spec (io : Nat) (hio : 0 < io) (temp : Nat → Nat) :
    ∀ (fuel n cur : Nat) (d : Disk), n ≤ fuel →
      write_loop io temp fuel (n * io) cur d =
        { d with
            head := d.head + ok_units io d.sz_disk n d.head * io,
            mem := fun a => if d.head ≤ a ∧ a < d.head + ok_units io d.sz_disk n d.head * io
                     then temp (cur + (a - d.head)) else d.mem a } := by
  intro fuel
  induction fuel with
  | zero =>
    intro n cur d hn
    have : n = 0 := by omega
    subst this
    simp only [write_loop, ok_units, Nat.zero_mul, Nat.add_zero]
    show d = ({ sz_disk := _, sz_io := _, mem := _, head := _ } : Disk)
    cases d
    congr 1
    funext a
    simp only
    rw [if_neg (by omega)]
  | succ f ih =>
    intro n cur d hn
    cases n with
    | zero =>
      simp only [write_loop, ok_units, Nat.zero_mul, Nat.add_zero, ne_eq, not_true_eq_false,
        if_false]
      show d = ({ sz_disk := _, sz_io := _, mem := _, head := _ } : Disk)
      cases d
      congr 1
      funext a
      simp only
      rw [if_neg (by omega)]
    | succ m =>
      have hne : (m + 1) * io ≠ 0 := by positivity
      have hsub : (m + 1) * io - io = m * io := by
        have : (m + 1) * io = m * io + io := by ring
        omega
      simp only [write_loop, hne, ne_eq, not_false_eq_true, if_true, hsub]
      by_cases hok : d.head + io ≤ d.sz_disk
      · simp only [ddriver_write, hok, if_true, ok_units]
        rw [ih m (cur + io) _ (by omega)]
        have e : (ok_units io d.sz_disk m (d.head + io) + 1) * io
            = ok_units io d.sz_disk m (d.head + io) * io + io := by ring
        simp only [e]
        show ({ sz_disk := _, sz_io := _, mem := _, head := _ } : Disk)
          = ({ sz_disk := _, sz_io := _, mem := _, head := _ } : Disk)
        congr 1
        · funext a
          by_cases h1 : d.head + io ≤ a ∧ a < d.head + io + ok_units io d.sz_disk m (d.head + io) * io
          · rw [if_pos h1, if_pos (by omega)]
            congr 1; omega
          · rw [if_neg h1]
            by_cases h2 : d.head ≤ a ∧ a < d.head + io
            · rw [if_pos h2, if_pos (by omega)]
            · rw [if_neg h2, if_neg (by omega)]
        · omega
      · simp only [ddriver_write, hok, if_false]
        rw [ih m (cur + io) _ (by omega)]
        rw [ok_units_fail io d.sz_disk m d.head hok, ok_units_fail io d.sz_disk (m + 1) d.head hok]
        simp only [Nat.zero_mul, Nat.add_zero]
        show ({ sz_disk := _, sz_io := _, mem := _, head := _ } : Disk)
          = ({ sz_disk := _, sz_io := _, mem := _, head := _ } : Disk)
        congr 1
        funext a
        rw [if_neg (by omega), if_neg (by omega)]

/-! ## The driver functions -/

theorem round_down_idem (v r : Nat) : NEWFS_ROUND_DOWN (NEWFS_ROUND_DOWN v r) r = NEWFS_ROUND_DOWN v r := by
  rw [round_down_eq, round_down_eq]
  rcases Nat.eq_zero_or_pos r with h0 | hr
  · subst h0; simp
  · rw [Nat.mul_div_cancel _ hr]

theorem round_up_idem (v r : Nat) : NEWFS_ROUND_UP (NEWFS_ROUND_UP v r) r = NEWFS_ROUND_UP v r := by
  have h := round_up_div_mul v r
  generalize NEWFS_ROUND_UP v r = u at h
  unfold NEWFS_ROUND_UP
  split
  · rfl
  · next hne =>
    exfalso; apply hne
    rw [← h]; exact Nat.mul_mod_left _ _

theorem getD_map_range (f : Nat → Nat) (n i : Nat) :
    ((List.range n).map f).getD i 0 = if i < n then f i else 0 := by
  rw [List.getD_eq_getElem?_getD]
  by_cases h : i < n
  · rw [if_pos h, List.getElem?_map, List.getElem?_range h]; rfl
  · rw [if_neg h, List.getElem?_eq_none (by simpa using h)]; rfl

theorem ok_span_le (sb : newfs_super) (d : Disk) (offset size : Nat) :
    ok_span sb d offset size ≤ NEWFS_ROUND_DOWN offset sb.sz_io +
      NEWFS_ROUND_UP (size + (offset - NEWFS_ROUND_DOWN offset sb.sz_io)) sb.sz_io := by
  unfold ok_span
  have h1 := ok_units_le sb.sz_io d.sz_disk
    (NEWFS_ROUND_UP (size + (offset - NEWFS_ROUND_DOWN offset sb.sz_io)) sb.sz_io / sb.sz_io)
    (NEWFS_ROUND_DOWN offset sb.sz_io)
  have h2 := round_up_div_mul (size + (offset - NEWFS_ROUND_DOWN offset sb.sz_io)) sb.sz_io
  have h3 := Nat.mul_le_mul_right sb.sz_io h1
  omega

theorem ok_span_ge (sb : newfs_super) (d : Disk) (offset size : Nat) :
    NEWFS_ROUND_DOWN offset sb.sz_io ≤ ok_span sb d offset size := by
  unfold ok_span; omega

theorem ok_span_full (sb : newfs_super) (d : Disk) (offset size : Nat)
    (h : NEWFS_ROUND_DOWN offset sb.sz_io +
      NEWFS_ROUND_UP (size + (offset - NEWFS_ROUND_DOWN offset sb.sz_io)) sb.sz_io ≤ d.sz_disk) :
    ok_span sb d offset size = NEWFS_ROUND_DOWN offset sb.sz_io +
      NEWFS_ROUND_UP (size + (offset - NEWFS_ROUND_DOWN offset sb.sz_io)) sb.sz_io := by
  unfold ok_span
  have h2 := round_up_div_mul (size + (offset - NEWFS_ROUND_DOWN offset sb.sz_io)) sb.sz_io
  rw [ok_units_all _ _ _ _ (by rw [h2]; exact h), h2]

theorem ok_span_aligned (sb : newfs_super) (d : Disk) (offset size : Nat) :
    ok_span sb d (NEWFS_ROUND_DOWN offset sb.sz_io)
        (NEWFS_ROUND_UP (size + (offset - NEWFS_ROUND_DOWN offset sb.sz_io)) sb.sz_io)
      = ok_span sb d offset size := by
  unfold ok_span
  rw [round_down_idem, Nat.sub_self, Nat.add_zero, round_up_idem]

/-- What `newfs_driver_read` returns, on every device: the bytes of the device
as far as the unit loop reaches, zero beyond, and only the head moves. -/
theorem newfs_driver_read_spec (sb : newfs_super) (d : Disk) (offset size : Nat)
    (hio : 0 < sb.sz_io) :
    newfs_driver_read sb d offset size =
      { ret := NEWFS_ERROR_NONE
        disk := { d with head := ok_span sb d offset size }
        content := (List.range size).map fun i =>
          if offset + i < ok_span sb d offset size then d.mem (offset + i) else 0 } := by
  have hsa := round_up_div_mul (size + (offset - NEWFS_ROUND_DOWN offset sb.sz_io)) sb.sz_io
  have hle := round_down_le offset sb.sz_io
  unfold newfs_driver_read
  simp only
  have hloop := read_loop_spec sb.sz_io hio
    (NEWFS_ROUND_UP (size + (offset - NEWFS_ROUND_DOWN offset sb.sz_io)) sb.sz_io)
    (NEWFS_ROUND_UP (size + (offset - NEWFS_ROUND_DOWN offset sb.sz_io)) sb.sz_io / sb.sz_io)
    0 (ddriver_seek d (NEWFS_ROUND_DOWN offset sb.sz_io)) (fun _ => 0)
    (Nat.div_le_self _ _)
  rw [hsa] at hloop
  rw [hloop]
  simp only [ddriver_seek, ok_span]
  congr 1
  apply List.map_congr_left
  intro i _
  simp only [Nat.zero_le, true_and, Nat.zero_add, Nat.sub_zero]
  by_cases hc : offset - NEWFS_ROUND_DOWN offset sb.sz_io + i <
      ok_units sb.sz_io d.sz_disk
        (NEWFS_ROUND_UP (size + (offset - NEWFS_ROUND_DOWN offset sb.sz_io)) sb.sz_io / sb.sz_io)
        (NEWFS_ROUND_DOWN offset sb.sz_io) * sb.sz_io
  · rw [if_pos hc, if_pos (by omega)]
    congr 1; omega
  · rw [if_neg hc, if_neg (by omega)]

/-- What `newfs_driver_write` does, on every device: the bytes of
`[offset, offset + size)` that the unit loop reaches take the caller's values,
every other byte keeps its value. -/
theorem newfs_driver_write_spec (sb : newfs_super) (d : Disk) (offset : Nat) (b : List Nat)
    (size : Nat) (hio : 0 < sb.sz_io) :
    newfs_driver_write sb d offset b size =
      { ret := NEWFS_ERROR_NONE
        disk := { d with
          head := ok_span sb d offset size
          mem := fun a =>
            if offset ≤ a ∧ a < offset + size ∧ a < ok_span sb d offset size
            then b.getD (a - offset) 0 else d.mem a }
        content := [] } := by
  have hsa := round_up_div_mul (size + (offset - NEWFS_ROUND_DOWN offset sb.sz_io)) sb.sz_io
  have hle := round_down_le offset sb.sz_io
  have hspan := ok_span_le sb d offset size
  have hspan2 := ok_span_ge sb d offset size
  have hal := ok_span_aligned sb d offset size
  have hrd := newfs_driver_read_spec sb d (NEWFS_ROUND_DOWN offset sb.sz_io)
    (NEWFS_ROUND_UP (size + (offset - NEWFS_ROUND_DOWN offset sb.sz_io)) sb.sz_io) hio
  rw [hal] at hrd
  have hsp : NEWFS_ROUND_DOWN offset sb.sz_io +
      ok_units sb.sz_io d.sz_disk
        (NEWFS_ROUND_UP (size + (offset - NEWFS_ROUND_DOWN offset sb.sz_io)) sb.sz_io / sb.sz_io)
        (NEWFS_ROUND_DOWN offset sb.sz_io) * sb.sz_io = ok_span sb d offset size := rfl
  unfold newfs_driver_write
  simp only
  generalize ok_span sb d offset size = sp at hrd hsp hspan hspan2 ⊢
  generalize NEWFS_ROUND_DOWN offset sb.sz_io = oa at hrd hsp hspan hspan2 hle hsa ⊢
  generalize NEWFS_ROUND_UP (size + (offset - oa)) sb.sz_io = sa at hrd hsp hspan hsa ⊢
  have hloop := fun temp dk => write_loop_spec sb.sz_io hio temp sa (sa / sb.sz_io) 0 dk
    (Nat.div_le_self _ _)
  rw [hsa] at hloop
  rw [hrd, hloop]
  simp only [ddriver_seek, hsp]
  congr 2
  funext a
  simp only [getD_map_range, Nat.zero_add]
  by_cases h1 : oa ≤ a ∧ a < sp
  · rw [if_pos h1]
    by_cases h2 : offset ≤ a ∧ a < offset + size
    · have c1 : offset - oa ≤ a - oa ∧ a - oa < offset - oa + size := by omega
      have c2 : offset ≤ a ∧ a < offset + size ∧ a < sp := by omega
      rw [if_pos c1, if_pos c2]
      congr 1; omega
    · have c1 : ¬ (offset - oa ≤ a - oa ∧ a - oa < offset - oa + size) := by omega
      have c2 : ¬ (offset ≤ a ∧ a < offset + size ∧ a < sp) := by omega
      have c3 : a - oa < sa := by omega
      have c4 : oa + (a - oa) < sp := by omega
      rw [if_neg c1, if_neg c2, if_pos c3, if_pos c4]
      congr 1; omega
  · have c2 : ¬ (offset ≤ a ∧ a < offset + size ∧ a < sp) := by omega
    rw [if_neg h1, if_neg c2]

theorem ok_span_inside (sb : newfs_super) (d : Disk) (offset size : Nat)
    (hio : 0 < sb.sz_io) (h : span_inside sb d offset size) :
    offset + size ≤ ok_span sb d offset size := by
  rw [ok_span_full sb d offset size h]
  have h1 := round_up_ge (size + (offset - NEWFS_ROUND_DOWN offset sb.sz_io)) sb.sz_io hio
  have h2 := round_down_le offset sb.sz_io
  omega

theorem newfs_driver_read_inside (sb : newfs_super) (d : Disk) (offset size : Nat)
    (hio : 0 < sb.sz_io) (h : span_inside sb d offset size) :
    (newfs_driver_read sb d offset size).content
      = (List.range size).map fun i => d.mem (offset + i) := by
  rw [newfs_driver_read_spec sb d offset size hio]
  have hs := ok_span_inside sb d offset size hio h
  apply List.map_congr_left
  intro i hi
  have : i < size := by simpa using hi
  rw [if_pos (by omega)]

theorem newfs_driver_read_mem (sb : newfs_super) (d : Disk) (offset size : Nat)
    (hio : 0 < sb.sz_io) :
    (newfs_driver_read sb d offset size).disk.mem = d.mem
      ∧ (newfs_driver_read sb d offset size).disk.sz_disk = d.sz_disk
      ∧ (newfs_driver_read sb d offset size).disk.sz_io = d.sz_io := by
  rw [newfs_driver_read_spec sb d offset size hio]
  exact ⟨rfl, rfl, rfl⟩

theorem newfs_driver_write_inside (sb : newfs_super) (d : Disk) (offset : Nat) (b : List Nat)
    (size : Nat) (hio : 0 < sb.sz_io) (h : span_inside sb d offset size) :
    (newfs_driver_write sb d offset b size).disk.mem
      = fun a => if offset ≤ a ∧ a < offset + size then b.getD (a - offset) 0 else d.mem a := by
  rw [newfs_driver_write_spec sb d offset b size hio]
  have hs := ok_span_inside sb d offset size hio h
  funext a
  simp only
  by_cases hc : offset ≤ a ∧ a < offset + size
  · rw [if_pos hc, if_pos (by omega)]
  · rw [if_neg hc, if_neg (by omega)]

theorem newfs_driver_write_size (sb : newfs_super) (d : Disk) (offset : Nat) (b : List Nat)
    (size : Nat) (hio : 0 < sb.sz_io) :
    (newfs_driver_write sb d offset b size).disk.sz_disk = d.sz_disk
      ∧ (newfs_driver_write sb d offset b size).disk.sz_io = d.sz_io := by
  rw [newfs_driver_write_spec sb d offset b size hio]
  exact ⟨rfl, rfl⟩

theorem map_range_getD (b : List Nat) :
    ((List.range b.length).map fun i => b.getD i 0) = b := by
  apply List.ext_getElem
  · simp
  · intro i h1 h2
    simp only [List.getElem_map, List.getElem_range]
    rw [List.getD_eq_getElem?_getD, List.getElem?_eq_getElem h2]
    rfl

/-! ## C1 -/

/-- C1: for every I/O unit `sz_io > 0`, every offset and every byte string `b`
whose aligned span lies inside the device, `newfs_driver_write(offset, b, size)`
followed by `newfs_driver_read(offset, out, size)` returns exactly `b`, both
calls return `NEWFS_ERROR_NONE`, and every device byte outside
`[offset, offset + size)` keeps the value it had before the write. -/
theorem newfs_driver_write_read_roundtrip (sb : newfs_super) (d : Disk) (offset : Nat)
    (b : List Nat) (hio : 0 < sb.sz_io) (h : span_inside sb d offset b.length) :
    (newfs_driver_write sb d offset b b.length).ret = NEWFS_ERROR_NONE
    ∧ (newfs_driver_read sb (newfs_driver_write sb d offset b b.length).disk offset b.length).ret
        = NEWFS_ERROR_NONE
    ∧ (newfs_driver_read sb (newfs_driver_write sb d offset b b.length).disk offset b.length).content
        = b
    ∧ ∀ a, ¬ (offset ≤ a ∧ a < offset + b.length) →
        (newfs_driver_write sb d offset b b.length).disk.mem a = d.mem a := by
  have hsz := (newfs_driver_write_size sb d offset b b.length hio).1
  have h2 : span_inside sb (newfs_driver_write sb d offset b b.length).disk offset b.length := by
    unfold span_inside at h ⊢
    rw [hsz]; exact h
  refine ⟨rfl, rfl, ?_, ?_⟩
  · rw [newfs_driver_read_inside sb _ offset b.length hio h2,
      newfs_driver_write_inside sb d offset b b.length hio h]
    conv_rhs => rw [← map_range_getD b]
    apply List.map_congr_left
    intro i hi
    have : i < b.length := by simpa using hi
    simp only
    rw [if_pos (by omega)]
    congr 1; omega
  · intro a ha
    rw [newfs_driver_write_inside sb d offset b b.length hio h]
    simp only
    rw [if_neg ha]

/-- C1 at a concrete input: three bytes written at offset 700 of a 4096-byte
device with 512-byte units. -/
theorem newfs_driver_write_read_roundtrip_witness :
    (newfs_driver_write { super_zero with sz_io := 512 } (zero_disk 4096 512) 700 [1, 2, 3] 3).ret
        = NEWFS_ERROR_NONE
    ∧ (newfs_driver_read { super_zero with sz_io := 512 }
        (newfs_driver_write { super_zero with sz_io := 512 } (zero_disk 4096 512) 700 [1, 2, 3] 3).disk
        700 3).ret = NEWFS_ERROR_NONE
    ∧ (newfs_driver_read { super_zero with sz_io := 512 }
        (newfs_driver_write { super_zero with sz_io := 512 } (zero_disk 4096 512) 700 [1, 2, 3] 3).disk
        700 3).content = [1, 2, 3]
    ∧ ∀ a, ¬ (700 ≤ a ∧ a < 700 + 3) →
        (newfs_driver_write { super_zero with sz_io := 512 } (zero_disk 4096 512) 700 [1, 2, 3] 3).disk.mem a
          = (zero_disk 4096 512).mem a :=
  newfs_driver_write_read_roundtrip { super_zero with sz_io := 512 } (zero_disk 4096 512) 700
    [1, 2, 3] (by decide) (by decide)

/-! ## The bitmap allocator -/

theorem bit_scan_low (t : Nat) (ht : t ≤ 8) :
    bit_scan (2 ^ t - 1) UINT8_BITS 0 = if t < 8 then some t else none := by
  interval_cases t <;> decide

theorem lor_low (t : Nat) (ht : t < 8) : (2 ^ t - 1) ||| (1 <<< t) = 2 ^ (t + 1) - 1 := by
  interval_cases t <;> decide

theorem popcount_byte_low (t : Nat) (ht : t ≤ 8) : popcount_byte (2 ^ t - 1) = t := by
  interval_cases t <;> decide

theorem low_bits_map_zero : ∀ n, low_bits_map n 0 = List.replicate n 0
  | 0 => rfl
  | n + 1 => by
    simp only [low_bits_map, List.replicate_succ, Nat.zero_sub]
    rw [low_bits_map_zero n]; rfl

theorem low_bits_map_length : ∀ n j, (low_bits_map n j).length = n
  | 0, _ => rfl
  | n + 1, j => by simp [low_bits_map, low_bits_map_length n]

theorem popcount_low_bits_map : ∀ n j, popcount (low_bits_map n j) = min j (8 * n)
  | 0, j => by simp [low_bits_map, popcount]
  | n + 1, j => by
    have ih := popcount_low_bits_map n (j - 8)
    unfold popcount at ih ⊢
    simp only [low_bits_map, List.map_cons, List.sum_cons, ih]
    rw [popcount_byte_low _ (Nat.min_le_right j 8)]
    omega

/-- The scan on a bitmap whose first `j` bits are set: it finds bit `j` and sets
it, or finds nothing when the buffer is full. -/
theorem map_scan_low : ∀ (n j c : Nat),
    map_scan n (low_bits_map n j) c =
      if j < 8 * n then
        { map := low_bits_map n (j + 1), cursor := c + j, is_find_free_entry := true }
      else { map := low_bits_map n j, cursor := c + 8 * n, is_find_free_entry := false }
  | 0, j, c => by simp [map_scan, low_bits_map]
  | n + 1, j, c => by
    simp only [low_bits_map, map_scan]
    rw [bit_scan_low _ (Nat.min_le_right j 8)]
    by_cases hj : j < 8
    · have hm : min j 8 = j := by omega
      have hm1 : min (j + 1) 8 = j + 1 := by omega
      have h0 : j - 8 = 0 := by omega
      have h1 : j + 1 - 8 = 0 := by omega
      rw [hm, if_pos hj, if_pos (by omega), hm1, h0, h1]
      simp only
      rw [lor_low j hj]
    · have hm : min j 8 = 8 := by omega
      rw [hm, if_neg (by omega)]
      simp only
      rw [map_scan_low n (j - 8) (c + UINT8_BITS)]
      by_cases hlt : j < 8 * (n + 1)
      · have hm1 : min (j + 1) 8 = 8 := by omega
        have e : j + 1 - 8 = j - 8 + 1 := by omega
        rw [if_pos (by omega), if_pos hlt, hm1, e]
        simp only [MapScan.mk.injEq, and_true, true_and]
        show c + 8 + (j - 8) = c + j
        omega
      · rw [if_neg (by omega), if_neg hlt]
        simp only [MapScan.mk.injEq, and_true, true_and]
        show c + 8 + 8 * n = c + 8 * (n + 1)
        omega

theorem low_bits_map_min : ∀ n j, low_bits_map n j = low_bits_map n (min j (8 * n))
  | 0, _ => rfl
  | n + 1, j => by
    simp only [low_bits_map]
    have e1 : min (min j (8 * (n + 1))) 8 = min j 8 := by omega
    rw [e1, low_bits_map_min n (j - 8), low_bits_map_min n (min j (8 * (n + 1)) - 8)]
    have e2 : min (min j (8 * (n + 1)) - 8) (8 * n) = min (j - 8) (8 * n) := by omega
    rw [e2]

/-- What `newfs_alloc_inode` does on a bitmap whose first `j` bits are set. -/
theorem newfs_alloc_inode_low (sb : newfs_super) (d : newfs_dentry) (j : Nat)
    (hmap : sb.map_inode = low_bits_map (NEWFS_BLKS_SZ sb sb.map_inode_blks) j) :
    (newfs_alloc_inode sb d).sb =
        { sb with map_inode := (low_bits_map (NEWFS_BLKS_SZ sb sb.map_inode_blks)
            (min (j + 1) (8 * NEWFS_BLKS_SZ sb sb.map_inode_blks))) }
    ∧ (newfs_alloc_inode sb d).ret =
        if j < 8 * NEWFS_BLKS_SZ sb sb.map_inode_blks ∧ j ≠ sb.max_ino then
          .ok (newfs_inode.mk j 0 (List.replicate NEWFS_MAX_FILE_NAME 0) 0 []
            (if d.ftype = NEWFS_REG_FILE
              then List.replicate (NEWFS_BLKS_SZ sb NEWFS_DATA_PER_FILE) 0 else []))
        else .error (-NEWFS_ERROR_NOSPACE) := by
  unfold newfs_alloc_inode
  simp only [hmap, map_scan_low, Nat.zero_add]
  by_cases hj : j < 8 * NEWFS_BLKS_SZ sb sb.map_inode_blks
  · have hmin : min (j + 1) (8 * NEWFS_BLKS_SZ sb sb.map_inode_blks) = j + 1 := by omega
    simp only [if_pos hj, hmin, Bool.not_true, Bool.false_or, beq_iff_eq]
    by_cases hm : j = sb.max_ino
    · simp [hm]
    · simp [hm, hj]
  · have hmin : min (j + 1) (8 * NEWFS_BLKS_SZ sb sb.map_inode_blks)
        = 8 * NEWFS_BLKS_SZ sb sb.map_inode_blks := by omega
    have hfull : low_bits_map (NEWFS_BLKS_SZ sb sb.map_inode_blks) j
        = low_bits_map (NEWFS_BLKS_SZ sb sb.map_inode_blks)
            (8 * NEWFS_BLKS_SZ sb sb.map_inode_blks) := by
      rw [low_bits_map_min]
      congr 1; omega
    simp [if_neg hj, hmin, hj, hfull]

theorem alloc_seq_state (ds : Nat → newfs_dentry) (sb : newfs_super)
    (hmap : sb.map_inode = low_bits_map (NEWFS_BLKS_SZ sb sb.map_inode_blks) 0) :
    ∀ n, alloc_seq ds n sb =
      { sb with map_inode := (low_bits_map (NEWFS_BLKS_SZ sb sb.map_inode_blks)
          (min n (8 * NEWFS_BLKS_SZ sb sb.map_inode_blks))) }
  | 0 => by
    simp only [alloc_seq, Nat.zero_min]
    rw [← hmap]
  | n + 1 => by
    have ih := alloc_seq_state ds sb hmap n
    simp only [alloc_seq]
    have h := (newfs_alloc_inode_low (alloc_seq ds n sb) (ds n)
      (min n (8 * NEWFS_BLKS_SZ sb sb.map_inode_blks)) (by rw [ih]; rfl)).1
    rw [h, ih]
    simp only [NEWFS_BLKS_SZ]
    congr 2
    omega

theorem alloc_ret_eq (ds : Nat → newfs_dentry) (sb : newfs_super)
    (hmap : sb.map_inode = low_bits_map (NEWFS_BLKS_SZ sb sb.map_inode_blks) 0) (n : Nat) :
    alloc_ret ds n sb =
      if n < 8 * NEWFS_BLKS_SZ sb sb.map_inode_blks ∧ n ≠ sb.max_ino then
        .ok (newfs_inode.mk n 0 (List.replicate NEWFS_MAX_FILE_NAME 0) 0 []
          (if (ds n).ftype = NEWFS_REG_FILE
            then List.replicate (NEWFS_BLKS_SZ sb NEWFS_DATA_PER_FILE) 0 else []))
      else .error (-NEWFS_ERROR_NOSPACE) := by
  have ih := alloc_seq_state ds sb hmap n
  unfold alloc_ret
  have h := (newfs_alloc_inode_low (alloc_seq ds n sb) (ds n)
    (min n (8 * NEWFS_BLKS_SZ sb sb.map_inode_blks)) (by rw [ih]; rfl)).2
  rw [h, ih]
  simp only [NEWFS_BLKS_SZ]
  by_cases hn : n < 8 * (sb.map_inode_blks * sb.sz_blk)
  · have hmin : min n (8 * (sb.map_inode_blks * sb.sz_blk)) = n := by omega
    rw [hmin]
  · have c1 : ¬ (min n (8 * (sb.map_inode_blks * sb.sz_blk)) < 8 * (sb.map_inode_blks * sb.sz_blk)
        ∧ min n (8 * (sb.map_inode_blks * sb.sz_blk)) ≠ sb.max_ino) := by omega
    have c2 : ¬ (n < 8 * (sb.map_inode_blks * sb.sz_blk) ∧ n ≠ sb.max_ino) := by omega
    rw [if_neg c1, if_neg c2]

/-! ## C2 -/

/-- C2: starting from an all-zero index bitmap, as long as the first `k` calls
of `newfs_alloc_inode` all succeed, exactly `k` bits of the bitmap are set
(bits `0 .. k - 1`, bit 0 being the least significant bit of byte 0) and call
`j + 1` returned index number `j`, which is below `max_ino`; the first `k`
calls do succeed for every `k` up to `max_ino` that the bitmap buffer holds;
and call `max_ino + 1` fails with `-NEWFS_ERROR_NOSPACE`. -/
theorem newfs_alloc_inode_from_empty (ds : Nat → newfs_dentry) (sb : newfs_super)
    (hzero : sb.map_inode = List.replicate (NEWFS_BLKS_SZ sb sb.map_inode_blks) 0) :
    (∀ k, (∀ j, j < k → ∃ i, alloc_ret ds j sb = .ok i) →
        popcount (alloc_seq ds k sb).map_inode = k
        ∧ (alloc_seq ds k sb).map_inode = low_bits_map (NEWFS_BLKS_SZ sb sb.map_inode_blks) k
        ∧ ∀ j, j < k → ∃ i, alloc_ret ds j sb = .ok i ∧ i.ino = j ∧ j < sb.max_ino)
    ∧ (∀ k, k ≤ sb.max_ino → k ≤ 8 * NEWFS_BLKS_SZ sb sb.map_inode_blks →
        ∀ j, j < k → ∃ i, alloc_ret ds j sb = .ok i)
    ∧ alloc_ret ds sb.max_ino sb = .error (-NEWFS_ERROR_NOSPACE) := by
  have hmap : sb.map_inode = low_bits_map (NEWFS_BLKS_SZ sb sb.map_inode_blks) 0 := by
    rw [low_bits_map_zero]; exact hzero
  have hcall : ∀ j, (∃ i, alloc_ret ds j sb = .ok i) →
      j < 8 * NEWFS_BLKS_SZ sb sb.map_inode_blks ∧ j ≠ sb.max_ino := by
    intro j ⟨i, hi⟩
    rw [alloc_ret_eq ds sb hmap j] at hi
    by_contra hc
    rw [if_neg hc] at hi
    cases hi
  refine ⟨?_, ?_, ?_⟩
  · intro k hk
    have hlt : ∀ j, j < k → j < sb.max_ino := by
      intro j
      induction j using Nat.strong_induction_on with
      | _ j ihj =>
        intro hjk
        by_contra hge
        have hm : sb.max_ino < k := by omega
        exact (hcall sb.max_ino (hk _ hm)).2 rfl
    have hkB : k ≤ 8 * NEWFS_BLKS_SZ sb sb.map_inode_blks := by
      rcases Nat.eq_zero_or_pos k with h0 | hpos
      · omega
      · have := (hcall (k - 1) (hk _ (by omega))).1
        omega
    refine ⟨?_, ?_, ?_⟩
    · rw [alloc_seq_state ds sb hmap k]
      simp only
      rw [popcount_low_bits_map]
      omega
    · rw [alloc_seq_state ds sb hmap k]
      simp only
      congr 1
      omega
    · intro j hj
      have hc := hcall j (hk j hj)
      rw [alloc_ret_eq ds sb hmap j, if_pos hc]
      exact ⟨_, rfl, rfl, hlt j hj⟩
  · intro k hkM hkB j hj
    rw [alloc_ret_eq ds sb hmap j, if_pos ⟨by omega, by omega⟩]
    exact ⟨_, rfl⟩
  · rw [alloc_ret_eq ds sb hmap sb.max_ino, if_neg (by simp)]

/-- C2 at a concrete input: a 16-bit bitmap with capacity 3. -/
theorem newfs_alloc_inode_from_empty_witness :
    (∀ k, (∀ j, j < k → ∃ i, alloc_ret (fun _ => new_dentry [97] NEWFS_DIR) j small_super = .ok i) →
        popcount (alloc_seq (fun _ => new_dentry [97] NEWFS_DIR) k small_super).map_inode = k
        ∧ (alloc_seq (fun _ => new_dentry [97] NEWFS_DIR) k small_super).map_inode
            = low_bits_map (NEWFS_BLKS_SZ small_super small_super.map_inode_blks) k
        ∧ ∀ j, j < k → ∃ i, alloc_ret (fun _ => new_dentry [97] NEWFS_DIR) j small_super = .ok i
            ∧ i.ino = j ∧ j < small_super.max_ino)
    ∧ (∀ k, k ≤ small_super.max_ino →
        k ≤ 8 * NEWFS_BLKS_SZ small_super small_super.map_inode_blks →
        ∀ j, j < k → ∃ i, alloc_ret (fun _ => new_dentry [97] NEWFS_DIR) j small_super = .ok i)
    ∧ alloc_ret (fun _ => new_dentry [97] NEWFS_DIR) small_super.max_ino small_super
        = .error (-NEWFS_ERROR_NOSPACE) :=
  newfs_alloc_inode_from_empty (fun _ => new_dentry [97] NEWFS_DIR) small_super (by decide)

/-! ## What the tree operations leave of the super block -/

theorem newfs_driver_read_ret (sb : newfs_super) (d : Disk) (offset size : Nat) :
    (newfs_driver_read sb d offset size).ret = NEWFS_ERROR_NONE := rfl

theorem newfs_driver_write_ret (sb : newfs_super) (d : Disk) (offset : Nat) (b : List Nat)
    (size : Nat) : (newfs_driver_write sb d offset b size).ret = NEWFS_ERROR_NONE := rfl

theorem newfs_driver_read_congr (sb sb' : newfs_super) (h : sb.sz_io = sb'.sz_io) (d : Disk)
    (offset size : Nat) : newfs_driver_read sb d offset size = newfs_driver_read sb' d offset size := by
  unfold newfs_driver_read
  rw [h]

theorem newfs_driver_write_congr (sb sb' : newfs_super) (h : sb.sz_io = sb'.sz_io) (d : Disk)
    (offset : Nat) (b : List Nat) (size : Nat) :
    newfs_driver_write sb d offset b size = newfs_driver_write sb' d offset b size := by
  unfold newfs_driver_write
  simp only [newfs_driver_read_congr sb sb' h, h]

theorem layout_eq_refl (a : newfs_super) : layout_eq a a :=
  ⟨rfl, rfl, rfl, rfl, rfl, rfl, rfl, rfl, rfl, rfl, rfl, rfl⟩

theorem layout_eq_trans {a b c : newfs_super} (h1 : layout_eq a b) (h2 : layout_eq b c) :
    layout_eq a c := by
  obtain ⟨a1, a2, a3, a4, a5, a6, a7, a8, a9, a10, a11, a12⟩ := h1
  obtain ⟨b1, b2, b3, b4, b5, b6, b7, b8, b9, b10, b11, b12⟩ := h2
  exact ⟨a1.trans b1, a2.trans b2, a3.trans b3, a4.trans b4, a5.trans b5, a6.trans b6,
    a7.trans b7, a8.trans b8, a9.trans b9, a10.trans b10, a11.trans b11, a12.trans b12⟩

theorem newfs_alloc_inode_sb (sb : newfs_super) (dentry : newfs_dentry) :
    (newfs_alloc_inode sb dentry).sb =
      { sb with map_inode := (map_scan (NEWFS_BLKS_SZ sb sb.map_inode_blks) sb.map_inode 0).map } := by
  unfold newfs_alloc_inode
  simp only
  split <;> rfl

theorem newfs_alloc_inode_layout (sb : newfs_super) (dentry : newfs_dentry) :
    layout_eq (newfs_alloc_inode sb dentry).sb sb := by
  rw [newfs_alloc_inode_sb]
  exact layout_eq_refl sb

theorem read_dentrys_sb (ino : Nat) : ∀ (n i : Nat) (sb : newfs_super) (d : Disk)
    (inode : newfs_inode),
    (read_dentrys ino n i sb d inode).sb =
      { sb with map_data := (read_dentrys ino n i sb d inode).sb.map_data }
  | 0, _, _, _, _ => rfl
  | n + 1, i, sb, d, inode => by
    simp only [read_dentrys, newfs_driver_read_ret, ne_eq, not_true_eq_false, if_false]
    rw [read_dentrys_sb ino n]
    rfl

theorem newfs_read_inode_sb (sb : newfs_super) (d : Disk) (dentry : newfs_dentry) (ino : Nat) :
    (newfs_read_inode sb d dentry ino).sb =
      { sb with map_data := (newfs_read_inode sb d dentry ino).sb.map_data } := by
  unfold newfs_read_inode
  simp only [newfs_driver_read_ret, ne_eq, not_true_eq_false, if_false]
  split
  · exact read_dentrys_sb ino _ _ _ _ _
  · split <;> rfl

theorem newfs_read_inode_layout (sb : newfs_super) (d : Disk) (dentry : newfs_dentry) (ino : Nat) :
    layout_eq (newfs_read_inode sb d dentry ino).sb sb := by
  rw [newfs_read_inode_sb]
  exact layout_eq_refl sb

theorem newfs_mount_eq (sb0 : newfs_super) (d : Disk) :
    newfs_mount sb0 d
      = mount_root (decide (is_first_use sb0 d)) (mount_sb5 sb0 d) (mount_disk5 sb0 d) := by
  unfold newfs_mount
  simp only [newfs_driver_read_ret, ne_eq, not_true_eq_false, if_false]
  rfl

theorem layout_eq_set_root (s : newfs_super) (r : Option newfs_dentry) (m : Bool) :
    layout_eq { s with root_dentry := r, is_mounted := m } s :=
  ⟨rfl, rfl, rfl, rfl, rfl, rfl, rfl, rfl, rfl, rfl, rfl, rfl⟩

theorem mount_root_layout (is_init : Bool) (sb5 : newfs_super) (d5 : Disk) :
    layout_eq (mount_root is_init sb5 d5).sb sb5 := by
  unfold mount_root
  simp only
  split
  · split
    · exact newfs_alloc_inode_layout _ _
    · exact layout_eq_trans (layout_eq_set_root _ _ _)
        (layout_eq_trans (newfs_read_inode_layout _ _ _ _) (newfs_alloc_inode_layout _ _))
  · exact layout_eq_trans (layout_eq_set_root _ _ _) (newfs_read_inode_layout _ _ _ _)

theorem mount_sb5_layout (sb0 : newfs_super) (d : Disk) :
    layout_eq (mount_sb5 sb0 d) (mount_sb3 sb0 d) := by
  unfold mount_sb5 mount_sb4
  exact ⟨rfl, rfl, rfl, rfl, rfl, rfl, rfl, rfl, rfl, rfl, rfl, rfl⟩

/-- The super block that `newfs_mount` leaves has the layout fixed when the
super block was read. -/
theorem newfs_mount_layout (sb0 : newfs_super) (d : Disk) :
    layout_eq (newfs_mount sb0 d).sb (mount_sb3 sb0 d) := by
  rw [newfs_mount_eq]
  exact layout_eq_trans (mount_root_layout _ _ _) (mount_sb5_layout sb0 d)

/-- The layout that a first-use `newfs_mount` leaves in the super block. -/
theorem newfs_mount_first_use (sb0 : newfs_super) (d : Disk) (h : is_first_use sb0 d) :
    (newfs_mount sb0 d).sb.sz_io = d.sz_io
    ∧ (newfs_mount sb0 d).sb.sz_disk = d.sz_disk
    ∧ (newfs_mount sb0 d).sb.sz_blk = d.sz_io * 2
    ∧ (newfs_mount sb0 d).sb.max_ino = (d.sz_disk / (d.sz_io * 2) - 3) / 7
    ∧ (newfs_mount sb0 d).sb.max_data = (d.sz_disk / (d.sz_io * 2) - 3) / 7 * 6
    ∧ (newfs_mount sb0 d).sb.map_inode_blks = 1
    ∧ (newfs_mount sb0 d).sb.map_inode_offset = d.sz_io * 2
    ∧ (newfs_mount sb0 d).sb.map_data_blks = 1
    ∧ (newfs_mount sb0 d).sb.map_data_offset = 2 * (d.sz_io * 2)
    ∧ (newfs_mount sb0 d).sb.inode_offset = 3 * (d.sz_io * 2)
    ∧ (newfs_mount sb0 d).sb.data_offset
        = 3 * (d.sz_io * 2) + (d.sz_disk / (d.sz_io * 2) - 3) / 7 * (d.sz_io * 2) := by
  obtain ⟨h1, h2, h3, _, h5, h6, h7, h8, h9, h10, h11, h12⟩ := newfs_mount_layout sb0 d
  rw [h1, h2, h3, h5, h6, h7, h8, h9, h10, h11, h12]
  have e3 : ∀ x : Nat, x - 1 - 1 - 1 = x - 3 := fun x => by omega
  have e7 : NEWFS_DATA_PER_FILE + NEWFS_INODE_PER_FILE = 7 := rfl
  refine ⟨?_, ?_, ?_, ?_, ?_, ?_, ?_, ?_, ?_, ?_, ?_⟩ <;>
    simp only [mount_sb3, mount_super_d, if_pos h, first_use_super_d, mount_sb1, e3, e7,
      NEWFS_SUPER_OFS, Nat.zero_add, Nat.one_mul] <;> first | rfl | omega

/-! ## The slot offsets over the naturals -/

/-- Over the naturals, that is as long as no offset exceeds `INT_MAX`: under
the layout computed by a first-use `newfs_mount` with a positive block size,
for all index numbers `i < j < max_ino`, `NEWFS_INO_OFS(i) < NEWFS_INO_OFS(j)`,
and `NEWFS_INO_OFS(i)` is at least `map_data_offset + map_data_blks * sz_blk`. -/
theorem newfs_ino_ofs_increasing (sb0 : newfs_super) (d : Disk) (hfirst : is_first_use sb0 d)
    (hblk : 0 < (newfs_mount sb0 d).sb.sz_blk) (i j : Nat) (hij : i < j)
    (_hj : j < (newfs_mount sb0 d).sb.max_ino) :
    NEWFS_INO_OFS (newfs_mount sb0 d).sb i < NEWFS_INO_OFS (newfs_mount sb0 d).sb j
    ∧ (newfs_mount sb0 d).sb.map_data_offset
        + (newfs_mount sb0 d).sb.map_data_blks * (newfs_mount sb0 d).sb.sz_blk
      ≤ NEWFS_INO_OFS (newfs_mount sb0 d).sb i := by
  obtain ⟨_, _, h3, h4, _, _, _, h8, h9, _, h11⟩ := newfs_mount_first_use sb0 d hfirst
  unfold NEWFS_INO_OFS NEWFS_BLKS_SZ
  rw [h8, h9, h11]
  rw [h3] at hblk ⊢
  generalize d.sz_io * 2 = blk at hblk ⊢
  generalize (d.sz_disk / blk - 3) / 7 = m
  have e : NEWFS_INODE_PER_FILE + NEWFS_DATA_PER_FILE = 7 := rfl
  rw [e]
  constructor
  · have : i * (7 * blk) < j * (7 * blk) :=
      Nat.mul_lt_mul_of_pos_right hij (by positivity)
    omega
  · have : 0 ≤ m * blk + i * (7 * blk) := Nat.zero_le _
    omega

theorem newfs_driver_read_zero (sb : newfs_super) (d : Disk) (offset size : Nat)
    (hio : 0 < sb.sz_io) (hz : ∀ a, d.mem a = 0) :
    (newfs_driver_read sb d offset size).content = List.replicate size 0 := by
  rw [newfs_driver_read_spec sb d offset size hio]
  simp only [hz, ite_self]
  exact List.map_const' (List.range size) 0 |>.trans (by simp)

theorem is_first_use_zero (sb0 : newfs_super) (d : Disk) (hio : 0 < d.sz_io)
    (hz : ∀ a, d.mem a = 0) : is_first_use sb0 d := by
  unfold is_first_use mount_read_super_d
  rw [newfs_driver_read_zero _ _ _ _ hio hz]
  decide

/-- The slot offsets at a concrete input: the 4 MiB device with 512-byte
units, index numbers 0 and 1. -/
theorem newfs_ino_ofs_increasing_witness :
    NEWFS_INO_OFS (newfs_mount super_zero (zero_disk 4194304 512)).sb 0
      < NEWFS_INO_OFS (newfs_mount super_zero (zero_disk 4194304 512)).sb 1
    ∧ (newfs_mount super_zero (zero_disk 4194304 512)).sb.map_data_offset
        + (newfs_mount super_zero (zero_disk 4194304 512)).sb.map_data_blks
          * (newfs_mount super_zero (zero_disk 4194304 512)).sb.sz_blk
      ≤ NEWFS_INO_OFS (newfs_mount super_zero (zero_disk 4194304 512)).sb 0 :=
  newfs_ino_ofs_increasing super_zero (zero_disk 4194304 512)
    (is_first_use_zero _ _ (by decide) (fun _ => rfl))
    (by rw [(newfs_mount_first_use _ _
          (is_first_use_zero _ _ (by decide) (fun _ => rfl))).2.2.1]; decide)
    0 1 (by decide)
    (by rw [(newfs_mount_first_use _ _
          (is_first_use_zero _ _ (by decide) (fun _ => rfl))).2.2.2.1]; decide)

/-! ## First-use mount of a zero-filled device -/

theorem ok_span_congr (sb : newfs_super) (d d' : Disk) (h : d.sz_disk = d'.sz_disk)
    (offset size : Nat) : ok_span sb d offset size = ok_span sb d' offset size := by
  unfold ok_span; rw [h]

/-- Reading back what was just written, on every device: the written bytes as
far as the unit loop reaches, zero beyond. -/
theorem newfs_driver_read_after_write (sb : newfs_super) (d : Disk) (offset : Nat)
    (b : List Nat) (size : Nat) (hio : 0 < sb.sz_io) :
    (newfs_driver_read sb (newfs_driver_write sb d offset b size).disk offset size).content
      = (List.range size).map fun i =>
          if offset + i < ok_span sb d offset size then b.getD i 0 else 0 := by
  rw [newfs_driver_read_spec sb _ offset size hio]
  have hsz := (newfs_driver_write_size sb d offset b size hio).1
  rw [ok_span_congr sb _ d hsz, newfs_driver_write_spec sb d offset b size hio]
  apply List.map_congr_left
  intro i hi
  have hlt : i < size := by simpa using hi
  simp only
  by_cases hc : offset + i < ok_span sb d offset size
  · rw [if_pos hc, if_pos hc, if_pos ⟨by omega, by omega, hc⟩]
    congr 1; omega
  · rw [if_neg hc, if_neg hc]

theorem inode_d_of_bytes_zero (c : List Nat) (hlen : c.length = SIZEOF_INODE_D)
    (h : ∀ i, i < 140 → c.getD i 0 = 0) :
    (inode_d_of_bytes c).ino = 0 ∧ (inode_d_of_bytes c).size = 0
    ∧ (inode_d_of_bytes c).target_path = List.replicate NEWFS_MAX_FILE_NAME 0
    ∧ (inode_d_of_bytes c).dir_cnt = 0 := by
  have g : ∀ p, p + 3 < 140 → get_u32 c p = 0 := by
    intro p hp
    unfold get_u32
    rw [h p (by omega), h (p + 1) (by omega), h (p + 2) (by omega), h (p + 3) (by omega)]
  have gi : ∀ p, p + 3 < 140 → get_i32 c p = 0 := by
    intro p hp
    unfold get_i32
    rw [g p hp]; rfl
  refine ⟨g 0 (by omega), gi 4 (by omega), ?_, gi 136 (by omega)⟩
  have hlen' : c.length = 144 := hlen
  show (c.drop 8).take 128 = List.replicate 128 0
  apply List.ext_getElem
  · simp [hlen']
  · intro i h1 h2
    have hi : i < 128 := by simpa using h2
    have hc := h (8 + i) (by omega)
    rw [List.getD_eq_getElem?_getD, List.getElem?_eq_getElem (by omega)] at hc
    simp only [List.getElem_take, List.getElem_drop, List.getElem_replicate]
    exact hc

/-- A successful `newfs_alloc_inode` on a bitmap whose first `j` bits are set. -/
theorem newfs_alloc_inode_ok (sb : newfs_super) (d : newfs_dentry) (j : Nat)
    (hmap : sb.map_inode = low_bits_map (NEWFS_BLKS_SZ sb sb.map_inode_blks) j)
    (hj : j < 8 * NEWFS_BLKS_SZ sb sb.map_inode_blks) (hm : j ≠ sb.max_ino) :
    newfs_alloc_inode sb d =
      { sb := { sb with map_inode := (low_bits_map (NEWFS_BLKS_SZ sb sb.map_inode_blks) (j + 1)) }
        ret := .ok (newfs_inode.mk j 0 (List.replicate NEWFS_MAX_FILE_NAME 0) 0 []
          (if d.ftype = NEWFS_REG_FILE
            then List.replicate (NEWFS_BLKS_SZ sb NEWFS_DATA_PER_FILE) 0 else []))
        dentry := .mk d.fname j
          (some (newfs_inode.mk j 0 (List.replicate NEWFS_MAX_FILE_NAME 0) 0 []
            (if d.ftype = NEWFS_REG_FILE
              then List.replicate (NEWFS_BLKS_SZ sb NEWFS_DATA_PER_FILE) 0 else [])))
          d.ftype } := by
  unfold newfs_alloc_inode
  simp only [hmap, map_scan_low, Nat.zero_add, if_pos hj, Bool.not_true, Bool.false_or,
    beq_iff_eq, if_neg hm]
  rfl

/-- A failing `newfs_alloc_inode` on a bitmap whose first `max_ino` bits are
set and that has room for one more bit: the call returns the error value and
leaves bit `max_ino` set. -/
theorem newfs_alloc_inode_full (sb : newfs_super) (d : newfs_dentry)
    (hmap : sb.map_inode = low_bits_map (NEWFS_BLKS_SZ sb sb.map_inode_blks) sb.max_ino)
    (hj : sb.max_ino < 8 * NEWFS_BLKS_SZ sb sb.map_inode_blks) :
    newfs_alloc_inode sb d =
      { sb := { sb with
          map_inode := (low_bits_map (NEWFS_BLKS_SZ sb sb.map_inode_blks) (sb.max_ino + 1)) }
        ret := .error (-NEWFS_ERROR_NOSPACE)
        dentry := d } := by
  unfold newfs_alloc_inode
  simp only [hmap, map_scan_low, Nat.zero_add, if_pos hj, Bool.not_true, Bool.false_or,
    beq_self_eq_true, if_true]

set_option maxRecDepth 20000 in
theorem root_inode_d_bytes_zero :
    ∀ i, i < 140 →
      (inode_d_bytes { ino := 0, size := 0, target_path := List.replicate NEWFS_MAX_FILE_NAME 0,
                       dir_cnt := 0, ftype := NEWFS_DIR }).getD i 0 = 0 := by
  decide

/-- Syncing a directory record without children writes its on-disk record and
nothing else. -/
theorem newfs_sync_inode_leaf_dir (sb : newfs_super) (ino : Nat) (size : Int)
    (tp : List Nat) (cnt : Int) (data : List Nat) (d : Disk) :
    newfs_sync_inode sb (.mk ino size tp cnt [] data) NEWFS_DIR d =
      { ret := NEWFS_ERROR_NONE
        disk := (newfs_driver_write sb d (NEWFS_INO_OFS sb ino)
          (inode_d_bytes { ino := ino, size := size, target_path := tp, dir_cnt := cnt,
                           ftype := NEWFS_DIR }) SIZEOF_INODE_D).disk } := by
  rw [newfs_sync_inode]
  simp only [newfs_driver_write_ret, ne_eq, not_true_eq_false, if_false, if_true]
  rw [sync_dentrys]

/-- Reading a directory record whose on-disk child count is zero. -/
theorem newfs_read_inode_dir_zero (sb : newfs_super) (d : Disk) (dentry : newfs_dentry)
    (ino : Nat) (hdir : dentry.ftype = NEWFS_DIR)
    (hcnt : (inode_d_of_bytes
      (newfs_driver_read sb d (NEWFS_INO_OFS sb ino) SIZEOF_INODE_D).content).dir_cnt = 0) :
    newfs_read_inode sb d dentry ino =
      { sb := sb
        disk := (newfs_driver_read sb d (NEWFS_INO_OFS sb ino) SIZEOF_INODE_D).disk
        ret := some (.mk
          (inode_d_of_bytes
            (newfs_driver_read sb d (NEWFS_INO_OFS sb ino) SIZEOF_INODE_D).content).ino
          (inode_d_of_bytes
            (newfs_driver_read sb d (NEWFS_INO_OFS sb ino) SIZEOF_INODE_D).content).size
          (inode_d_of_bytes
            (newfs_driver_read sb d (NEWFS_INO_OFS sb ino) SIZEOF_INODE_D).content).target_path
          0 [] [])
        undefined_read := false } := by
  unfold newfs_read_inode
  simp only [newfs_driver_read_ret, ne_eq, not_true_eq_false, if_false, if_pos hdir, hcnt,
    Int.toNat_zero, read_dentrys]

/-- Syncing the fresh root record of an empty file system onto a zero-filled
device and reading it back gives the record without children, whatever part
of its slot the device holds. -/
theorem mount_root_init_empty (sb : newfs_super) (fname : List Nat) (d5 : Disk)
    (hio : 0 < sb.sz_io) :
    (mount_root_init sb
        (.mk fname 0 (some (.mk 0 0 (List.replicate NEWFS_MAX_FILE_NAME 0) 0 [] [])) NEWFS_DIR)
        (.mk 0 0 (List.replicate NEWFS_MAX_FILE_NAME 0) 0 [] []) d5).sb
      = { sb with
          root_dentry := some (.mk fname 0
            (some (.mk 0 0 (List.replicate NEWFS_MAX_FILE_NAME 0) 0 [] [])) NEWFS_DIR)
          is_mounted := true } := by
  unfold mount_root_init
  simp only [newfs_dentry.ftype, newfs_dentry.fname, newfs_dentry.ino]
  rw [newfs_sync_inode_leaf_dir]
  simp only
  have hc := newfs_driver_read_after_write sb d5 (NEWFS_INO_OFS sb NEWFS_ROOT_INO)
    (inode_d_bytes { ino := 0, size := 0, target_path := List.replicate NEWFS_MAX_FILE_NAME 0,
                     dir_cnt := 0, ftype := NEWFS_DIR }) SIZEOF_INODE_D hio
  have hzero := inode_d_of_bytes_zero
    ((List.range SIZEOF_INODE_D).map fun i =>
      if NEWFS_INO_OFS sb NEWFS_ROOT_INO + i
          < ok_span sb d5 (NEWFS_INO_OFS sb NEWFS_ROOT_INO) SIZEOF_INODE_D then
        (inode_d_bytes { ino := 0, size := 0,
                         target_path := List.replicate NEWFS_MAX_FILE_NAME 0,
                         dir_cnt := 0, ftype := NEWFS_DIR }).getD i 0
      else 0)
    (by simp) (by
    intro i hi
    rw [getD_map_range, if_pos (show i < SIZEOF_INODE_D from Nat.lt_trans hi (by decide))]
    split
    · exact root_inode_d_bytes_zero i hi
    · rfl)
  rw [← hc] at hzero
  obtain ⟨h1, h2, h3, h4⟩ := hzero
  rw [newfs_read_inode_dir_zero sb _
    (.mk fname 0 (some (.mk 0 0 (List.replicate NEWFS_MAX_FILE_NAME 0) 0 [] [])) NEWFS_DIR)
    NEWFS_ROOT_INO rfl h4]
  simp only [h1, h2, h3]

theorem mount_root_init_fault (sb : newfs_super) (dentry : newfs_dentry) (inode : newfs_inode)
    (d5 : Disk) :
    (mount_root_init sb dentry inode d5).fault = false
    ∧ (mount_root_init sb dentry inode d5).ret = NEWFS_ERROR_NONE := ⟨rfl, rfl⟩

/-- The last step of `newfs_mount` on an empty index bitmap and a zero-filled
device with room for at least one record. -/
theorem mount_root_empty (sb5 : newfs_super) (d5 : Disk) (hio : 0 < sb5.sz_io)
    (hmap : sb5.map_inode = List.replicate (NEWFS_BLKS_SZ sb5 sb5.map_inode_blks) 0)
    (hpos : 0 < NEWFS_BLKS_SZ sb5 sb5.map_inode_blks) (hmax : 1 ≤ sb5.max_ino) :
    (mount_root true sb5 d5).fault = false
    ∧ (mount_root true sb5 d5).ret = NEWFS_ERROR_NONE
    ∧ (mount_root true sb5 d5).sb =
        { sb5 with
          map_inode := (low_bits_map (NEWFS_BLKS_SZ sb5 sb5.map_inode_blks) 1)
          root_dentry := some empty_root
          is_mounted := true } := by
  have hmap' : sb5.map_inode = low_bits_map (NEWFS_BLKS_SZ sb5 sb5.map_inode_blks) 0 := by
    rw [low_bits_map_zero]; exact hmap
  have ha := newfs_alloc_inode_ok sb5 (new_dentry [47] NEWFS_DIR) 0 hmap' (by omega) (by omega)
  have hroot : mount_root true sb5 d5
      = mount_root_init (newfs_alloc_inode sb5 (new_dentry [47] NEWFS_DIR)).sb
          (newfs_alloc_inode sb5 (new_dentry [47] NEWFS_DIR)).dentry
          (.mk 0 0 (List.replicate NEWFS_MAX_FILE_NAME 0) 0 [] []) d5 := by
    unfold mount_root
    simp only [if_true]
    rw [ha]
    rfl
  rw [hroot]
  refine ⟨rfl, rfl, ?_⟩
  rw [ha]
  exact mount_root_init_empty _ _ d5 hio

theorem mount_sb3_first_use (sb0 : newfs_super) (d : Disk) (h : is_first_use sb0 d) :
    (mount_sb3 sb0 d).sz_io = d.sz_io
    ∧ (mount_sb3 sb0 d).sz_blk = d.sz_io * 2
    ∧ (mount_sb3 sb0 d).max_ino = (d.sz_disk / (d.sz_io * 2) - 3) / 7
    ∧ (mount_sb3 sb0 d).map_inode_blks = 1
    ∧ (mount_sb3 sb0 d).map_data_blks = 1
    ∧ (mount_super_d sb0 d).map_inode_blks = 1
    ∧ (mount_super_d sb0 d).map_data_blks = 1 := by
  have e3 : ∀ x : Nat, x - 1 - 1 - 1 = x - 3 := fun x => by omega
  have e7 : NEWFS_DATA_PER_FILE + NEWFS_INODE_PER_FILE = 7 := rfl
  refine ⟨?_, ?_, ?_, ?_, ?_, ?_, ?_⟩ <;>
    simp only [mount_sb3, mount_super_d, if_pos h, first_use_super_d, mount_sb1, e3, e7]

/-- The bitmaps that `newfs_mount` reads from a zero-filled device on first
use: one block of zero bytes each. -/
theorem mount_sb5_zero (sb0 : newfs_super) (d : Disk) (hio : 0 < d.sz_io)
    (hz : ∀ a, d.mem a = 0) :
    (mount_sb5 sb0 d).map_inode = List.replicate (d.sz_io * 2) 0
    ∧ (mount_sb5 sb0 d).map_data = List.replicate (d.sz_io * 2) 0 := by
  have hf := is_first_use_zero sb0 d hio hz
  obtain ⟨h1, h2, _, h4, h5, h6, h7⟩ := mount_sb3_first_use sb0 d hf
  have hio3 : 0 < (mount_sb3 sb0 d).sz_io := by rw [h1]; exact hio
  have hio1 : 0 < (mount_sb1 sb0 d).sz_io := hio
  have hz1 : ∀ a, (newfs_driver_read (mount_sb1 sb0 d) d NEWFS_SUPER_OFS SIZEOF_SUPER_D).disk.mem a
      = 0 := by
    intro a; rw [(newfs_driver_read_mem _ d _ _ hio1).1]; exact hz a
  have e4io : (mount_sb4 sb0 d).sz_io = (mount_sb3 sb0 d).sz_io := by unfold mount_sb4; rfl
  have e4blk : (mount_sb4 sb0 d).sz_blk = (mount_sb3 sb0 d).sz_blk := by unfold mount_sb4; rfl
  have hmi : (mount_sb4 sb0 d).map_inode = List.replicate (d.sz_io * 2) 0 := by
    unfold mount_sb4
    simp only
    rw [newfs_driver_read_zero _ _ _ _ hio3 hz1, h6]
    simp only [NEWFS_BLKS_SZ, h2, Nat.one_mul]
  constructor
  · rw [← hmi]; unfold mount_sb5; rfl
  · unfold mount_sb5
    simp only
    rw [newfs_driver_read_zero _ _ _ _ (by rw [e4io]; exact hio3) (by
      intro a
      rw [(newfs_driver_read_mem _ _ _ _ hio3).1]; exact hz1 a), h7]
    simp only [NEWFS_BLKS_SZ, e4blk, h2, Nat.one_mul]

/-- First-use `newfs_mount` of a zero-filled device with room for at least one
index record: no fault, and the super block holds the first-use layout, an
index bitmap with bit 0 set, an empty data bitmap and the empty root. -/
theorem newfs_mount_zero (sb0 : newfs_super) (d : Disk) (hio : 0 < d.sz_io)
    (hz : ∀ a, d.mem a = 0) (hmax : 1 ≤ (d.sz_disk / (d.sz_io * 2) - 3) / 7) :
    (newfs_mount sb0 d).fault = false
    ∧ (newfs_mount sb0 d).ret = NEWFS_ERROR_NONE
    ∧ (newfs_mount sb0 d).sb =
        { mount_sb3 sb0 d with
          map_inode := (low_bits_map (d.sz_io * 2) 1)
          map_data := (List.replicate (d.sz_io * 2) 0)
          root_dentry := some empty_root
          is_mounted := true } := by
  have hf := is_first_use_zero sb0 d hio hz
  obtain ⟨h1, h2, h3, h4, h5, _, _⟩ := mount_sb3_first_use sb0 d hf
  obtain ⟨hmi, hmd⟩ := mount_sb5_zero sb0 d hio hz
  obtain ⟨l1, _, l3, _, l5, _, l7, _, _, _, _, _⟩ := mount_sb5_layout sb0 d
  have hblk : NEWFS_BLKS_SZ (mount_sb5 sb0 d) (mount_sb5 sb0 d).map_inode_blks = d.sz_io * 2 := by
    unfold NEWFS_BLKS_SZ
    rw [l7, l3, h4, h2, Nat.one_mul]
  have hm := mount_root_empty (mount_sb5 sb0 d) (mount_disk5 sb0 d)
    (by rw [l1, h1]; exact hio)
    (by rw [hblk]; exact hmi) (by rw [hblk]; omega)
    (by rw [l5, h3]; exact hmax)
  rw [newfs_mount_eq, decide_eq_true hf]
  refine ⟨hm.1, hm.2.1, ?_⟩
  rw [hm.2.2, hblk]
  have e : mount_sb5 sb0 d = { mount_sb3 sb0 d with
      map_inode := (mount_sb5 sb0 d).map_inode, map_data := (mount_sb5 sb0 d).map_data } := by
    unfold mount_sb5 mount_sb4
    rfl
  rw [e, hmd]

/-- First-use `newfs_mount` of a zero-filled device too small for one index
record: `newfs_alloc_inode` returns the error value and the mount goes through
it. -/
theorem newfs_mount_zero_fault (sb0 : newfs_super) (d : Disk) (hio : 0 < d.sz_io)
    (hz : ∀ a, d.mem a = 0) (hmax : (d.sz_disk / (d.sz_io * 2) - 3) / 7 = 0) :
    (newfs_mount sb0 d).fault = true := by
  have hf := is_first_use_zero sb0 d hio hz
  obtain ⟨h1, h2, h3, h4, h5, _, _⟩ := mount_sb3_first_use sb0 d hf
  obtain ⟨hmi, hmd⟩ := mount_sb5_zero sb0 d hio hz
  obtain ⟨l1, _, l3, _, l5, _, l7, _, _, _, _, _⟩ := mount_sb5_layout sb0 d
  have hblk : NEWFS_BLKS_SZ (mount_sb5 sb0 d) (mount_sb5 sb0 d).map_inode_blks = d.sz_io * 2 := by
    unfold NEWFS_BLKS_SZ
    rw [l7, l3, h4, h2, Nat.one_mul]
  have hm0 : (mount_sb5 sb0 d).max_ino = 0 := by rw [l5, h3]; exact hmax
  have ha := newfs_alloc_inode_full (mount_sb5 sb0 d) (new_dentry [47] NEWFS_DIR)
    (by rw [hblk, hm0, low_bits_map_zero]; exact hmi) (by rw [hblk, hm0]; omega)
  rw [newfs_mount_eq, decide_eq_true hf]
  unfold mount_root
  simp only [if_true]
  rw [ha]

/-- The allocation state that a completed first-use `newfs_mount` of a
zero-filled device leaves: bit 0 of a one-block index bitmap set. -/
theorem newfs_mount_zero_alloc (sb0 : newfs_super) (d : Disk) (hio : 0 < d.sz_io)
    (hz : ∀ a, d.mem a = 0) (hmax : 1 ≤ (d.sz_disk / (d.sz_io * 2) - 3) / 7) :
    NEWFS_BLKS_SZ (newfs_mount sb0 d).sb (newfs_mount sb0 d).sb.map_inode_blks = d.sz_io * 2
    ∧ (newfs_mount sb0 d).sb.map_inode = low_bits_map (d.sz_io * 2) 1
    ∧ (newfs_mount sb0 d).sb.max_ino = (d.sz_disk / (d.sz_io * 2) - 3) / 7
    ∧ (newfs_mount sb0 d).sb.sz_blk = d.sz_io * 2 := by
  have hf := is_first_use_zero sb0 d hio hz
  obtain ⟨_, _, h3, h4, _, h6, _, _, _, _, _⟩ := newfs_mount_first_use sb0 d hf
  obtain ⟨_, _, hsb⟩ := newfs_mount_zero sb0 d hio hz hmax
  refine ⟨?_, ?_, h4, h3⟩
  · unfold NEWFS_BLKS_SZ; rw [h6, h3, Nat.one_mul]
  · rw [hsb]

theorem alloc_until_nospace_low (ds : Nat → newfs_dentry) :
    ∀ (fuel j k : Nat) (sb : newfs_super),
      sb.map_inode = low_bits_map (NEWFS_BLKS_SZ sb sb.map_inode_blks) j →
      j ≤ min sb.max_ino (8 * NEWFS_BLKS_SZ sb sb.map_inode_blks) →
      min sb.max_ino (8 * NEWFS_BLKS_SZ sb sb.map_inode_blks) - j < fuel →
      alloc_until_nospace ds fuel k sb
        = some (min sb.max_ino (8 * NEWFS_BLKS_SZ sb sb.map_inode_blks) - j) := by
  intro fuel
  induction fuel with
  | zero => intro j k sb _ _ hf; omega
  | succ f ih =>
    intro j k sb hmap hj hf
    obtain ⟨hsb, hret⟩ := newfs_alloc_inode_low sb (ds k) j hmap
    unfold alloc_until_nospace
    rw [hret]
    by_cases hc : j < 8 * NEWFS_BLKS_SZ sb sb.map_inode_blks ∧ j ≠ sb.max_ino
    · rw [if_pos hc]
      simp only
      have hmin : min (j + 1) (8 * NEWFS_BLKS_SZ sb sb.map_inode_blks) = j + 1 := by omega
      rw [hmin] at hsb
      have hlay : NEWFS_BLKS_SZ (newfs_alloc_inode sb (ds k)).sb
          (newfs_alloc_inode sb (ds k)).sb.map_inode_blks
            = NEWFS_BLKS_SZ sb sb.map_inode_blks := by rw [hsb]; rfl
      have hmx : (newfs_alloc_inode sb (ds k)).sb.max_ino = sb.max_ino := by rw [hsb]
      have := ih (j + 1) (k + 1) (newfs_alloc_inode sb (ds k)).sb
        (by rw [hlay]; rw [hsb]) (by rw [hlay, hmx]; omega) (by rw [hlay, hmx]; omega)
      rw [this, hlay, hmx]
      simp only [Option.map_some']
      congr 1; omega
    · rw [if_neg hc]
      simp only
      congr 1; omega

/-! ## C8 -/

/-- C8, as the code has it: after a first-use `newfs_mount` of a zero-filled
device that completes, allocating index records with `newfs_alloc_inode` until
`-NEWFS_ERROR_NOSPACE` is first returned gives, counting the root record,
`min(max_ino, 8 * sz_blk)` successful allocations (the index bitmap is one
block of `8 * sz_blk` bits); this is `max_ino` whenever `max_ino ≤ 8 * sz_blk`. -/
theorem newfs_alloc_count_after_mount (sb0 : newfs_super) (d : Disk) (hio : 0 < d.sz_io)
    (hz : ∀ a, d.mem a = 0) (hmount : (newfs_mount sb0 d).fault = false)
    (ds : Nat → newfs_dentry) (fuel : Nat)
    (hfuel : min (newfs_mount sb0 d).sb.max_ino (8 * (newfs_mount sb0 d).sb.sz_blk) ≤ fuel) :
    (∃ n, alloc_until_nospace ds fuel 0 (newfs_mount sb0 d).sb = some n
      ∧ n + 1 = min (newfs_mount sb0 d).sb.max_ino (8 * (newfs_mount sb0 d).sb.sz_blk))
    ∧ ((newfs_mount sb0 d).sb.max_ino ≤ 8 * (newfs_mount sb0 d).sb.sz_blk →
        ∃ n, alloc_until_nospace ds fuel 0 (newfs_mount sb0 d).sb = some n
          ∧ n + 1 = (newfs_mount sb0 d).sb.max_ino) := by
  have hmax : 1 ≤ (d.sz_disk / (d.sz_io * 2) - 3) / 7 := by
    by_contra hc
    have := newfs_mount_zero_fault sb0 d hio hz (by omega)
    rw [this] at hmount
    cases hmount
  obtain ⟨hN, hmap, hM, hblk⟩ := newfs_mount_zero_alloc sb0 d hio hz hmax
  have h := alloc_until_nospace_low ds fuel 1 0 (newfs_mount sb0 d).sb
    (by rw [hN]; exact hmap) (by rw [hN, hM]; omega) (by rw [hN, ← hblk]; omega)
  rw [hN, ← hblk] at h
  have hge : 1 ≤ min (newfs_mount sb0 d).sb.max_ino (8 * (newfs_mount sb0 d).sb.sz_blk) := by
    rw [hM, hblk]; omega
  constructor
  · exact ⟨_, h, by omega⟩
  · intro hle
    exact ⟨_, h, by omega⟩

/-- C8 at a concrete input: the 4 MiB zero-filled device with 512-byte units. -/
theorem newfs_alloc_count_after_mount_witness :
    (∃ n, alloc_until_nospace (fun _ => new_dentry [97] NEWFS_DIR) 10000 0
        (newfs_mount super_zero (zero_disk 4194304 512)).sb = some n
      ∧ n + 1 = min (newfs_mount super_zero (zero_disk 4194304 512)).sb.max_ino
          (8 * (newfs_mount super_zero (zero_disk 4194304 512)).sb.sz_blk))
    ∧ ((newfs_mount super_zero (zero_disk 4194304 512)).sb.max_ino
          ≤ 8 * (newfs_mount super_zero (zero_disk 4194304 512)).sb.sz_blk →
        ∃ n, alloc_until_nospace (fun _ => new_dentry [97] NEWFS_DIR) 10000 0
            (newfs_mount super_zero (zero_disk 4194304 512)).sb = some n
          ∧ n + 1 = (newfs_mount super_zero (zero_disk 4194304 512)).sb.max_ino) :=
  newfs_alloc_count_after_mount super_zero (zero_disk 4194304 512) (by decide) (fun _ => rfl)
    (newfs_mount_zero super_zero (zero_disk 4194304 512) (by decide) (fun _ => rfl)
      (by decide)).1
    (fun _ => new_dentry [97] NEWFS_DIR) 10000
    (by
      have h := newfs_mount_zero_alloc super_zero (zero_disk 4194304 512) (by decide)
        (fun _ => rfl) (by decide)
      rw [h.2.2.1, h.2.2.2]
      decide)

/-- C8 as stated fails on a 64 MiB zero-filled device with 512-byte units:
`max_ino` is 9361, but the one-block index bitmap has 8192 bits, so the first
failure comes after 8192 allocations (the root and 8191 more). -/
theorem newfs_alloc_count_counterexample :
    (newfs_mount super_zero (zero_disk 67108864 512)).fault = false
    ∧ (newfs_mount super_zero (zero_disk 67108864 512)).sb.max_ino = 9361
    ∧ alloc_until_nospace (fun _ => new_dentry [97] NEWFS_DIR) 10000 0
        (newfs_mount super_zero (zero_disk 67108864 512)).sb = some 8191
    ∧ ¬ (∃ n, alloc_until_nospace (fun _ => new_dentry [97] NEWFS_DIR) 10000 0
          (newfs_mount super_zero (zero_disk 67108864 512)).sb = some n
        ∧ n + 1 = (newfs_mount super_zero (zero_disk 67108864 512)).sb.max_ino) := by
  have hz : ∀ a, (zero_disk 67108864 512).mem a = 0 := fun _ => rfl
  have hio : 0 < (zero_disk 67108864 512).sz_io := by decide
  have hmax : 1 ≤ ((zero_disk 67108864 512).sz_disk / ((zero_disk 67108864 512).sz_io * 2) - 3) / 7 := by
    decide
  obtain ⟨hN, hmap, hM, hblk⟩ := newfs_mount_zero_alloc super_zero _ hio hz hmax
  have hM' : (newfs_mount super_zero (zero_disk 67108864 512)).sb.max_ino = 9361 := by
    rw [hM]; decide
  have h := alloc_until_nospace_low (fun _ => new_dentry [97] NEWFS_DIR) 10000 1 0
    (newfs_mount super_zero (zero_disk 67108864 512)).sb
    (by rw [hN]; exact hmap) (by rw [hN, hM']; decide) (by rw [hN, hM']; decide)
  rw [hN, hM'] at h
  have h' : alloc_until_nospace (fun _ => new_dentry [97] NEWFS_DIR) 10000 0
      (newfs_mount super_zero (zero_disk 67108864 512)).sb = some 8191 := h
  refine ⟨(newfs_mount_zero super_zero _ hio hz hmax).1, hM', h', ?_⟩
  rintro ⟨n, hn, hn2⟩
  rw [h'] at hn
  rw [hM'] at hn2
  have : 8191 = n := Option.some.inj hn
  omega

/-! ## C6 and C7 -/

/-- The allocation state after a first-use `newfs_mount` of the zero-filled
16 KiB device with 512-byte units: capacity 1, a bitmap of 1024 bytes, bit 0
(the root) set. -/
theorem small_mount_state :
    NEWFS_BLKS_SZ (newfs_mount super_zero (zero_disk 16384 512)).sb
        (newfs_mount super_zero (zero_disk 16384 512)).sb.map_inode_blks = 1024
    ∧ (newfs_mount super_zero (zero_disk 16384 512)).sb.map_inode = low_bits_map 1024 1
    ∧ (newfs_mount super_zero (zero_disk 16384 512)).sb.max_ino = 1 := by
  have h := newfs_mount_zero_alloc super_zero (zero_disk 16384 512) (by decide) (fun _ => rfl)
    (by decide)
  exact ⟨h.1, h.2.1, h.2.2.1⟩

/-- Two calls of `newfs_alloc_inode` on a super block whose first `max_ino`
bits are set and whose bitmap buffer has room for two more: the first call
fails and sets bit `max_ino`, the second succeeds with index number
`max_ino + 1`. -/
theorem newfs_alloc_inode_at_capacity (sb : newfs_super) (e1 e2 : newfs_dentry) (N M : Nat)
    (hN : NEWFS_BLKS_SZ sb sb.map_inode_blks = N) (hM : sb.max_ino = M)
    (hmap : sb.map_inode = low_bits_map N M) (hroom : M + 1 < 8 * N) :
    (newfs_alloc_inode sb e1).ret = .error (-NEWFS_ERROR_NOSPACE)
    ∧ popcount sb.map_inode = M
    ∧ popcount (newfs_alloc_inode sb e1).sb.map_inode = M + 1
    ∧ (∃ i, (newfs_alloc_inode (newfs_alloc_inode sb e1).sb e2).ret = .ok i ∧ i.ino = M + 1)
    ∧ popcount (newfs_alloc_inode (newfs_alloc_inode sb e1).sb e2).sb.map_inode = M + 2 := by
  subst hN hM
  have ha := newfs_alloc_inode_full sb e1 hmap (by omega)
  have hb := newfs_alloc_inode_ok (newfs_alloc_inode sb e1).sb e2 (sb.max_ino + 1)
    (by rw [ha]; rfl) (by rw [ha]; exact hroom) (by rw [ha]; exact Nat.succ_ne_self _)
  refine ⟨by rw [ha], ?_, ?_, ⟨newfs_inode.mk (sb.max_ino + 1) 0
    (List.replicate NEWFS_MAX_FILE_NAME 0) 0 [] _, by rw [hb], rfl⟩, ?_⟩
  · rw [hmap, popcount_low_bits_map]; omega
  · rw [ha]
    show popcount (low_bits_map _ _) = _
    rw [popcount_low_bits_map]; omega
  · rw [hb, ha]
    show popcount (low_bits_map _ _) = _
    rw [popcount_low_bits_map]
    show min (sb.max_ino + 1 + 1) (8 * NEWFS_BLKS_SZ sb sb.map_inode_blks) = _
    omega

/-- C7 on the code: on the super block left by a first-use mount of the
zero-filled 16 KiB device (capacity 1, root allocated), `newfs_alloc_inode`
returns `-NEWFS_ERROR_NOSPACE` and yet the index bitmap has changed: one bit
was set before the call, two are set after it. -/
theorem newfs_alloc_inode_nospace_commits_bit :
    (newfs_alloc_inode (newfs_mount super_zero (zero_disk 16384 512)).sb
        (new_dentry [97] NEWFS_DIR)).ret = .error (-NEWFS_ERROR_NOSPACE)
    ∧ popcount (newfs_mount super_zero (zero_disk 16384 512)).sb.map_inode = 1
    ∧ popcount (newfs_alloc_inode (newfs_mount super_zero (zero_disk 16384 512)).sb
        (new_dentry [97] NEWFS_DIR)).sb.map_inode = 2
    ∧ (newfs_alloc_inode (newfs_mount super_zero (zero_disk 16384 512)).sb
        (new_dentry [97] NEWFS_DIR)).sb.map_inode
        ≠ (newfs_mount super_zero (zero_disk 16384 512)).sb.map_inode := by
  obtain ⟨hN, hmap, hM⟩ := small_mount_state
  obtain ⟨h0, h1, h2, _, _⟩ := newfs_alloc_inode_at_capacity
    (newfs_mount super_zero (zero_disk 16384 512)).sb (new_dentry [97] NEWFS_DIR)
    (new_dentry [98] NEWFS_DIR) 1024 1 hN hM hmap (by decide)
  refine ⟨h0, h1, h2, ?_⟩
  intro he
  rw [he, h1] at h2
  exact absurd h2 (by decide)

/-- C6 on the code: on the same super block (capacity `max_ino = 1`), the call
after the failed one succeeds and returns index number 2, and three bits of
the index bitmap are then set. -/
theorem newfs_alloc_inode_beyond_capacity :
    (newfs_mount super_zero (zero_disk 16384 512)).sb.max_ino = 1
    ∧ (newfs_alloc_inode (newfs_mount super_zero (zero_disk 16384 512)).sb
        (new_dentry [97] NEWFS_DIR)).ret = .error (-NEWFS_ERROR_NOSPACE)
    ∧ (∃ i, (newfs_alloc_inode
          (newfs_alloc_inode (newfs_mount super_zero (zero_disk 16384 512)).sb
            (new_dentry [97] NEWFS_DIR)).sb
          (new_dentry [98] NEWFS_DIR)).ret = .ok i ∧ i.ino = 2)
    ∧ popcount (newfs_alloc_inode
          (newfs_alloc_inode (newfs_mount super_zero (zero_disk 16384 512)).sb
            (new_dentry [97] NEWFS_DIR)).sb
          (new_dentry [98] NEWFS_DIR)).sb.map_inode = 3 := by
  obtain ⟨hN, hmap, hM⟩ := small_mount_state
  obtain ⟨h0, _, _, h3, h4⟩ := newfs_alloc_inode_at_capacity
    (newfs_mount super_zero (zero_disk 16384 512)).sb (new_dentry [97] NEWFS_DIR)
    (new_dentry [98] NEWFS_DIR) 1024 1 hN hM hmap (by decide)
  exact ⟨hM, h0, h3, h4⟩

/-! ## C5 -/

set_option maxRecDepth 1000000 in
/-- C5 on the code: on the zero-filled 4 MiB device with 512-byte units, after
first-use mount, creation of `/a` and `/a/b`, unmount and a second mount,
`newfs_lookup("/a/b")` goes through a `NULL` record pointer (the record read
for `/a` at the second level is dropped), so it returns nothing; before the
unmount the same lookup returned `/a/b` with index number 2, and after the
second mount it does so again once `newfs_lookup("/a")` has loaded the record
of `/a`. -/
theorem newfs_lookup_after_remount_faults :
    (persist_scenario (zero_disk 4194304 512) (super_d_of_bytes [])).map
        (fun r => (r.before.fault, r.before.is_find, r.before.ino, r.before.meta))
      = some (false, true, some 2, some (0, 0))
    ∧ (persist_scenario (zero_disk 4194304 512) (super_d_of_bytes [])).map
        (fun r => (r.umount.ret, r.umount.fault, r.mount2.ret, r.mount2.fault))
      = some (NEWFS_ERROR_NONE, false, NEWFS_ERROR_NONE, false)
    ∧ (persist_scenario (zero_disk 4194304 512) (super_d_of_bytes [])).map
        (fun r => r.after.fault) = some true
    ∧ (persist_scenario (zero_disk 4194304 512) (super_d_of_bytes [])).map
        (fun r => (r.after_a.fault, r.after_a.is_find, r.after_a.ino))
      = some (false, true, some 1)
    ∧ (persist_scenario (zero_disk 4194304 512) (super_d_of_bytes [])).map
        (fun r => (r.after_a_b.fault, r.after_a_b.is_find, r.after_a_b.ino, r.after_a_b.meta))
      = some (false, true, some 2, some (0, 0)) := by
  refine ⟨?_, ?_, ?_, ?_, ?_⟩
  · decide
  · decide
  · decide
  · decide
  · decide

/-! ## Persistence as a list of writes -/

theorem apply_patches_append (sb : newfs_super) : ∀ (ps qs : List Patch) (d : Disk),
    apply_patches sb (ps ++ qs) d = apply_patches sb qs (apply_patches sb ps d)
  | [], _, _ => rfl
  | p :: ps, qs, d => by
    simp only [List.cons_append, apply_patches]
    exact apply_patches_append sb ps qs _

mutual
theorem newfs_sync_inode_patches (sb : newfs_super) : ∀ (inode : newfs_inode) (ftype : Nat)
    (d : Disk),
    (newfs_sync_inode sb inode ftype d).disk = apply_patches sb (inode_patches sb inode ftype) d
      ∧ (newfs_sync_inode sb inode ftype d).ret = NEWFS_ERROR_NONE
  | .mk ino size target_path dir_cnt dentrys data, ftype, d => by
    rw [newfs_sync_inode, inode_patches]
    simp only [newfs_driver_write_ret, ne_eq, not_true_eq_false, if_false, apply_patches]
    split
    · exact sync_dentrys_patches sb dentrys _ _
    · split
      · exact ⟨rfl, rfl⟩
      · exact ⟨rfl, rfl⟩
theorem sync_dentrys_patches (sb : newfs_super) : ∀ (l : List newfs_dentry) (offset : Nat)
    (d : Disk),
    (sync_dentrys sb l offset d).disk = apply_patches sb (dentrys_patches sb l offset) d
      ∧ (sync_dentrys sb l offset d).ret = NEWFS_ERROR_NONE
  | [], _, _ => by
    rw [sync_dentrys, dentrys_patches]
    exact ⟨rfl, rfl⟩
  | .mk fname ino inode ftype :: brother, offset, d => by
    cases inode with
    | none =>
      simp only [sync_dentrys, dentrys_patches, newfs_driver_write_ret, ne_eq,
        not_true_eq_false, if_false, apply_patches, List.nil_append]
      exact sync_dentrys_patches sb brother _ _
    | some child =>
      simp only [sync_dentrys, dentrys_patches, newfs_driver_write_ret, ne_eq,
        not_true_eq_false, if_false, apply_patches]
      rw [apply_patches_append, ← (newfs_sync_inode_patches sb child ftype _).1]
      exact sync_dentrys_patches sb brother _ _
end

theorem ok_span_mk (sb : newfs_super) (d : Disk) (offset size : Nat) :
    ok_span sb { sz_disk := d.sz_disk, sz_io := 0, mem := fun _ => 0, head := 0 } offset size
      = ok_span sb d offset size := rfl

/-- The bytes of the device after a list of writes: at each address the value
of the last write that reaches it, the old value where none does. -/
theorem apply_patches_spec (sb : newfs_super) (hio : 0 < sb.sz_io) : ∀ (ps : List Patch) (d : Disk),
    (apply_patches sb ps d).sz_disk = d.sz_disk
    ∧ (apply_patches sb ps d).sz_io = d.sz_io
    ∧ ∀ a, (apply_patches sb ps d).mem a = (last_cover sb d.sz_disk ps a).getD (d.mem a)
  | [], d => ⟨rfl, rfl, fun _ => rfl⟩
  | p :: ps, d => by
    obtain ⟨h1, h2, h3⟩ := apply_patches_spec sb hio ps
      (newfs_driver_write sb d p.offset p.bytes p.size).disk
    obtain ⟨w1, w2⟩ := newfs_driver_write_size sb d p.offset p.bytes p.size hio
    simp only [apply_patches]
    refine ⟨h1.trans w1, h2.trans w2, ?_⟩
    intro a
    rw [h3 a, w1]
    simp only [last_cover]
    rw [newfs_driver_write_spec sb d p.offset p.bytes p.size hio]
    cases last_cover sb d.sz_disk ps a with
    | some v => rfl
    | none =>
      show _ = (patch_val sb d.sz_disk p a).getD (d.mem a)
      unfold patch_val
      rw [ok_span_mk]
      by_cases hcov : p.offset ≤ a ∧ a < p.offset + p.size ∧ a < ok_span sb d p.offset p.size
      · rw [if_pos hcov]
        simp only [Option.getD_none, if_pos hcov, Option.getD_some]
      · rw [if_neg hcov]
        simp only [Option.getD_none, if_neg hcov]

theorem apply_patches_head (sb : newfs_super) (hio : 0 < sb.sz_io) : ∀ (ps : List Patch)
    (d d' : Disk), d.sz_disk = d'.sz_disk → ps ≠ [] →
    (apply_patches sb ps d).head = (apply_patches sb ps d').head
  | [], _, _, _, h => absurd rfl h
  | [p], d, d', hsz, _ => by
    simp only [apply_patches]
    rw [newfs_driver_write_spec sb d p.offset p.bytes p.size hio,
      newfs_driver_write_spec sb d' p.offset p.bytes p.size hio]
    exact ok_span_congr sb d d' hsz _ _
  | p :: q :: ps, d, d', hsz, _ => by
    simp only [apply_patches]
    have := apply_patches_head sb hio (q :: ps) (newfs_driver_write sb d p.offset p.bytes p.size).disk
      (newfs_driver_write sb d' p.offset p.bytes p.size).disk
      (by rw [(newfs_driver_write_size sb d _ _ _ hio).1,
             (newfs_driver_write_size sb d' _ _ _ hio).1]; exact hsz)
      (List.cons_ne_nil _ _)
    simpa only [apply_patches] using this

theorem disk_eq (x y : Disk) (h1 : x.sz_disk = y.sz_disk) (h2 : x.sz_io = y.sz_io)
    (h3 : x.mem = y.mem) (h4 : x.head = y.head) : x = y := by
  cases x; cases y
  simp only at h1 h2 h3 h4
  subst h1 h2 h3 h4
  rfl

/-- Applying a list of writes twice leaves the device as applying it once. -/
theorem apply_patches_idem (sb : newfs_super) (hio : 0 < sb.sz_io) (ps : List Patch) (d : Disk)
    (hne : ps ≠ []) :
    apply_patches sb ps (apply_patches sb ps d) = apply_patches sb ps d := by
  obtain ⟨a1, a2, a3⟩ := apply_patches_spec sb hio ps d
  obtain ⟨b1, b2, b3⟩ := apply_patches_spec sb hio ps (apply_patches sb ps d)
  have hh := apply_patches_head sb hio ps (apply_patches sb ps d) d a1 hne
  have hm : (apply_patches sb ps (apply_patches sb ps d)).mem = (apply_patches sb ps d).mem := by
    funext a
    rw [b3 a, a1, a3 a]
    cases last_cover sb d.sz_disk ps a <;> rfl
  exact disk_eq _ _ (b1.trans rfl) (b2.trans rfl) hm hh

theorem inode_patches_ne_nil (sb : newfs_super) (inode : newfs_inode) (ftype : Nat) :
    inode_patches sb inode ftype ≠ [] := by
  cases inode with
  | mk ino size target_path dir_cnt dentrys data =>
    rw [inode_patches]
    exact List.cons_ne_nil _ _

/-! ## C10 -/

/-- C10: for every super block with a positive I/O unit, every index record
`r` (owned by an entry of any type tag) and every device state, a second
`newfs_sync_inode(r)` right after the first returns the same code and leaves
the device exactly as the first call left it. -/
theorem newfs_sync_inode_idempotent (sb : newfs_super) (hio : 0 < sb.sz_io) (r : newfs_inode)
    (ftype : Nat) (d : Disk) :
    (newfs_sync_inode sb r ftype (newfs_sync_inode sb r ftype d).disk).disk
        = (newfs_sync_inode sb r ftype d).disk
    ∧ (newfs_sync_inode sb r ftype (newfs_sync_inode sb r ftype d).disk).ret
        = (newfs_sync_inode sb r ftype d).ret := by
  rw [(newfs_sync_inode_patches sb r ftype _).1, (newfs_sync_inode_patches sb r ftype _).2,
    (newfs_sync_inode_patches sb r ftype d).1, (newfs_sync_inode_patches sb r ftype d).2]
  exact ⟨apply_patches_idem sb hio _ d (inode_patches_ne_nil sb r ftype), rfl⟩

/-- C10 at a concrete input: a directory record with one child on a 4096-byte
device with 512-byte units. -/
theorem newfs_sync_inode_idempotent_witness :
    (newfs_sync_inode { super_zero with sz_io := 512, sz_blk := 1024, data_offset := 1024 }
        (.mk 0 0 [] 1 [new_dentry [97] NEWFS_DIR] []) NEWFS_DIR
        (newfs_sync_inode { super_zero with sz_io := 512, sz_blk := 1024, data_offset := 1024 }
          (.mk 0 0 [] 1 [new_dentry [97] NEWFS_DIR] []) NEWFS_DIR (zero_disk 4096 512)).disk).disk
        = (newfs_sync_inode { super_zero with sz_io := 512, sz_blk := 1024, data_offset := 1024 }
          (.mk 0 0 [] 1 [new_dentry [97] NEWFS_DIR] []) NEWFS_DIR (zero_disk 4096 512)).disk
    ∧ (newfs_sync_inode { super_zero with sz_io := 512, sz_blk := 1024, data_offset := 1024 }
        (.mk 0 0 [] 1 [new_dentry [97] NEWFS_DIR] []) NEWFS_DIR
        (newfs_sync_inode { super_zero with sz_io := 512, sz_blk := 1024, data_offset := 1024 }
          (.mk 0 0 [] 1 [new_dentry [97] NEWFS_DIR] []) NEWFS_DIR (zero_disk 4096 512)).disk).ret
        = (newfs_sync_inode { super_zero with sz_io := 512, sz_blk := 1024, data_offset := 1024 }
          (.mk 0 0 [] 1 [new_dentry [97] NEWFS_DIR] []) NEWFS_DIR (zero_disk 4096 512)).ret :=
  newfs_sync_inode_idempotent { super_zero with sz_io := 512, sz_blk := 1024, data_offset := 1024 }
    (by decide) (.mk 0 0 [] 1 [new_dentry [97] NEWFS_DIR] []) NEWFS_DIR (zero_disk 4096 512)

/-! ## Encoding and decoding the on-disk records -/

theorem le32_length (v : Nat) : (le32 v).length = 4 := rfl

theorem int_le32_length (v : Int) : (int_le32 v).length = 4 := rfl

theorem field_length (n : Nat) (l : List Nat) : (field n l).length = n := by
  simp [field]

theorem field_of_length (l : List Nat) : field l.length l = l := map_range_getD l

theorem inode_d_bytes_length (s : newfs_inode_d) : (inode_d_bytes s).length = SIZEOF_INODE_D := by
  simp only [inode_d_bytes, List.length_append, le32_length, int_le32_length, field_length]
  rfl

theorem dentry_d_bytes_length (s : newfs_dentry_d) :
    (dentry_d_bytes s).length = SIZEOF_DENTRY_D := by
  simp only [dentry_d_bytes, List.length_append, le32_length, field_length]

theorem get_u32_append_left (a c : List Nat) (p : Nat) (h : p + 4 ≤ a.length) :
    get_u32 (a ++ c) p = get_u32 a p := by
  unfold get_u32
  rw [List.getD_append _ _ _ _ (by omega), List.getD_append _ _ _ _ (by omega),
    List.getD_append _ _ _ _ (by omega), List.getD_append _ _ _ _ (by omega)]

theorem get_u32_append_right (a c : List Nat) (p : Nat) :
    get_u32 (a ++ c) (a.length + p) = get_u32 c p := by
  unfold get_u32
  rw [List.getD_append_right _ _ _ _ (by omega), List.getD_append_right _ _ _ _ (by omega),
    List.getD_append_right _ _ _ _ (by omega), List.getD_append_right _ _ _ _ (by omega)]
  have e0 : a.length + p - a.length = p := by omega
  have e1 : a.length + p + 1 - a.length = p + 1 := by omega
  have e2 : a.length + p + 2 - a.length = p + 2 := by omega
  have e3 : a.length + p + 3 - a.length = p + 3 := by omega
  rw [e0, e1, e2, e3]

theorem get_u32_le32 (v : Nat) : get_u32 (le32 v) 0 = v % 4294967296 := by
  unfold get_u32 le32
  simp only [List.getD_cons_zero, List.getD_cons_succ, Nat.zero_add]
  omega

theorem get_i32_append_left (a c : List Nat) (p : Nat) (h : p + 4 ≤ a.length) :
    get_i32 (a ++ c) p = get_i32 a p := by
  unfold get_i32
  rw [get_u32_append_left a c p h]

theorem get_i32_append_right (a c : List Nat) (p : Nat) :
    get_i32 (a ++ c) (a.length + p) = get_i32 c p := by
  unfold get_i32
  rw [get_u32_append_right a c p]

theorem get_i32_int_le32 (v : Int) (h1 : -2147483648 ≤ v) (h2 : v < 2147483648) :
    get_i32 (int_le32 v) 0 = v := by
  unfold get_i32 int_le32
  rw [get_u32_le32]
  have hnn : 0 ≤ v % 4294967296 := Int.emod_nonneg _ (by decide)
  have hlt : v % 4294967296 < 4294967296 := Int.emod_lt_of_pos _ (by decide)
  have hcast : ((v % 4294967296).toNat : Int) = v % 4294967296 := Int.toNat_of_nonneg hnn
  have hmod : (v % 4294967296).toNat % 4294967296 = (v % 4294967296).toNat := by
    apply Nat.mod_eq_of_lt
    omega
  rw [hmod]
  split
  · omega
  · omega

/-- Decoding the bytes of a `struct newfs_inode_d`. -/
theorem inode_d_roundtrip (s : newfs_inode_d) (h1 : s.ino < 4294967296)
    (h2 : -2147483648 ≤ s.size) (h3 : s.size < 2147483648)
    (h4 : s.target_path.length = NEWFS_MAX_FILE_NAME)
    (h5 : -2147483648 ≤ s.dir_cnt) (h6 : s.dir_cnt < 2147483648) :
    (inode_d_of_bytes (inode_d_bytes s)).ino = s.ino
    ∧ (inode_d_of_bytes (inode_d_bytes s)).size = s.size
    ∧ (inode_d_of_bytes (inode_d_bytes s)).target_path = s.target_path
    ∧ (inode_d_of_bytes (inode_d_bytes s)).dir_cnt = s.dir_cnt := by
  have hf : field NEWFS_MAX_FILE_NAME s.target_path = s.target_path := by
    rw [← h4]; exact field_of_length _
  unfold inode_d_of_bytes inode_d_bytes
  rw [hf]
  have l1 : (le32 s.ino).length = 4 := rfl
  have l2 : (le32 s.ino ++ int_le32 s.size).length = 8 := rfl
  have l3 : (le32 s.ino ++ int_le32 s.size ++ s.target_path).length = 136 := by
    rw [List.length_append, l2, h4]; rfl
  have l4 : (le32 s.ino ++ int_le32 s.size ++ s.target_path ++ int_le32 s.dir_cnt).length = 140 := by
    rw [List.length_append, l3]; rfl
  refine ⟨?_, ?_, ?_, ?_⟩
  · show get_u32 _ 0 = _
    rw [get_u32_append_left _ _ 0 (by rw [l4]; omega),
      get_u32_append_left _ _ 0 (by rw [l3]; omega),
      get_u32_append_left _ _ 0 (by rw [l2]; omega),
      get_u32_append_left _ _ 0 (by rw [l1]),
      get_u32_le32, Nat.mod_eq_of_lt h1]
  · show get_i32 _ 4 = _
    rw [get_i32_append_left _ _ 4 (by rw [l4]; omega),
      get_i32_append_left _ _ 4 (by rw [l3]; omega),
      get_i32_append_left _ _ 4 (by rw [l2])]
    have := get_i32_append_right (le32 s.ino) (int_le32 s.size) 0
    rw [l1] at this
    rw [this, get_i32_int_le32 _ h2 h3]
  · show List.take NEWFS_MAX_FILE_NAME (List.drop 8 _) = _
    rw [List.append_assoc, List.append_assoc, List.drop_left' l2, List.take_left' h4]
  · show get_i32 _ 136 = _
    rw [get_i32_append_left _ _ 136 (by rw [l4])]
    have := get_i32_append_right (le32 s.ino ++ int_le32 s.size ++ s.target_path)
      (int_le32 s.dir_cnt) 0
    rw [l3] at this
    rw [this, get_i32_int_le32 _ h5 h6]

/-- Decoding the bytes of a `struct newfs_dentry_d`. -/
theorem dentry_d_roundtrip (s : newfs_dentry_d) (h1 : s.fname.length = NEWFS_MAX_FILE_NAME)
    (h2 : s.ftype < 4294967296) (h3 : s.ino < 4294967296) :
    dentry_d_of_bytes (dentry_d_bytes s) = s := by
  have hf : field NEWFS_MAX_FILE_NAME s.fname = s.fname := by
    rw [← h1]; exact field_of_length _
  unfold dentry_d_of_bytes dentry_d_bytes
  rw [hf]
  have l2 : (s.fname ++ le32 s.ftype).length = 132 := by
    rw [List.length_append, h1]; rfl
  have e1 : List.take NEWFS_MAX_FILE_NAME (s.fname ++ le32 s.ftype ++ le32 s.ino) = s.fname := by
    rw [List.append_assoc, List.take_left' h1]
  have e2 : get_u32 (s.fname ++ le32 s.ftype ++ le32 s.ino) 128 = s.ftype := by
    rw [get_u32_append_left _ _ 128 (by rw [l2])]
    have := get_u32_append_right s.fname (le32 s.ftype) 0
    rw [h1] at this
    rw [this, get_u32_le32, Nat.mod_eq_of_lt h2]
  have e3 : get_u32 (s.fname ++ le32 s.ftype ++ le32 s.ino) 132 = s.ino := by
    have := get_u32_append_right (s.fname ++ le32 s.ftype) (le32 s.ino) 0
    rw [l2] at this
    rw [this, get_u32_le32, Nat.mod_eq_of_lt h3]
  rw [e1, e2, e3]

/-! ## Addresses inside one slot -/

theorem round_up_lt (v r : Nat) (hr : 0 < r) : NEWFS_ROUND_UP v r < v + r := by
  unfold NEWFS_ROUND_UP
  split
  · omega
  · have := Nat.div_add_mod v r
    have h2 := Nat.mod_lt v hr
    rw [Nat.add_mul, Nat.mul_comm]
    omega

/-- A range inside a region that starts and ends on unit boundaries and lies
inside the device has its aligned span inside the device. -/
theorem span_inside_of_region (sb : newfs_super) (d : Disk) (hi offset size : Nat)
    (hio : 0 < sb.sz_io) (hhi : sb.sz_io ∣ hi)
    (h2 : offset + size ≤ hi) (h3 : hi ≤ d.sz_disk) : span_inside sb d offset size := by
  unfold span_inside
  have hoa := round_down_eq offset sb.sz_io
  have hle := round_down_le offset sb.sz_io
  have hu := round_up_lt (size + (offset - NEWFS_ROUND_DOWN offset sb.sz_io)) sb.sz_io hio
  have hud := round_up_div_mul (size + (offset - NEWFS_ROUND_DOWN offset sb.sz_io)) sb.sz_io
  generalize NEWFS_ROUND_UP (size + (offset - NEWFS_ROUND_DOWN offset sb.sz_io)) sb.sz_io = u
    at hu hud ⊢
  generalize NEWFS_ROUND_DOWN offset sb.sz_io = oa at hoa hle hu ⊢
  obtain ⟨c, hc⟩ := hhi
  have hsum : oa + u = (offset / sb.sz_io + u / sb.sz_io) * sb.sz_io := by
    rw [Nat.add_mul, ← hoa, hud]
  have hlt : (offset / sb.sz_io + u / sb.sz_io) * sb.sz_io < (c + 1) * sb.sz_io := by
    rw [← hsum, Nat.add_mul, Nat.one_mul, Nat.mul_comm c, ← hc]
    omega
  have hq : offset / sb.sz_io + u / sb.sz_io ≤ c :=
    Nat.lt_succ_iff.mp (Nat.lt_of_mul_lt_mul_right hlt)
  have := Nat.mul_le_mul_right sb.sz_io hq
  rw [← hsum, Nat.mul_comm c, ← hc] at this
  omega

theorem ino_ofs_dvd (sb : newfs_super) (hsb : super_ok sb) (ino : Nat) :
    sb.sz_io ∣ NEWFS_INO_OFS sb ino := by
  obtain ⟨_, hblk, hdvd, _⟩ := hsb
  unfold NEWFS_INO_OFS NEWFS_BLKS_SZ
  rw [hblk]
  apply Nat.dvd_add hdvd
  exact ⟨ino * ((NEWFS_INODE_PER_FILE + NEWFS_DATA_PER_FILE) * 2), by ring⟩

theorem ino_ofs_succ (sb : newfs_super) (ino : Nat) :
    NEWFS_INO_OFS sb (ino + 1) = NEWFS_INO_OFS sb ino + 7 * sb.sz_blk := by
  unfold NEWFS_INO_OFS NEWFS_BLKS_SZ
  have e : NEWFS_INODE_PER_FILE + NEWFS_DATA_PER_FILE = 7 := rfl
  rw [e]; ring

theorem data_ofs_eq (sb : newfs_super) (ino : Nat) :
    NEWFS_DATA_OFS sb ino = NEWFS_INO_OFS sb ino + sb.sz_blk := by
  unfold NEWFS_DATA_OFS NEWFS_BLKS_SZ
  rw [Nat.one_mul]

theorem blks_data (sb : newfs_super) : NEWFS_BLKS_SZ sb NEWFS_DATA_PER_FILE = 6 * sb.sz_blk := rfl

/-- Slots of different index numbers do not overlap. -/
theorem ino_slots_disjoint (sb : newfs_super) (i j : Nat) (h : i ≠ j) :
    NEWFS_INO_OFS sb (i + 1) ≤ NEWFS_INO_OFS sb j ∨ NEWFS_INO_OFS sb (j + 1) ≤ NEWFS_INO_OFS sb i := by
  unfold NEWFS_INO_OFS
  rcases Nat.lt_or_gt_of_ne h with hlt | hgt
  · left
    have : (i + 1) * NEWFS_BLKS_SZ sb (NEWFS_INODE_PER_FILE + NEWFS_DATA_PER_FILE)
        ≤ j * NEWFS_BLKS_SZ sb (NEWFS_INODE_PER_FILE + NEWFS_DATA_PER_FILE) :=
      Nat.mul_le_mul_right _ hlt
    omega
  · right
    have : (j + 1) * NEWFS_BLKS_SZ sb (NEWFS_INODE_PER_FILE + NEWFS_DATA_PER_FILE)
        ≤ i * NEWFS_BLKS_SZ sb (NEWFS_INODE_PER_FILE + NEWFS_DATA_PER_FILE) :=
      Nat.mul_le_mul_right _ hgt
    omega

theorem newfs_driver_read_of_mem_has (sb : newfs_super) (d : Disk) (offset : Nat) (b : List Nat)
    (hio : 0 < sb.sz_io) (hin : span_inside sb d offset b.length) (hm : mem_has d.mem offset b) :
    (newfs_driver_read sb d offset b.length).content = b := by
  rw [newfs_driver_read_inside sb d offset b.length hio hin]
  conv_rhs => rw [← map_range_getD b]
  apply List.map_congr_left
  intro i hi
  exact hm i (by simpa using hi)

/-! ## Which write reaches an address last -/

theorem last_cover_append (sb : newfs_super) (sz : Nat) : ∀ (ps qs : List Patch) (a : Nat),
    last_cover sb sz (ps ++ qs) a =
      match last_cover sb sz qs a with
      | some v => some v
      | none => last_cover sb sz ps a
  | [], qs, a => by
    simp only [List.nil_append, last_cover]
    cases last_cover sb sz qs a <;> rfl
  | p :: ps, qs, a => by
    have ih := last_cover_append sb sz ps qs a
    show (match last_cover sb sz (ps ++ qs) a with
      | some v => some v
      | none => patch_val sb sz p a) = _
    rw [ih]
    simp only [last_cover]
    cases last_cover sb sz qs a <;> rfl

theorem patch_val_outside (sb : newfs_super) (sz : Nat) (p : Patch) (a : Nat)
    (h : ¬ (p.offset ≤ a ∧ a < p.offset + p.size)) : patch_val sb sz p a = none := by
  unfold patch_val
  rw [if_neg (fun hc => h ⟨hc.1, hc.2.1⟩)]

theorem last_cover_outside (sb : newfs_super) (sz : Nat) : ∀ (ps : List Patch) (a : Nat),
    (∀ p, p ∈ ps → ¬ (p.offset ≤ a ∧ a < p.offset + p.size)) → last_cover sb sz ps a = none
  | [], _, _ => rfl
  | p :: ps, a, h => by
    simp only [last_cover]
    rw [last_cover_outside sb sz ps a (fun q hq => h q (List.mem_cons_of_mem _ hq)),
      patch_val_outside sb sz p a (h p (List.mem_cons_self _ _))]

theorem patch_val_inside (sb : newfs_super) (d : Disk) (p : Patch) (a : Nat)
    (hio : 0 < sb.sz_io) (hin : span_inside sb d p.offset p.size)
    (h : p.offset ≤ a ∧ a < p.offset + p.size) :
    patch_val sb d.sz_disk p a = some (p.bytes.getD (a - p.offset) 0) := by
  unfold patch_val
  rw [ok_span_mk]
  have := ok_span_inside sb d p.offset p.size hio hin
  rw [if_pos ⟨h.1, h.2, by omega⟩]

/-! ## Where the writes of a subtree go -/

theorem patch_outside_of_slot (sb : newfs_super) (ino0 i : Nat) (p : Patch) (hne : i ≠ ino0)
    (h1 : NEWFS_INO_OFS sb i ≤ p.offset) (h2 : p.offset + p.size ≤ NEWFS_INO_OFS sb (i + 1)) :
    patch_outside sb ino0 p := by
  unfold patch_outside
  rcases ino_slots_disjoint sb i ino0 hne with h | h
  · left; omega
  · right; omega

theorem dentrys_image_length : ∀ l : List newfs_dentry,
    (dentrys_image l).length = SIZEOF_DENTRY_D * l.length
  | [] => rfl
  | c :: rest => by
    simp only [dentrys_image, List.length_append, dentry_d_bytes_length, List.length_cons,
      dentrys_image_length rest]
    ring

mutual
theorem inode_patches_outside (sb : newfs_super) (hsb : super_ok sb) (ino0 : Nat) :
    ∀ (inode : newfs_inode) (ftype : Nat), inode_outside sb ino0 inode ftype = true →
      ∀ p, p ∈ inode_patches sb inode ftype → patch_outside sb ino0 p
  | .mk ino size target_path dir_cnt dentrys data, ftype, h, p, hp => by
    obtain ⟨_, hblk, _, h144⟩ := hsb
    have h144' : 144 ≤ sb.sz_blk := h144
    simp only [inode_outside, Bool.and_eq_true, decide_eq_true_eq] at h
    obtain ⟨hne, hrest⟩ := h
    have hs := ino_ofs_succ sb ino
    have hd := data_ofs_eq sb ino
    rw [inode_patches, List.mem_cons] at hp
    rcases hp with rfl | hp
    · apply patch_outside_of_slot sb ino0 ino _ hne
      · exact le_refl _
      · show NEWFS_INO_OFS sb ino + 144 ≤ _
        omega
    · by_cases hdir : ftype = NEWFS_DIR
      · rw [if_pos hdir] at hp hrest
        simp only [Bool.and_eq_true, decide_eq_true_eq] at hrest
        have hfit : 136 * dentrys.length ≤ 6 * sb.sz_blk := hrest.1
        exact dentrys_patches_outside sb ⟨‹_›, hblk, ‹_›, h144⟩ ino0 ino hne dentrys
          (NEWFS_DATA_OFS sb ino) hrest.2 (by omega)
          (by show _ + 136 * dentrys.length ≤ _; omega) p hp
      · rw [if_neg hdir] at hp
        by_cases hreg : ftype = NEWFS_REG_FILE
        · rw [if_pos hreg, List.mem_singleton] at hp
          subst hp
          apply patch_outside_of_slot sb ino0 ino _ hne
          · show NEWFS_INO_OFS sb ino ≤ NEWFS_DATA_OFS sb ino
            omega
          · show NEWFS_DATA_OFS sb ino + 6 * sb.sz_blk ≤ _
            omega
        · rw [if_neg hreg] at hp
          cases hp
theorem dentrys_patches_outside (sb : newfs_super) (hsb : super_ok sb) (ino0 i : Nat)
    (hne : i ≠ ino0) :
    ∀ (l : List newfs_dentry) (offset : Nat), dentrys_outside sb ino0 l = true →
      NEWFS_INO_OFS sb i ≤ offset →
      offset + SIZEOF_DENTRY_D * l.length ≤ NEWFS_INO_OFS sb (i + 1) →
      ∀ p, p ∈ dentrys_patches sb l offset → patch_outside sb ino0 p
  | [], _, _, _, _, p, hp => by
    rw [dentrys_patches] at hp
    cases hp
  | .mk fname ino inode ftype :: brother, offset, h, h1, h2, p, hp => by
    have h2' : offset + 136 * (brother.length + 1) ≤ NEWFS_INO_OFS sb (i + 1) := h2
    cases inode with
    | none =>
      simp only [dentrys_outside, Bool.true_and] at h
      simp only [dentrys_patches, List.nil_append, List.mem_cons] at hp
      rcases hp with rfl | hp
      · apply patch_outside_of_slot sb ino0 i _ hne h1
        show offset + 136 ≤ _
        omega
      · exact dentrys_patches_outside sb hsb ino0 i hne brother (offset + SIZEOF_DENTRY_D) h
          (by omega) (by show offset + 136 + 136 * brother.length ≤ _; omega) p hp
    | some child =>
      simp only [dentrys_outside, Bool.and_eq_true] at h
      simp only [dentrys_patches, List.mem_cons, List.mem_append] at hp
      rcases hp with rfl | hp | hp
      · apply patch_outside_of_slot sb ino0 i _ hne h1
        show offset + 136 ≤ _
        omega
      · exact inode_patches_outside sb hsb ino0 child ftype h.1 p hp
      · exact dentrys_patches_outside sb hsb ino0 i hne brother (offset + SIZEOF_DENTRY_D) h.2
          (by omega) (by show offset + 136 + 136 * brother.length ≤ _; omega) p hp
end

/-- A write of the child loop either lies in the part of the data area that
the child entries take, or outside the slot. -/
theorem dentrys_patches_mem (sb : newfs_super) (hsb : super_ok sb) (ino0 : Nat) :
    ∀ (l : List newfs_dentry) (offset : Nat), dentrys_outside sb ino0 l = true →
      ∀ p, p ∈ dentrys_patches sb l offset →
        (offset ≤ p.offset ∧ p.offset + p.size ≤ offset + SIZEOF_DENTRY_D * l.length)
          ∨ patch_outside sb ino0 p
  | [], _, _, p, hp => by
    rw [dentrys_patches] at hp
    cases hp
  | .mk fname ino inode ftype :: brother, offset, h, p, hp => by
    have hlen : SIZEOF_DENTRY_D * (List.length (newfs_dentry.mk fname ino inode ftype :: brother))
        = 136 + 136 * brother.length := by
      simp only [List.length_cons]; ring
    rw [hlen]
    have hb : dentrys_outside sb ino0 brother = true := by
      cases inode <;> simp only [dentrys_outside, Bool.and_eq_true, Bool.true_and] at h
      · exact h
      · exact h.2
    have hrec := dentrys_patches_mem sb hsb ino0 brother (offset + SIZEOF_DENTRY_D) hb
    have hrec' : ∀ q, q ∈ dentrys_patches sb brother (offset + SIZEOF_DENTRY_D) →
        (offset ≤ q.offset ∧ q.offset + q.size ≤ offset + (136 + 136 * brother.length))
          ∨ patch_outside sb ino0 q := by
      intro q hq
      rcases hrec q hq with ⟨a1, a2⟩ | a3
      · left
        have a1' : offset + 136 ≤ q.offset := a1
        have a2' : q.offset + q.size ≤ offset + 136 + 136 * brother.length := a2
        omega
      · right; exact a3
    cases inode with
    | none =>
      simp only [dentrys_patches, List.nil_append, List.mem_cons] at hp
      rcases hp with rfl | hp
      · left
        show offset ≤ offset ∧ offset + 136 ≤ _
        omega
      · exact hrec' p hp
    | some child =>
      simp only [dentrys_outside, Bool.and_eq_true] at h
      simp only [dentrys_patches, List.mem_cons, List.mem_append] at hp
      rcases hp with rfl | hp | hp
      · left
        show offset ≤ offset ∧ offset + 136 ≤ _
        omega
      · right; exact inode_patches_outside sb hsb ino0 child ftype h.1 p hp
      · exact hrec' p hp

/-- No write of the child loop reaches an address of the slot outside the part
of the data area that the child entries take. -/
theorem dentrys_patches_none (sb : newfs_super) (hsb : super_ok sb) (ino0 sz : Nat)
    (l : List newfs_dentry) (offset a : Nat) (h : dentrys_outside sb ino0 l = true)
    (ha1 : NEWFS_INO_OFS sb ino0 ≤ a) (ha2 : a < NEWFS_INO_OFS sb (ino0 + 1))
    (hout : a < offset ∨ offset + SIZEOF_DENTRY_D * l.length ≤ a) :
    last_cover sb sz (dentrys_patches sb l offset) a = none := by
  apply last_cover_outside
  intro p hp hc
  rcases dentrys_patches_mem sb hsb ino0 l offset h p hp with ⟨b1, b2⟩ | b3
  · omega
  · unfold patch_outside at b3
    omega

/-- The last write of the child loop to reach an address of the part of the
data area that the child entries take writes the byte of the on-disk entries
there. -/
theorem dentrys_patches_image (sb : newfs_super) (hsb : super_ok sb) (ino0 : Nat) (d : Disk)
    (hdev : NEWFS_INO_OFS sb (ino0 + 1) ≤ d.sz_disk) :
    ∀ (l : List newfs_dentry) (offset a : Nat), dentrys_outside sb ino0 l = true →
      NEWFS_INO_OFS sb ino0 ≤ offset →
      offset + SIZEOF_DENTRY_D * l.length ≤ NEWFS_INO_OFS sb (ino0 + 1) →
      offset ≤ a → a < offset + SIZEOF_DENTRY_D * l.length →
      last_cover sb d.sz_disk (dentrys_patches sb l offset) a
        = some ((dentrys_image l).getD (a - offset) 0)
  | [], offset, a, _, _, _, h1, h2 => by
    simp only [List.length_nil, Nat.mul_zero, Nat.add_zero] at h2
    omega
  | .mk fname ino inode ftype :: brother, offset, a, h, hlo, hhi, h1, h2 => by
    have hlen : SIZEOF_DENTRY_D * (List.length (newfs_dentry.mk fname ino inode ftype :: brother))
        = 136 + 136 * brother.length := by
      simp only [List.length_cons]; ring
    rw [hlen] at hhi h2
    have hb : dentrys_outside sb ino0 brother = true := by
      cases inode <;> simp only [dentrys_outside, Bool.and_eq_true, Bool.true_and] at h
      · exact h
      · exact h.2
    obtain ⟨sub, hpatches, hsub⟩ : ∃ sub : List Patch,
        dentrys_patches sb (newfs_dentry.mk fname ino inode ftype :: brother) offset
          = { offset := offset
              bytes := dentry_d_bytes { fname := fname, ftype := ftype, ino := ino }
              size := SIZEOF_DENTRY_D } ::
            (sub ++ dentrys_patches sb brother (offset + SIZEOF_DENTRY_D))
        ∧ last_cover sb d.sz_disk sub a = none := by
      cases inode with
      | none => exact ⟨[], by simp only [dentrys_patches], rfl⟩
      | some child =>
        simp only [dentrys_outside, Bool.and_eq_true] at h
        refine ⟨inode_patches sb child ftype, by simp only [dentrys_patches], ?_⟩
        apply last_cover_outside
        intro p hp hc
        have := inode_patches_outside sb hsb ino0 child ftype h.1 p hp
        unfold patch_outside at this
        omega
    rw [hpatches]
    simp only [last_cover, last_cover_append, hsub]
    have himg : dentrys_image (newfs_dentry.mk fname ino inode ftype :: brother)
        = dentry_d_bytes { fname := fname, ftype := ftype, ino := ino } ++ dentrys_image brother :=
      rfl
    rw [himg]
    have hl : (dentry_d_bytes { fname := fname, ftype := ftype, ino := ino }).length = 136 :=
      dentry_d_bytes_length _
    by_cases hfirst : a < offset + 136
    · rw [dentrys_patches_none sb hsb ino0 d.sz_disk brother (offset + SIZEOF_DENTRY_D) a hb
        (by omega) (by omega) (Or.inl hfirst)]
      simp only
      rw [patch_val_inside sb d _ a hsb.1
        (span_inside_of_region sb d (NEWFS_INO_OFS sb (ino0 + 1)) _ _ hsb.1
          (ino_ofs_dvd sb hsb _) (by show offset + 136 ≤ _; omega) hdev)
        ⟨h1, hfirst⟩]
      rw [List.getD_append _ _ _ _ (by rw [hl]; omega)]
    · have ih := dentrys_patches_image sb hsb ino0 d hdev brother (offset + SIZEOF_DENTRY_D) a hb
        (by omega) (by show offset + 136 + 136 * brother.length ≤ _; omega)
        (by show offset + 136 ≤ a; omega)
        (by show a < offset + 136 + 136 * brother.length; omega)
      rw [ih]
      simp only
      rw [List.getD_append_right _ _ _ _ (by rw [hl]; omega), hl]
      have e : a - (offset + SIZEOF_DENTRY_D) = a - offset - 136 := by
        show a - (offset + 136) = a - offset - 136
        omega
      rw [e]

/-! ## What `newfs_sync_inode` leaves in the slot of the record -/

theorem mem_has_append (m : Nat → Nat) (offset : Nat) (b c : List Nat)
    (h : mem_has m offset (b ++ c)) :
    mem_has m offset b ∧ mem_has m (offset + b.length) c := by
  constructor
  · intro i hi
    have := h i (by rw [List.length_append]; omega)
    rw [List.getD_append _ _ _ _ hi] at this
    exact this
  · intro i hi
    have := h (b.length + i) (by rw [List.length_append]; omega)
    rw [List.getD_append_right _ _ _ _ (by omega)] at this
    have e : b.length + i - b.length = i := by omega
    rw [e, ← Nat.add_assoc] at this
    exact this

/-- The device after `newfs_sync_inode(r)`, for a record that the on-disk form
can hold and whose slot lies inside the device: the slot starts with the bytes
of the on-disk record, and the data area holds the on-disk child entries (of a
directory) or the data buffer (of a regular file). -/
theorem newfs_sync_inode_mem (sb : newfs_super) (hsb : super_ok sb) (d : Disk) (ftype : Nat)
    (ino : Nat) (size : Int) (tp : List Nat) (cnt : Int) (dentrys : List newfs_dentry)
    (data : List Nat)
    (hdev : NEWFS_INO_OFS sb (ino + 1) ≤ d.sz_disk)
    (hfit : ftype = NEWFS_DIR →
      SIZEOF_DENTRY_D * dentrys.length ≤ NEWFS_BLKS_SZ sb NEWFS_DATA_PER_FILE
        ∧ dentrys_outside sb ino dentrys = true)
    (hdata : ftype = NEWFS_REG_FILE → data.length = NEWFS_BLKS_SZ sb NEWFS_DATA_PER_FILE) :
    (newfs_sync_inode sb (.mk ino size tp cnt dentrys data) ftype d).disk.sz_disk = d.sz_disk
    ∧ mem_has (newfs_sync_inode sb (.mk ino size tp cnt dentrys data) ftype d).disk.mem
        (NEWFS_INO_OFS sb ino)
        (inode_d_bytes { ino := ino, size := size, target_path := tp, dir_cnt := cnt,
                         ftype := ftype })
    ∧ (ftype = NEWFS_DIR →
        mem_has (newfs_sync_inode sb (.mk ino size tp cnt dentrys data) ftype d).disk.mem
          (NEWFS_DATA_OFS sb ino) (dentrys_image dentrys))
    ∧ (ftype = NEWFS_REG_FILE →
        mem_has (newfs_sync_inode sb (.mk ino size tp cnt dentrys data) ftype d).disk.mem
          (NEWFS_DATA_OFS sb ino) data) := by
  have hio := hsb.1
  have h144 : 144 ≤ sb.sz_blk := hsb.2.2.2
  have hs := ino_ofs_succ sb ino
  have hd := data_ofs_eq sb ino
  have hdvd := ino_ofs_dvd sb hsb (ino + 1)
  rw [(newfs_sync_inode_patches sb _ ftype d).1]
  obtain ⟨a1, _, a3⟩ := apply_patches_spec sb hio (inode_patches sb (.mk ino size tp cnt dentrys data) ftype) d
  refine ⟨a1, ?_, ?_, ?_⟩
  · intro i hi
    rw [inode_d_bytes_length] at hi
    have hi' : i < 144 := hi
    rw [a3, inode_patches]
    simp only [last_cover]
    have htail : last_cover sb d.sz_disk
        (if ftype = NEWFS_DIR then dentrys_patches sb dentrys (NEWFS_DATA_OFS sb ino)
         else if ftype = NEWFS_REG_FILE then
           [{ offset := NEWFS_DATA_OFS sb ino, bytes := data,
              size := NEWFS_BLKS_SZ sb NEWFS_DATA_PER_FILE }]
         else []) (NEWFS_INO_OFS sb ino + i) = none := by
      by_cases hdir : ftype = NEWFS_DIR
      · rw [if_pos hdir]
        exact dentrys_patches_none sb hsb ino d.sz_disk dentrys _ _ (hfit hdir).2 (by omega)
          (by omega) (Or.inl (by omega))
      · rw [if_neg hdir]
        split
        · apply last_cover_outside
          intro p hp hc
          rw [List.mem_singleton] at hp
          subst hp
          have : NEWFS_DATA_OFS sb ino ≤ NEWFS_INO_OFS sb ino + i := hc.1
          omega
        · rfl
    rw [htail]
    simp only
    rw [patch_val_inside sb d _ _ hio
      (span_inside_of_region sb d (NEWFS_INO_OFS sb (ino + 1)) _ _ hio hdvd
        (by show NEWFS_INO_OFS sb ino + 144 ≤ _; omega) hdev)
      ⟨by show NEWFS_INO_OFS sb ino ≤ _; omega, by show _ < NEWFS_INO_OFS sb ino + 144; omega⟩]
    simp only [Option.getD_some]
    congr 1
    show NEWFS_INO_OFS sb ino + i - NEWFS_INO_OFS sb ino = i
    omega
  · intro hdir i hi
    obtain ⟨hf1, hf2⟩ := hfit hdir
    have hf1' : 136 * dentrys.length ≤ 6 * sb.sz_blk := hf1
    rw [dentrys_image_length] at hi
    have hi' : i < 136 * dentrys.length := hi
    rw [a3, inode_patches]
    simp only [last_cover, if_pos hdir]
    rw [dentrys_patches_image sb hsb ino d hdev dentrys (NEWFS_DATA_OFS sb ino)
      (NEWFS_DATA_OFS sb ino + i) hf2 (by omega)
      (by show _ + 136 * dentrys.length ≤ _; omega) (by omega)
      (by show _ < _ + 136 * dentrys.length; omega)]
    simp only [Option.getD_some]
    congr 1
    omega
  · intro hreg i hi
    have hlen := hdata hreg
    have hlen' : data.length = 6 * sb.sz_blk := hlen
    have hnd : ¬ ftype = NEWFS_DIR := by rw [hreg]; decide
    rw [a3, inode_patches]
    simp only [last_cover, if_neg hnd, if_pos hreg]
    rw [patch_val_inside sb d _ _ hio
      (span_inside_of_region sb d (NEWFS_INO_OFS sb (ino + 1)) _ _ hio hdvd
        (by show NEWFS_DATA_OFS sb ino + 6 * sb.sz_blk ≤ _; omega) hdev)
      ⟨by show NEWFS_DATA_OFS sb ino ≤ _; omega,
       by show _ < NEWFS_DATA_OFS sb ino + 6 * sb.sz_blk; omega⟩]
    simp only [Option.getD_some]
    congr 1
    show NEWFS_DATA_OFS sb ino + i - NEWFS_DATA_OFS sb ino = i
    omega

/-! ## Reading the child entries back -/

theorem assign_fname_length (n : List Nat) : (assign_fname n).length = NEWFS_MAX_FILE_NAME := by
  unfold assign_fname
  rw [List.length_append, List.length_replicate, List.length_take]
  have : min NEWFS_MAX_FILE_NAME n.length ≤ NEWFS_MAX_FILE_NAME := Nat.min_le_left _ _
  omega

theorem child_ok_spec (c : newfs_dentry) (h : child_ok c = true) :
    c.fname = assign_fname (c_string c.fname) ∧ c.fname.length = NEWFS_MAX_FILE_NAME
      ∧ c.ino < 4294967296 ∧ c.ftype < 4294967296 := by
  simp only [child_ok, name_ok, Bool.and_eq_true, decide_eq_true_eq, beq_iff_eq] at h
  obtain ⟨⟨h1, h2⟩, h3⟩ := h
  refine ⟨h1, ?_, h2, h3⟩
  rw [h1]; exact assign_fname_length _

theorem span_inside_congr (sb sb' : newfs_super) (d d' : Disk) (h1 : sb.sz_io = sb'.sz_io)
    (h2 : d.sz_disk = d'.sz_disk) (offset size : Nat) :
    span_inside sb d offset size ↔ span_inside sb' d' offset size := by
  unfold span_inside
  rw [h1, h2]

/-- The loop of `newfs_read_inode` over child entries that the device holds
one after the other: it rebuilds them, last one first. -/
theorem read_dentrys_image (ino : Nat) : ∀ (l : List newfs_dentry) (i : Nat) (sb : newfs_super)
    (d : Disk) (a0 : Nat) (s0 : Int) (t0 : List Nat) (cnt : Int) (acc : List newfs_dentry)
    (dat : List Nat),
    0 < sb.sz_io →
    mem_has d.mem (NEWFS_DATA_OFS sb ino + i * SIZEOF_DENTRY_D) (dentrys_image l) →
    (∀ j, j < l.length →
      span_inside sb d (NEWFS_DATA_OFS sb ino + (i + j) * SIZEOF_DENTRY_D) SIZEOF_DENTRY_D) →
    (∀ c, c ∈ l → child_ok c = true) →
    (read_dentrys ino l.length i sb d (.mk a0 s0 t0 cnt acc dat)).ret
      = some (.mk a0 s0 t0 (cnt + (l.length : Int)) ((l.map unloaded).reverse ++ acc) dat)
  | [], i, sb, d, a0, s0, t0, cnt, acc, dat, _, _, _, _ => by
    simp only [List.length_nil, read_dentrys, List.map_nil, List.reverse_nil, List.nil_append,
      Nat.cast_zero, add_zero]
  | c :: rest, i, sb, d, a0, s0, t0, cnt, acc, dat, hio, hm, hsp, hok => by
    obtain ⟨hn1, hn2, hn3, hn4⟩ := child_ok_spec c (hok c (List.mem_cons_self _ _))
    have himg : dentrys_image (c :: rest) = dentry_d_bytes (dentry_d_of c) ++ dentrys_image rest :=
      rfl
    rw [himg] at hm
    obtain ⟨hm1, hm2⟩ := mem_has_append _ _ _ _ hm
    have hl : (dentry_d_bytes (dentry_d_of c)).length = SIZEOF_DENTRY_D := dentry_d_bytes_length _
    have hsp0 := hsp 0 (by simp)
    rw [Nat.add_zero] at hsp0
    have hrd : (newfs_driver_read sb d (NEWFS_DATA_OFS sb ino + i * SIZEOF_DENTRY_D)
        SIZEOF_DENTRY_D).content = dentry_d_bytes (dentry_d_of c) := by
      have := newfs_driver_read_of_mem_has sb d _ (dentry_d_bytes (dentry_d_of c)) hio
        (by rw [hl]; exact hsp0) hm1
      rw [hl] at this
      exact this
    have hdec : dentry_d_of_bytes (dentry_d_bytes (dentry_d_of c)) = dentry_d_of c :=
      dentry_d_roundtrip (dentry_d_of c) hn2 hn4 hn3
    obtain ⟨r1, r2, _⟩ := newfs_driver_read_mem sb d (NEWFS_DATA_OFS sb ino + i * SIZEOF_DENTRY_D)
      SIZEOF_DENTRY_D hio
    have ih := read_dentrys_image ino rest (i + 1)
      (newfs_alloc_dentry sb (.mk a0 s0 t0 cnt acc dat) (unloaded c)).sb
      (newfs_driver_read sb d (NEWFS_DATA_OFS sb ino + i * SIZEOF_DENTRY_D) SIZEOF_DENTRY_D).disk
      a0 s0 t0 (cnt + 1) (unloaded c :: acc) dat hio
      (by
        rw [r1]
        have e : NEWFS_DATA_OFS (newfs_alloc_dentry sb (.mk a0 s0 t0 cnt acc dat) (unloaded c)).sb ino
            + (i + 1) * SIZEOF_DENTRY_D
            = NEWFS_DATA_OFS sb ino + i * SIZEOF_DENTRY_D + (dentry_d_bytes (dentry_d_of c)).length := by
          rw [hl]
          show NEWFS_DATA_OFS sb ino + (i + 1) * SIZEOF_DENTRY_D = _
          ring
        rw [e]; exact hm2)
      (by
        intro j hj
        have := hsp (j + 1) (by simp only [List.length_cons]; omega)
        have e : i + 1 + j = i + (j + 1) := by omega
        rw [e]
        exact (span_inside_congr _ sb _ d rfl r2 _ _).mpr this)
      (fun x hx => hok x (List.mem_cons_of_mem _ hx))
    simp only [List.length_cons, read_dentrys, newfs_driver_read_ret, ne_eq, not_true_eq_false,
      if_false, hrd, hdec]
    have hsubd : newfs_dentry.mk (new_dentry (dentry_d_of c).fname (dentry_d_of c).ftype).fname
        (dentry_d_of c).ino (new_dentry (dentry_d_of c).fname (dentry_d_of c).ftype).inode
        (new_dentry (dentry_d_of c).fname (dentry_d_of c).ftype).ftype = unloaded c := by
      show newfs_dentry.mk (assign_fname (c_string c.fname)) c.ino none c.ftype = unloaded c
      rw [← hn1]; rfl
    rw [hsubd]
    have hinode : (newfs_alloc_dentry sb (.mk a0 s0 t0 cnt acc dat) (unloaded c)).inode
        = .mk a0 s0 t0 (cnt + 1) (unloaded c :: acc) dat := rfl
    rw [hinode, ih]
    simp only [List.map_cons, List.reverse_cons, List.append_assoc, List.singleton_append,
      Nat.cast_add, Nat.cast_one]
    congr 2
    ring

/-! ## The record read back after a sync -/

theorem child_keys_unloaded (l acc : List newfs_dentry) (a0 : Nat) (s0 : Int) (t0 : List Nat)
    (cnt : Int) (dat : List Nat) (h : acc = []) :
    child_keys (.mk a0 s0 t0 cnt ((l.map unloaded).reverse ++ acc) dat)
      = (child_keys (.mk a0 s0 t0 cnt l dat)).reverse := by
  subst h
  simp only [child_keys, newfs_inode.dentrys, List.append_nil, List.map_reverse, List.map_map]
  congr 1

/-- The record that comes back from the device: for every record `r` that the
on-disk form can hold (`record_ok`), owned by the entry `owner`, on a super
block laid out as `newfs_mount` does and a device that contains the slot of
`r`, the statements of `newfs_sync_inode(r)` followed by those of
`newfs_read_inode(owner, r.ino)` yield a record with the same index number,
size, symbolic-link target and child count; for a directory the children come
back with the same (name, type tag, bound index number) but in reverse order,
because `newfs_read_inode` inserts each entry it reads at the head of the
list; for a regular file the data bytes are the same. -/
theorem newfs_sync_read_record (sb : newfs_super) (d : Disk) (owner : newfs_dentry)
    (r : newfs_inode) (hsb : super_ok sb) (hdev : NEWFS_INO_OFS sb (r.ino + 1) ≤ d.sz_disk)
    (hr : record_ok sb owner.ftype r = true) :
    ∃ r', (newfs_read_inode sb (newfs_sync_inode sb r owner.ftype d).disk owner r.ino).ret
        = some r'
      ∧ r'.ino = r.ino ∧ r'.size = r.size ∧ r'.target_path = r.target_path
      ∧ r'.dir_cnt = r.dir_cnt
      ∧ child_keys r' = (child_keys r).reverse
      ∧ (owner.ftype = NEWFS_REG_FILE → r'.data = r.data) := by
  cases r with
  | mk ino size tp cnt dentrys data =>
    simp only [record_ok, newfs_inode.ino, newfs_inode.size, newfs_inode.target_path,
      newfs_inode.dir_cnt, newfs_inode.dentrys, newfs_inode.data, Bool.and_eq_true,
      decide_eq_true_eq] at hr
    obtain ⟨⟨⟨⟨⟨⟨⟨hino, hs1⟩, hs2⟩, htp⟩, hcnt⟩, hcnt2⟩, hchild⟩, hdat⟩ := hr
    have hio := hsb.1
    have h144 : 144 ≤ sb.sz_blk := hsb.2.2.2
    have hs := ino_ofs_succ sb ino
    have hd := data_ofs_eq sb ino
    have hdvd := ino_ofs_dvd sb hsb (ino + 1)
    have hdev' : NEWFS_INO_OFS sb (ino + 1) ≤ d.sz_disk := hdev
    have hfit : owner.ftype = NEWFS_DIR →
        SIZEOF_DENTRY_D * dentrys.length ≤ NEWFS_BLKS_SZ sb NEWFS_DATA_PER_FILE
          ∧ dentrys_outside sb ino dentrys = true := by
      intro hdir
      rw [if_pos hdir] at hchild
      simp only [Bool.and_eq_true, decide_eq_true_eq] at hchild
      exact ⟨hchild.1.1, hchild.2⟩
    have hdata : owner.ftype = NEWFS_REG_FILE →
        data.length = NEWFS_BLKS_SZ sb NEWFS_DATA_PER_FILE := by
      intro hreg
      rw [if_pos hreg] at hdat
      simpa using hdat
    obtain ⟨m1, m2, m3, m4⟩ := newfs_sync_inode_mem sb hsb d owner.ftype ino size tp cnt dentrys
      data hdev' hfit hdata
    show ∃ r', (newfs_read_inode sb _ owner ino).ret = some r' ∧ r'.ino = ino ∧ r'.size = size
      ∧ r'.target_path = tp ∧ r'.dir_cnt = cnt
      ∧ child_keys r' = (child_keys (.mk ino size tp cnt dentrys data)).reverse
      ∧ (owner.ftype = NEWFS_REG_FILE → r'.data = data)
    generalize (newfs_sync_inode sb (.mk ino size tp cnt dentrys data) owner.ftype d).disk = d1
      at m1 m2 m3 m4
    have hdev1 : NEWFS_INO_OFS sb (ino + 1) ≤ d1.sz_disk := by rw [m1]; exact hdev'
    have hcnt1 : -2147483648 ≤ cnt := by
      rw [hcnt]
      have : (0 : Int) ≤ (dentrys.length : Int) := Int.natCast_nonneg _
      omega
    -- the on-disk record read back
    have hrd : (newfs_driver_read sb d1 (NEWFS_INO_OFS sb ino) SIZEOF_INODE_D).content
        = inode_d_bytes { ino := ino, size := size, target_path := tp, dir_cnt := cnt,
                          ftype := owner.ftype } := by
      have hl := inode_d_bytes_length
        { ino := ino, size := size, target_path := tp, dir_cnt := cnt, ftype := owner.ftype }
      have := newfs_driver_read_of_mem_has sb d1 _ _ hio
        (by rw [hl]
            exact span_inside_of_region sb d1 (NEWFS_INO_OFS sb (ino + 1)) _ _ hio hdvd
              (by show NEWFS_INO_OFS sb ino + 144 ≤ _; omega) hdev1) m2
      rw [hl] at this
      exact this
    obtain ⟨e1, e2, e3, e4⟩ := inode_d_roundtrip
      { ino := ino, size := size, target_path := tp, dir_cnt := cnt, ftype := owner.ftype }
      hino hs1 hs2 htp hcnt1 hcnt2
    obtain ⟨q1, q2, _⟩ := newfs_driver_read_mem sb d1 (NEWFS_INO_OFS sb ino) SIZEOF_INODE_D hio
    unfold newfs_read_inode
    simp only [newfs_driver_read_ret, ne_eq, not_true_eq_false, if_false, hrd, e1, e2, e3, e4]
    by_cases hdir : owner.ftype = NEWFS_DIR
    · rw [if_pos hdir]
      obtain ⟨hf1, hf2⟩ := hfit hdir
      have hf1' : 136 * dentrys.length ≤ 6 * sb.sz_blk := hf1
      rw [if_pos hdir] at hchild
      simp only [Bool.and_eq_true, decide_eq_true_eq, List.all_eq_true] at hchild
      have htoNat : cnt.toNat = dentrys.length := by rw [hcnt]; exact Int.toNat_natCast _
      rw [htoNat]
      have hread := read_dentrys_image ino dentrys 0 sb
        (newfs_driver_read sb d1 (NEWFS_INO_OFS sb ino) SIZEOF_INODE_D).disk ino size tp 0 [] []
        hio
        (by rw [q1, Nat.zero_mul, Nat.add_zero]; exact m3 hdir)
        (by
          intro j hj
          apply span_inside_of_region sb _ (NEWFS_INO_OFS sb (ino + 1)) _ _ hio hdvd
          · show NEWFS_DATA_OFS sb ino + (0 + j) * 136 + 136 ≤ _
            have : (0 + j) * 136 + 136 ≤ 136 * dentrys.length := by
              have : j + 1 ≤ dentrys.length := hj
              have := Nat.mul_le_mul_left 136 this
              omega
            omega
          · rw [q2]; exact hdev1)
        hchild.1.2
      rw [hread]
      refine ⟨_, rfl, rfl, rfl, rfl, ?_, ?_, ?_⟩
      · show (0 : Int) + (dentrys.length : Int) = cnt
        rw [hcnt]; omega
      · exact child_keys_unloaded dentrys [] ino size tp _ [] rfl |>.trans rfl
      · intro hreg
        rw [hdir] at hreg
        exact absurd hreg (by decide)
    · rw [if_neg hdir]
      rw [if_neg hdir] at hchild
      have hlen0 : dentrys.length = 0 := by simpa using hchild
      have hnil : dentrys = [] := List.length_eq_zero.mp hlen0
      have hcnt0 : cnt = 0 := by rw [hcnt, hlen0]; rfl
      by_cases hreg : owner.ftype = NEWFS_REG_FILE
      · rw [if_pos hreg]
        have hlen := hdata hreg
        have hlen' : data.length = 6 * sb.sz_blk := hlen
        have hrd2 : (newfs_driver_read sb
            (newfs_driver_read sb d1 (NEWFS_INO_OFS sb ino) SIZEOF_INODE_D).disk
            (NEWFS_DATA_OFS sb ino) (NEWFS_BLKS_SZ sb NEWFS_DATA_PER_FILE)).content = data := by
          have := newfs_driver_read_of_mem_has sb
            (newfs_driver_read sb d1 (NEWFS_INO_OFS sb ino) SIZEOF_INODE_D).disk
            (NEWFS_DATA_OFS sb ino) data hio
            (by apply span_inside_of_region sb _ (NEWFS_INO_OFS sb (ino + 1)) _ _ hio hdvd
                · omega
                · rw [q2]; exact hdev1)
            (by rw [q1]; exact m4 hreg)
          rw [hlen] at this
          exact this
        rw [hrd2]
        refine ⟨_, rfl, rfl, rfl, rfl, hcnt0.symm, ?_, fun _ => rfl⟩
        rw [hnil]; rfl
      · rw [if_neg hreg]
        refine ⟨_, rfl, rfl, rfl, rfl, hcnt0.symm, ?_, fun h => absurd h hreg⟩
        rw [hnil]; rfl

/-! ## Bits of a bitmap -/

theorem and_shift_eq_zero (x b : Nat) : (x &&& (1 <<< b) = 0) ↔ x.testBit b = false := by
  rw [Nat.one_shiftLeft]
  constructor
  · intro h
    have := Nat.testBit_and x (2 ^ b) b
    rw [h, Nat.zero_testBit, Nat.testBit_two_pow_self, Bool.and_true] at this
    exact this.symm
  · intro h
    apply Nat.eq_of_testBit_eq
    intro i
    rw [Nat.testBit_and, Nat.zero_testBit, Nat.testBit_two_pow]
    by_cases hbi : b = i
    · subst hbi
      rw [h]
      rfl
    · simp [hbi]

theorem and_shift_bne (x b : Nat) : (x &&& (1 <<< b) != 0) = x.testBit b := by
  cases h : x.testBit b
  · have := (and_shift_eq_zero x b).2 h
    simp [this]
  · have : x &&& (1 <<< b) ≠ 0 := fun h0 => by
      have := (and_shift_eq_zero x b).1 h0
      rw [h] at this
      exact absurd this (by decide)
    simpa using this

theorem lor_shift_testBit (x a b : Nat) :
    (x ||| (1 <<< a)).testBit b = (x.testBit b || decide (a = b)) := by
  rw [Nat.testBit_or, Nat.one_shiftLeft, Nat.testBit_two_pow]

theorem bit_scan_some (byte : Nat) : ∀ (fuel start b : Nat), start ≤ b → b < start + fuel →
    byte &&& (1 <<< b) = 0 → (∀ k, start ≤ k → k < b → byte &&& (1 <<< k) ≠ 0) →
    bit_scan byte fuel start = some b
  | 0, start, b, h1, h2, _, _ => by omega
  | fuel + 1, start, b, h1, h2, h3, h4 => by
    unfold bit_scan
    by_cases hb : start = b
    · subst hb
      rw [if_pos h3]
    · rw [if_neg (h4 start (Nat.le_refl _) (by omega))]
      exact bit_scan_some byte fuel (start + 1) b (by omega) (by omega) h3
        (fun k hk1 hk2 => h4 k (by omega) hk2)

theorem bit_scan_none (byte : Nat) : ∀ (fuel start : Nat),
    (∀ k, start ≤ k → k < start + fuel → byte &&& (1 <<< k) ≠ 0) →
    bit_scan byte fuel start = none
  | 0, _, _ => rfl
  | fuel + 1, start, h => by
    unfold bit_scan
    rw [if_neg (h start (Nat.le_refl _) (by omega))]
    exact bit_scan_none byte fuel (start + 1) (fun k hk1 hk2 => h k (by omega) (by omega))

theorem map_bit_cons_low (byte : Nat) (rest : List Nat) (j : Nat) (hj : j < 8) :
    map_bit (byte :: rest) j = (byte &&& (1 <<< j) != 0) := by
  unfold map_bit
  have h1 : j / UINT8_BITS = 0 := by show j / 8 = 0; omega
  have h2 : j % UINT8_BITS = j := by show j % 8 = j; omega
  rw [h1, h2]
  rfl

theorem map_bit_cons_high (byte : Nat) (rest : List Nat) (j : Nat) :
    map_bit (byte :: rest) (j + 8) = map_bit rest j := by
  unfold map_bit
  have h1 : (j + 8) / UINT8_BITS = j / UINT8_BITS + 1 := by
    show (j + 8) / 8 = j / 8 + 1; omega
  have h2 : (j + 8) % UINT8_BITS = j % UINT8_BITS := by
    show (j + 8) % 8 = j % 8; omega
  rw [h1, h2]
  rfl

theorem map_set_bit_cons_low (byte : Nat) (rest : List Nat) (j : Nat) (hj : j < 8) :
    map_set_bit (byte :: rest) j = (byte ||| (1 <<< j)) :: rest := by
  unfold map_set_bit
  have h1 : j / UINT8_BITS = 0 := by show j / 8 = 0; omega
  have h2 : j % UINT8_BITS = j := by show j % 8 = j; omega
  rw [h1, h2]
  rfl

theorem map_set_bit_cons_high (byte : Nat) (rest : List Nat) (j : Nat) :
    map_set_bit (byte :: rest) (j + 8) = byte :: map_set_bit rest j := by
  unfold map_set_bit
  have h1 : (j + 8) / UINT8_BITS = j / UINT8_BITS + 1 := by
    show (j + 8) / 8 = j / 8 + 1; omega
  have h2 : (j + 8) % UINT8_BITS = j % UINT8_BITS := by
    show (j + 8) % 8 = j % 8; omega
  rw [h1, h2]
  rfl

/-- The scan finds the lowest clear bit, sets it and reports its number. -/
theorem map_scan_lowest : ∀ (m : List Nat) (n c i : Nat), i < 8 * n → i < 8 * m.length →
    map_bit m i = false → (∀ j, j < i → map_bit m j = true) →
    map_scan n m c = { map := map_set_bit m i, cursor := c + i, is_find_free_entry := true }
  | [], _, _, i, _, h2, _, _ => by simp at h2
  | _ :: _, 0, _, i, h1, _, _, _ => by omega
  | byte :: rest, n + 1, c, i, h1, h2, h3, h4 => by
    unfold map_scan
    by_cases hi : i < 8
    · have e : bit_scan byte UINT8_BITS 0 = some i := by
        apply bit_scan_some byte 8 0 i (Nat.zero_le _) (by omega)
        · rw [map_bit_cons_low byte rest i hi] at h3
          simpa using h3
        · intro k _ hk
          have := h4 k hk
          rw [map_bit_cons_low byte rest k (by omega)] at this
          simpa using this
      rw [e, map_set_bit_cons_low byte rest i hi]
    · have e : bit_scan byte UINT8_BITS 0 = none := by
        apply bit_scan_none byte 8 0
        intro k _ hk
        have := h4 k (by omega)
        rw [map_bit_cons_low byte rest k (by omega)] at this
        simpa using this
      rw [e]
      obtain ⟨i', rfl⟩ : ∃ i', i = i' + 8 := ⟨i - 8, by omega⟩
      have ih := map_scan_lowest rest n (c + UINT8_BITS) i' (by omega)
        (by simp only [List.length_cons] at h2; omega)
        (by rw [← map_bit_cons_high byte rest i']; exact h3)
        (by
          intro j hj
          rw [← map_bit_cons_high byte rest j]
          exact h4 (j + 8) (by omega))
      simp only [ih, map_set_bit_cons_high]
      have : c + UINT8_BITS + i' = c + (i' + 8) := by show c + 8 + i' = c + (i' + 8); omega
      rw [this]

theorem map_set_bit_length (m : List Nat) (i : Nat) : (map_set_bit m i).length = m.length := by
  unfold map_set_bit
  simp

/-- Setting the bit of unit `i` changes the bit of unit `i` and no other. -/
theorem map_bit_set_bit (m : List Nat) (i j : Nat) (hi : i < 8 * m.length) :
    map_bit (map_set_bit m i) j = (map_bit m j || decide (j = i)) := by
  unfold map_bit map_set_bit
  rw [and_shift_bne, and_shift_bne]
  have hlt : i / UINT8_BITS < m.length := by show i / 8 < m.length; omega
  by_cases hb : j / UINT8_BITS = i / UINT8_BITS
  · rw [hb]
    have e : (m.set (i / UINT8_BITS) (m.getD (i / UINT8_BITS) 0 ||| 1 <<< (i % UINT8_BITS))).getD
        (i / UINT8_BITS) 0 = m.getD (i / UINT8_BITS) 0 ||| 1 <<< (i % UINT8_BITS) := by
      simp [List.getD_eq_getElem?_getD, List.getElem?_set, hlt]
    rw [e, lor_shift_testBit]
    congr 1
    have hb' : j / 8 = i / 8 := hb
    have : (i % UINT8_BITS = j % UINT8_BITS) ↔ (j = i) := by
      show (i % 8 = j % 8) ↔ (j = i)
      constructor <;> intro h <;> omega
    simp only [this]
  · have e : (m.set (i / UINT8_BITS) (m.getD (i / UINT8_BITS) 0 ||| 1 <<< (i % UINT8_BITS))).getD
        (j / UINT8_BITS) 0 = m.getD (j / UINT8_BITS) 0 := by
      simp [List.getD_eq_getElem?_getD, List.getElem?_set, Ne.symm hb]
    rw [e]
    have : ¬ j = i := fun h => hb (by rw [h])
    simp [this]

/-! ## C11 -/

theorem read_dentrys_ret (ino : Nat) : ∀ (n i : Nat) (sb : newfs_super) (d : Disk)
    (inode : newfs_inode), (read_dentrys ino n i sb d inode).ret ≠ none
  | 0, _, _, _, _ => by simp [read_dentrys]
  | n + 1, i, sb, d, inode => by
    simp only [read_dentrys, newfs_driver_read_ret, ne_eq, not_true_eq_false, if_false]
    exact read_dentrys_ret ino n _ _ _ _

theorem newfs_read_inode_ret (sb : newfs_super) (d : Disk) (dentry : newfs_dentry) (ino : Nat) :
    (newfs_read_inode sb d dentry ino).ret ≠ none := by
  unfold newfs_read_inode
  simp only [newfs_driver_read_ret, ne_eq, not_true_eq_false, if_false]
  split
  · exact read_dentrys_ret ino _ _ _ _ _
  · split <;> simp

set_option maxRecDepth 1000000 in
/-- C11 on the code: after the first-use mount of the zero-filled 4 MiB device
with 512-byte units, the slot of index number 583 (`583 < max_ino = 584`)
starts at byte 4780032, past the end of the device, so the unit read and the
unit write that the driver functions issue there fail; yet
`newfs_driver_read` returns `NEWFS_ERROR_NONE`, `newfs_read_inode` returns a
record and `newfs_sync_inode` returns `NEWFS_ERROR_NONE`.  On every input the
two driver functions return `NEWFS_ERROR_NONE`, `newfs_read_inode` returns a
record and `newfs_sync_inode` returns `NEWFS_ERROR_NONE`: the results of
`ddriver_read` and `ddriver_write` are never looked at. -/
theorem newfs_driver_hides_device_failure :
    mount_4m.sb.max_ino = 584
    ∧ NEWFS_INO_OFS mount_4m.sb 583 = 4780032
    ∧ mount_4m.disk.sz_disk = 4194304
    ∧ (ddriver_read (ddriver_seek mount_4m.disk 4780032) (fun _ => 0) 0 512).2.2 = false
    ∧ (ddriver_write (ddriver_seek mount_4m.disk 4780032) (fun _ => 0) 0 512).2 = false
    ∧ (newfs_driver_read mount_4m.sb mount_4m.disk 4780032 SIZEOF_INODE_D).ret = NEWFS_ERROR_NONE
    ∧ (newfs_read_inode mount_4m.sb mount_4m.disk (.mk (assign_fname [97]) 583 none NEWFS_DIR)
        583).ret.isSome = true
    ∧ (newfs_sync_inode mount_4m.sb (.mk 583 0 (List.replicate NEWFS_MAX_FILE_NAME 0) 0 [] [])
        NEWFS_DIR mount_4m.disk).ret = NEWFS_ERROR_NONE
    ∧ (∀ (sb : newfs_super) (d : Disk) (offset size : Nat),
        (newfs_driver_read sb d offset size).ret = NEWFS_ERROR_NONE)
    ∧ (∀ (sb : newfs_super) (d : Disk) (offset : Nat) (b : List Nat) (size : Nat),
        (newfs_driver_write sb d offset b size).ret = NEWFS_ERROR_NONE)
    ∧ (∀ (sb : newfs_super) (d : Disk) (dentry : newfs_dentry) (ino : Nat),
        (newfs_read_inode sb d dentry ino).ret ≠ none)
    ∧ (∀ (sb : newfs_super) (inode : newfs_inode) (ftype : Nat) (d : Disk),
        (newfs_sync_inode sb inode ftype d).ret = NEWFS_ERROR_NONE) := by
  refine ⟨?_, ?_, ?_, ?_, ?_, ?_, ?_, ?_, ?_, ?_, ?_, ?_⟩
  · decide
  · decide
  · decide
  · decide
  · decide
  · decide
  · decide
  · decide
  · exact newfs_driver_read_ret
  · exact newfs_driver_write_ret
  · exact newfs_read_inode_ret
  · exact fun sb inode ftype d => (newfs_sync_inode_patches sb inode ftype d).2

/-! ## C12 -/

set_option maxRecDepth 1000000 in
/-- C12 on the code: on the zero-filled 4 MiB device with 512-byte units, the
first-use mount sets `max_ino = 584` and `max_data = 3504`; `newfs_umount`
succeeds and writes a super block record with the magic marker whose
`max_ino` and `max_data` fields hold whatever its local record held (here
12345 and 6789); the second mount finds the marker and, in a fresh process,
ends with `max_ino = 0` and `max_data = 0` (in the process that unmounted it
keeps 584 and 3504, the values still in the global): neither capacity is
taken from the device.  The usage counter, the bitmap block counts and the
four offsets are the same after both mounts. -/
theorem newfs_remount_loses_capacity :
    (remount_scenario (zero_disk 4194304 512) stack_junk).mount1.fault = false
    ∧ (remount_scenario (zero_disk 4194304 512) stack_junk).umount.ret = NEWFS_ERROR_NONE
    ∧ (remount_scenario (zero_disk 4194304 512) stack_junk).umount.closed = true
    ∧ ¬ is_first_use super_zero (remount_scenario (zero_disk 4194304 512) stack_junk).umount.disk
    ∧ (remount_scenario (zero_disk 4194304 512) stack_junk).mount2.ret = NEWFS_ERROR_NONE
    ∧ (remount_scenario (zero_disk 4194304 512) stack_junk).mount2.fault = false
    ∧ (remount_scenario (zero_disk 4194304 512) stack_junk).mount1.sb.max_ino = 584
    ∧ (remount_scenario (zero_disk 4194304 512) stack_junk).mount1.sb.max_data = 3504
    ∧ (mount_read_super_d super_zero
        (remount_scenario (zero_disk 4194304 512) stack_junk).umount.disk).max_ino = 12345
    ∧ (mount_read_super_d super_zero
        (remount_scenario (zero_disk 4194304 512) stack_junk).umount.disk).max_data = 6789
    ∧ (remount_scenario (zero_disk 4194304 512) stack_junk).mount2.sb.max_ino = 0
    ∧ (remount_scenario (zero_disk 4194304 512) stack_junk).mount2.sb.max_data = 0
    ∧ (remount_scenario (zero_disk 4194304 512) stack_junk).mount2_same.sb.max_ino = 584
    ∧ (remount_scenario (zero_disk 4194304 512) stack_junk).mount2_same.sb.max_data = 3504
    ∧ (remount_scenario (zero_disk 4194304 512) stack_junk).mount1.sb.regions
        = [0, 1, 1024, 1, 2048, 3072, 601088]
    ∧ (remount_scenario (zero_disk 4194304 512) stack_junk).mount2.sb.regions
        = [0, 1, 1024, 1, 2048, 3072, 601088] := by
  refine ⟨?_, ?_, ?_, ?_, ?_, ?_, ?_, ?_, ?_, ?_, ?_, ?_, ?_, ?_, ?_, ?_⟩
  · decide
  · decide
  · decide
  · decide
  · decide
  · decide
  · decide
  · decide
  · decide
  · decide
  · decide
  · decide
  · decide
  · decide
  · decide
  · decide

/-! ## C13 -/

/-- C13: a first-use `newfs_mount` (magic marker absent, positive I/O unit)
sets `sz_blk = 2 * sz_io`, one block each for the super block, the index
bitmap and the data bitmap (`map_inode_offset = sz_blk`,
`map_data_offset = 2 * sz_blk`, `inode_offset = 3 * sz_blk`),
`max_ino = (sz_disk / sz_blk - 3) / 7` and `max_data = 6 * max_ino`; with at
least 3 blocks on the device, `3 + 7 * max_ino` blocks fit in its
`sz_disk / sz_blk` blocks.  (The subtraction stops at 0, which is also what
the C division gives for a numerator between -3 and -1.) -/
theorem newfs_mount_first_use_layout (sb0 : newfs_super) (d : Disk) (_hio : 0 < d.sz_io)
    (hfirst : is_first_use sb0 d) :
    (newfs_mount sb0 d).sb.sz_blk = 2 * d.sz_io
    ∧ (newfs_mount sb0 d).sb.sz_disk = d.sz_disk
    ∧ (newfs_mount sb0 d).sb.map_inode_blks = 1
    ∧ (newfs_mount sb0 d).sb.map_data_blks = 1
    ∧ (newfs_mount sb0 d).sb.map_inode_offset = (newfs_mount sb0 d).sb.sz_blk
    ∧ (newfs_mount sb0 d).sb.map_data_offset = 2 * (newfs_mount sb0 d).sb.sz_blk
    ∧ (newfs_mount sb0 d).sb.inode_offset = 3 * (newfs_mount sb0 d).sb.sz_blk
    ∧ (newfs_mount sb0 d).sb.max_ino = (d.sz_disk / (newfs_mount sb0 d).sb.sz_blk - 3) / 7
    ∧ (newfs_mount sb0 d).sb.max_data = 6 * (newfs_mount sb0 d).sb.max_ino
    ∧ (3 ≤ d.sz_disk / (newfs_mount sb0 d).sb.sz_blk →
        3 + 7 * (newfs_mount sb0 d).sb.max_ino ≤ d.sz_disk / (newfs_mount sb0 d).sb.sz_blk) := by
  obtain ⟨_, h2, h3, h4, h5, h6, h7, h8, h9, h10, _⟩ := newfs_mount_first_use sb0 d hfirst
  rw [h2, h3, h4, h5, h6, h7, h8, h9, h10]
  refine ⟨by omega, rfl, rfl, rfl, rfl, by omega, by omega, rfl, by omega, ?_⟩
  intro h
  omega

/-- C13 at a concrete input: the zero-filled 4 MiB device with 512-byte units
has 4096 blocks of 1024 bytes and room for 584 index records. -/
theorem newfs_mount_first_use_layout_witness :
    (newfs_mount super_zero (zero_disk 4194304 512)).sb.sz_blk = 2 * 512
    ∧ (newfs_mount super_zero (zero_disk 4194304 512)).sb.max_ino = 584
    ∧ (newfs_mount super_zero (zero_disk 4194304 512)).sb.max_data = 3504
    ∧ (newfs_mount super_zero (zero_disk 4194304 512)).sb.inode_offset = 3072
    ∧ 3 + 7 * (newfs_mount super_zero (zero_disk 4194304 512)).sb.max_ino
        ≤ 4194304 / (newfs_mount super_zero (zero_disk 4194304 512)).sb.sz_blk := by
  obtain ⟨h1, _, _, _, _, _, h7, h8, h9, h10⟩ :=
    newfs_mount_first_use_layout super_zero (zero_disk 4194304 512) (by decide)
      (is_first_use_zero _ _ (by decide) (fun _ => rfl))
  have e : (zero_disk 4194304 512).sz_disk = 4194304 := rfl
  have e2 : (zero_disk 4194304 512).sz_io = 512 := rfl
  rw [e] at h8 h10
  rw [e2] at h1
  have hm : (newfs_mount super_zero (zero_disk 4194304 512)).sb.max_ino = 584 := by
    rw [h8, h1]
  refine ⟨h1, hm, by rw [h9, hm], by rw [h7, h1], h10 ?_⟩
  rw [h1]
  decide

/-! ## C14 -/

set_option maxRecDepth 1000000 in
/-- C14 on the code: after the first-use mount of the zero-filled 4 MiB device
with 512-byte units (blocks of 1024 bytes, `max_ino = 584`), the data bitmap
ends and the index region starts at byte 3072 (`inode_offset`), but
`NEWFS_INO_OFS(0)` is 601088 (`data_offset`, `max_ino` blocks further on) and
`NEWFS_DATA_OFS(0)` is 602112.  `newfs_sync_inode` of a record with index
number 0 and size 77 puts its size field at byte 601088 + 4 and leaves byte
3072 + 4 as it was, and `newfs_read_inode` for index number 0 reads it back
from there.  The slot of the last index number, 583, starts at byte 4780032,
past the end of the device (4194304 bytes). -/
theorem newfs_ino_ofs_from_data_offset :
    mount_4m.fault = false
    ∧ mount_4m.sb.sz_blk = 1024
    ∧ mount_4m.sb.max_ino = 584
    ∧ mount_4m.sb.map_data_offset + mount_4m.sb.map_data_blks * mount_4m.sb.sz_blk = 3072
    ∧ mount_4m.sb.inode_offset = 3072
    ∧ NEWFS_INO_OFS mount_4m.sb 0 = 601088
    ∧ NEWFS_DATA_OFS mount_4m.sb 0 = 602112
    ∧ (newfs_sync_inode mount_4m.sb (.mk 0 77 (List.replicate NEWFS_MAX_FILE_NAME 0) 0 [] [])
        NEWFS_DIR mount_4m.disk).disk.mem (601088 + 4) = 77
    ∧ (newfs_sync_inode mount_4m.sb (.mk 0 77 (List.replicate NEWFS_MAX_FILE_NAME 0) 0 [] [])
        NEWFS_DIR mount_4m.disk).disk.mem (3072 + 4) = 0
    ∧ (newfs_read_inode mount_4m.sb
        (newfs_sync_inode mount_4m.sb (.mk 0 77 (List.replicate NEWFS_MAX_FILE_NAME 0) 0 [] [])
          NEWFS_DIR mount_4m.disk).disk
        (new_dentry [47] NEWFS_DIR) 0).ret.map newfs_inode.size = some 77
    ∧ NEWFS_INO_OFS mount_4m.sb 583 = 4780032
    ∧ mount_4m.disk.sz_disk = 4194304 := by
  refine ⟨?_, ?_, ?_, ?_, ?_, ?_, ?_, ?_, ?_, ?_, ?_, ?_⟩
  · decide
  · decide
  · decide
  · decide
  · decide
  · decide
  · decide
  · decide
  · decide
  · decide
  · decide
  · decide

/-! ## C15 -/

set_option maxRecDepth 1000000 in
/-- C15 on the code: on the zero-filled 4 MiB device with 512-byte units,
after a first-use mount and the creation of the regular file `/f` (index
number 1, record loaded), `newfs_lookup("/f")` returns the entry of `/f`, and
`newfs_lookup("/f/x/y")` stops at `/f` and returns its entry, but
`newfs_lookup("/f/x")` leaves the loop with `dentry_ret` still `NULL` and goes
through it: no entry is returned. -/
theorem newfs_lookup_through_file_faults :
    (file_scenario (zero_disk 4194304 512) [102]).map
        (fun s => ((newfs_lookup s.1 s.2 [47, 102] false).fault,
          (newfs_lookup s.1 s.2 [47, 102] false).is_find,
          (newfs_lookup s.1 s.2 [47, 102] false).ino,
          (newfs_lookup s.1 s.2 [47, 102] false).dentry_ret.map newfs_dentry.ftype))
        = some (false, true, some 1, some NEWFS_REG_FILE)
    ∧ (file_scenario (zero_disk 4194304 512) [102]).map
        (fun s => ((newfs_lookup s.1 s.2 [47, 102, 47, 120, 47, 121] false).fault,
          (newfs_lookup s.1 s.2 [47, 102, 47, 120, 47, 121] false).ino,
          (newfs_lookup s.1 s.2 [47, 102, 47, 120, 47, 121] false).dentry_ret.map
            newfs_dentry.ftype))
        = some (false, some 1, some NEWFS_REG_FILE)
    ∧ (file_scenario (zero_disk 4194304 512) [102]).map
        (fun s => ((newfs_lookup s.1 s.2 [47, 102, 47, 120] false).fault,
          (newfs_lookup s.1 s.2 [47, 102, 47, 120] false).dentry_ret.isSome))
        = some (true, false) := by
  refine ⟨?_, ?_, ?_⟩
  · decide
  · decide
  · decide

/-! ## C16 -/

set_option maxRecDepth 1000000 in
/-- C16 on the code: the 4 MiB device `stale_disk` has no magic marker, a set
bit 0 in the first byte of block 1 and the value 77 where the size field of
the slot of index number 0 lies.  Its first-use mount completes and sets the
mounted flag, but the index bitmap is taken from the device as it is: the root
record is allocated with index number 1 (the root entry ends bound to 1) and
written to slot 1, and the record then read for the root comes from slot 0,
which the mount never wrote: index number 0, size 77, no children. -/
theorem newfs_mount_stale_device :
    is_first_use super_zero stale_disk
    ∧ (newfs_mount super_zero stale_disk).ret = NEWFS_ERROR_NONE
    ∧ (newfs_mount super_zero stale_disk).fault = false
    ∧ (newfs_mount super_zero stale_disk).sb.is_mounted = true
    ∧ (newfs_mount super_zero stale_disk).sb.root_dentry.map newfs_dentry.ino = some 1
    ∧ root_record_info (newfs_mount super_zero stale_disk).sb = some (0, 77, 0, 0)
    ∧ (newfs_mount super_zero stale_disk).sb.map_inode.take 2 = [3, 0]
    ∧ NEWFS_INO_OFS (newfs_mount super_zero stale_disk).sb 1 = 608256
    ∧ (newfs_mount super_zero stale_disk).disk.mem 608256 = 1
    ∧ (newfs_mount super_zero stale_disk).disk.mem (608256 + 4) = 0 := by
  refine ⟨?_, ?_, ?_, ?_, ?_, ?_, ?_, ?_, ?_, ?_⟩
  · decide
  · decide
  · decide
  · decide
  · decide
  · decide
  · decide
  · decide
  · decide
  · decide

/-! ## Head insertion -/

/-- The statements of `newfs_alloc_dentry(parent, entry)` after its call of
`newfs_alloc_data` put `entry` at the head of the child list of `parent` in
front of the former children, whatever their names, add one to the child count
and return the new count; the other fields of the record stay. -/
theorem newfs_alloc_dentry_head_insert (sb : newfs_super) (parent : newfs_inode)
    (e : newfs_dentry) :
    (newfs_alloc_dentry sb parent e).inode.dentrys = e :: parent.dentrys
    ∧ (newfs_alloc_dentry sb parent e).inode.dir_cnt = parent.dir_cnt + 1
    ∧ (newfs_alloc_dentry sb parent e).ret = parent.dir_cnt + 1
    ∧ (newfs_alloc_dentry sb parent e).inode.ino = parent.ino
    ∧ (newfs_alloc_dentry sb parent e).inode.size = parent.size
    ∧ (newfs_alloc_dentry sb parent e).inode.target_path = parent.target_path
    ∧ (newfs_alloc_dentry sb parent e).inode.data = parent.data :=
  ⟨rfl, rfl, rfl, rfl, rfl, rfl, rfl⟩

/-! ## C18 -/

/-- C18: for every owner entry `d` and every index bitmap (the buffer of
`map_inode_blks` blocks) whose lowest clear bit `i` satisfies `i < max_ino`,
`newfs_alloc_inode(d)` returns a record `r` with `r.ino = i`, size 0, child
count 0 and an empty child list; `d` comes back holding `r` and bound to index
number `i`, with its name and type tag unchanged; `r` has a data buffer of six
blocks exactly when `d` is a regular file; and the super block changes only in
bit `i` of the index bitmap. -/
theorem newfs_alloc_inode_lowest_clear (sb : newfs_super) (d : newfs_dentry) (i : Nat)
    (hlen : sb.map_inode.length = NEWFS_BLKS_SZ sb sb.map_inode_blks)
    (hin : i < UINT8_BITS * sb.map_inode.length)
    (hclear : map_bit sb.map_inode i = false)
    (hlow : ∀ j, j < i → map_bit sb.map_inode j = true)
    (hcap : i < sb.max_ino) :
    ∃ r : newfs_inode,
      (newfs_alloc_inode sb d).ret = .ok r
      ∧ r.ino = i ∧ r.size = 0 ∧ r.dir_cnt = 0 ∧ r.dentrys = []
      ∧ (newfs_alloc_inode sb d).dentry = .mk d.fname i (some r) d.ftype
      ∧ (d.ftype = NEWFS_REG_FILE → r.data.length = NEWFS_BLKS_SZ sb NEWFS_DATA_PER_FILE)
      ∧ (d.ftype ≠ NEWFS_REG_FILE → r.data = [])
      ∧ (newfs_alloc_inode sb d).sb = { sb with map_inode := map_set_bit sb.map_inode i }
      ∧ (map_set_bit sb.map_inode i).length = sb.map_inode.length
      ∧ ∀ j, map_bit (map_set_bit sb.map_inode i) j = (map_bit sb.map_inode j || decide (j = i)) := by
  have hscan := map_scan_lowest sb.map_inode (NEWFS_BLKS_SZ sb sb.map_inode_blks) 0 i
    (by rw [← hlen]; exact hin) hin hclear hlow
  rw [Nat.zero_add] at hscan
  have hne : (i == sb.max_ino) = false := by
    simp only [beq_eq_false_iff_ne, ne_eq]; omega
  refine ⟨.mk i 0 (List.replicate NEWFS_MAX_FILE_NAME 0) 0 []
    (if d.ftype = NEWFS_REG_FILE then List.replicate (NEWFS_BLKS_SZ sb NEWFS_DATA_PER_FILE) 0
     else []), ?_, rfl, rfl, rfl, rfl, ?_, ?_, ?_, ?_, map_set_bit_length _ _,
    fun j => map_bit_set_bit _ i j hin⟩
  · unfold newfs_alloc_inode
    simp only [hscan, hne, Bool.not_true, Bool.or_self, Bool.false_eq_true, if_false]
  · unfold newfs_alloc_inode
    simp only [hscan, hne, Bool.not_true, Bool.or_self, Bool.false_eq_true, if_false]
    rfl
  · intro h
    simp only [newfs_inode.data, if_pos h, List.length_replicate]
  · intro h
    simp only [newfs_inode.data, if_neg h]
  · rw [newfs_alloc_inode_sb, hscan]

/-- C18 at a concrete input: bitmap with bits 0 and 1 set, capacity 3, a
regular-file entry named `f`: the record gets index number 2 and a buffer of
six blocks of 2 bytes. -/
theorem newfs_alloc_inode_lowest_clear_witness :
    ∃ r : newfs_inode,
      (newfs_alloc_inode small_super_used (new_dentry [102] NEWFS_REG_FILE)).ret = .ok r
      ∧ r.ino = 2 ∧ r.size = 0 ∧ r.dir_cnt = 0 ∧ r.dentrys = []
      ∧ (newfs_alloc_inode small_super_used (new_dentry [102] NEWFS_REG_FILE)).dentry
          = .mk (new_dentry [102] NEWFS_REG_FILE).fname 2 (some r) NEWFS_REG_FILE
      ∧ r.data.length = 12
      ∧ (newfs_alloc_inode small_super_used (new_dentry [102] NEWFS_REG_FILE)).sb.map_inode = [7, 0] := by
  obtain ⟨r, h1, h2, h3, h4, h5, h6, h7, _, h9, _, _⟩ :=
    newfs_alloc_inode_lowest_clear small_super_used (new_dentry [102] NEWFS_REG_FILE) 2
      rfl (by decide) (by decide) (by decide) (by decide)
  exact ⟨r, h1, h2, h3, h4, h5, h6, h7 rfl, by rw [h9]; rfl⟩

/-! ## C19 -/

/-- C19: when the super block is not mounted, `newfs_umount` returns
`NEWFS_ERROR_NONE` and leaves the device (bytes and head position), the super
block with both bitmaps and the tree as they are, and does not close the
device. -/
theorem newfs_umount_not_mounted (sb : newfs_super) (d : Disk) (junk : newfs_super_d)
    (h : sb.is_mounted = false) :
    (newfs_umount sb d junk).ret = NEWFS_ERROR_NONE
    ∧ (newfs_umount sb d junk).disk = d
    ∧ (newfs_umount sb d junk).sb = sb
    ∧ (newfs_umount sb d junk).closed = false
    ∧ (newfs_umount sb d junk).fault = false := by
  unfold newfs_umount
  simp only [h, Bool.not_false, if_true, and_self]

/-- C19 at a concrete input: a super block that holds a tree and a used index
bitmap but is not mounted, on a device of 64 zero bytes. -/
theorem newfs_umount_not_mounted_witness :
    ({ small_super_used with root_dentry := some empty_root } : newfs_super).is_mounted = false
    ∧ (newfs_umount { small_super_used with root_dentry := some empty_root } (zero_disk 64 1)
        (super_d_of_bytes [])).ret = NEWFS_ERROR_NONE
    ∧ (newfs_umount { small_super_used with root_dentry := some empty_root } (zero_disk 64 1)
        (super_d_of_bytes [])).disk = zero_disk 64 1
    ∧ (newfs_umount { small_super_used with root_dentry := some empty_root } (zero_disk 64 1)
        (super_d_of_bytes [])).sb = { small_super_used with root_dentry := some empty_root }
    ∧ (newfs_umount { small_super_used with root_dentry := some empty_root } (zero_disk 64 1)
        (super_d_of_bytes [])).closed = false
    ∧ (newfs_umount { small_super_used with root_dentry := some empty_root } (zero_disk 64 1)
        (super_d_of_bytes [])).fault = false :=
  ⟨rfl, newfs_umount_not_mounted _ _ _ rfl⟩

/-! ## C20 -/

theorem c_string_of_no_nul (s : List Nat) (h : ∀ x ∈ s, x ≠ 0) : c_string s = s := by
  unfold c_string
  rw [List.takeWhile_eq_self_iff]
  intro x hx
  simpa using h x hx

theorem assign_fname_of_fits (s : List Nat) (h : s.length ≤ NEWFS_MAX_FILE_NAME) :
    assign_fname s = s ++ List.replicate (NEWFS_MAX_FILE_NAME - s.length) 0 := by
  unfold assign_fname
  rw [List.take_of_length_le h]

/-- A stored name that is a strict prefix of the queried component does not
pass the bounded comparison: the padding byte after it differs. -/
theorem fname_hit_short_stored (short long : List Nat) (hpre : short <+: long)
    (hlt : short.length < long.length) (hfit : short.length < NEWFS_MAX_FILE_NAME)
    (hnul : ∀ x ∈ long, x ≠ 0) : fname_hit (assign_fname short) long = false := by
  obtain ⟨t, rfl⟩ := hpre
  rw [assign_fname_of_fits short (Nat.le_of_lt hfit)]
  unfold fname_hit
  rw [beq_eq_false_iff_ne, List.length_append, List.take_append]
  intro h
  have h' := List.append_cancel_left h
  cases t with
  | nil => simp at hlt
  | cons a t' =>
    obtain ⟨k, hk⟩ : ∃ k, NEWFS_MAX_FILE_NAME - short.length = k + 1 :=
      ⟨NEWFS_MAX_FILE_NAME - short.length - 1, by omega⟩
    rw [hk, List.length_cons, List.replicate_succ, List.take_succ_cons] at h'
    have := (List.cons.inj h').1
    exact hnul a (by simp) this.symm

/-- A queried component that is a prefix of a stored name passes the bounded
comparison. -/
theorem fname_hit_long_stored (short long : List Nat) (hpre : short <+: long)
    (hfit : long.length ≤ NEWFS_MAX_FILE_NAME) : fname_hit (assign_fname long) short = true := by
  obtain ⟨t, rfl⟩ := hpre
  rw [assign_fname_of_fits _ hfit]
  unfold fname_hit
  rw [beq_iff_eq, List.append_assoc, List.take_left']
  rfl

/-- C20 (amended): the child scan of `newfs_lookup` compares the first
`strlen(c)` bytes of the stored name field with the queried component `c`.
For names without NUL bytes that fit the 128-byte field, with `short` a strict
prefix of `long`: a child stored under `short` does not match the queried
component `long`, while a child stored under `long` does match the queried
component `short`. -/
theorem newfs_lookup_scan_bound (short long : List Nat) (ftype : Nat)
    (hpre : short <+: long) (hlt : short.length < long.length)
    (hfit : long.length ≤ NEWFS_MAX_FILE_NAME) (hnul : ∀ x ∈ long, x ≠ 0) :
    scan_dentrys long [new_dentry short ftype] 0 = none
    ∧ scan_dentrys short [new_dentry long ftype] 0 = some (0, new_dentry long ftype) := by
  have hnul' : ∀ x ∈ short, x ≠ 0 := fun x hx => hnul x (hpre.subset hx)
  have h1 : fname_hit (new_dentry short ftype).fname long = false := by
    show fname_hit (assign_fname (c_string short)) long = false
    rw [c_string_of_no_nul short hnul']
    exact fname_hit_short_stored short long hpre hlt (by omega) hnul
  have h2 : fname_hit (new_dentry long ftype).fname short = true := by
    show fname_hit (assign_fname (c_string long)) short = true
    rw [c_string_of_no_nul long hnul]
    exact fname_hit_long_stored short long hpre hfit
  constructor
  · simp only [scan_dentrys, h1, Bool.false_eq_true, if_false]
  · simp only [scan_dentrys, h2, if_true]

/-- C20 (amended) at a concrete input: `ab` and `abc`. -/
theorem newfs_lookup_scan_bound_witness :
    scan_dentrys [97, 98, 99] [new_dentry [97, 98] NEWFS_REG_FILE] 0 = none
    ∧ scan_dentrys [97, 98] [new_dentry [97, 98, 99] NEWFS_REG_FILE] 0
        = some (0, new_dentry [97, 98, 99] NEWFS_REG_FILE) :=
  newfs_lookup_scan_bound [97, 98] [97, 98, 99] NEWFS_REG_FILE
    ⟨[99], rfl⟩ (by decide) (by decide) (by decide)

set_option maxRecDepth 1000000 in
/-- C20 as stated fails: the name `ab` is stored as `ab` followed by zero
bytes, so the comparison of its first three bytes with the queried component
`abc` fails; with the regular file `/ab` as the only child of the root,
`newfs_lookup("/abc")` sets `is_find` to `FALSE` and returns the root entry.
The other way round, with `/abc` as the only child, `newfs_lookup("/ab")`
returns the entry of `/abc` with `is_find` set to `TRUE`. -/
theorem newfs_lookup_short_name_no_match :
    (new_dentry [97, 98] NEWFS_REG_FILE).fname.take 4 = [97, 98, 0, 0]
    ∧ fname_hit (new_dentry [97, 98] NEWFS_REG_FILE).fname [97, 98, 99] = false
    ∧ (file_scenario (zero_disk 4194304 512) [97, 98]).map
        (fun s => ((newfs_lookup s.1 s.2 [47, 97, 98, 99] true).fault,
          (newfs_lookup s.1 s.2 [47, 97, 98, 99] true).is_find,
          (newfs_lookup s.1 s.2 [47, 97, 98, 99] true).ino)) = some (false, false, some 0)
    ∧ (file_scenario (zero_disk 4194304 512) [97, 98, 99]).map
        (fun s => ((newfs_lookup s.1 s.2 [47, 97, 98] false).fault,
          (newfs_lookup s.1 s.2 [47, 97, 98] false).is_find,
          (newfs_lookup s.1 s.2 [47, 97, 98] false).ino)) = some (false, true, some 1) := by
  refine ⟨?_, ?_, ?_, ?_⟩
  · decide
  · decide
  · decide
  · decide

/-! ## Well-formed absolute paths -/

theorem component_ok_spec (t : List Nat) (h : component_ok t = true) :
    t ≠ [] ∧ (∀ x ∈ t, x ≠ 0) ∧ (∀ x ∈ t, x ≠ 47) := by
  unfold component_ok at h
  simp only [Bool.and_eq_true, Bool.not_eq_true', List.isEmpty_eq_false, List.all_eq_true,
    bne_iff_ne, ne_eq] at h
  exact ⟨by simpa using h.1, fun x hx => (h.2 x hx).1, fun x hx => (h.2 x hx).2⟩

theorem abs_path_no_nul : ∀ (ts : List (List Nat)), (∀ t ∈ ts, component_ok t = true) →
    ∀ x ∈ abs_path ts, x ≠ 0
  | [], _, x, hx => by simp [abs_path] at hx
  | t :: ts, h, x, hx => by
    simp only [abs_path, List.mem_cons, List.mem_append] at hx
    rcases hx with rfl | hx | hx
    · decide
    · exact (component_ok_spec t (h t (List.mem_cons_self _ _))).2.1 x hx
    · exact abs_path_no_nul ts (fun u hu => h u (List.mem_cons_of_mem _ hu)) x hx

theorem abs_path_count : ∀ (ts : List (List Nat)), (∀ t ∈ ts, component_ok t = true) →
    (abs_path ts).count 47 = ts.length
  | [], _ => rfl
  | t :: ts, h => by
    have ht := (component_ok_spec t (h t (List.mem_cons_self _ _))).2.2
    have h0 : t.count 47 = 0 := List.count_eq_zero.2 (fun hm => ht 47 hm rfl)
    simp only [abs_path, List.count_cons_self, List.count_append, h0, Nat.zero_add,
      List.length_cons, abs_path_count ts (fun u hu => h u (List.mem_cons_of_mem _ hu))]

theorem strtok_all_component : ∀ (t rest cur : List Nat), (∀ x ∈ t, x ≠ 47) →
    strtok_all (t ++ rest) cur = strtok_all rest (cur ++ t)
  | [], rest, cur, _ => by simp
  | x :: t, rest, cur, h => by
    have hx : x ≠ 47 := h x (List.mem_cons_self _ _)
    simp only [List.cons_append, strtok_all, if_neg hx]
    have ih := strtok_all_component t rest (cur ++ [x])
      (fun y hy => h y (List.mem_cons_of_mem _ hy))
    simp only [List.append_assoc, List.singleton_append] at ih
    exact ih

theorem strtok_all_abs_path : ∀ (ts : List (List Nat)) (t : List Nat), t ≠ [] →
    (∀ u ∈ ts, component_ok u = true) → strtok_all (abs_path ts) t = t :: ts
  | [], t, ht, _ => by simp [abs_path, strtok_all, ht]
  | u :: ts, t, ht, h => by
    obtain ⟨hu1, _, hu3⟩ := component_ok_spec u (h u (List.mem_cons_self _ _))
    simp only [abs_path, strtok_all, if_true, if_neg ht]
    rw [strtok_all_component u (abs_path ts) [] hu3, List.nil_append,
      strtok_all_abs_path ts u hu1 (fun v hv => h v (List.mem_cons_of_mem _ hv))]

/-- Levels and tokens of a well-formed absolute path. -/
theorem abs_path_levels (ts : List (List Nat)) (hne : ts ≠ [])
    (hok : ∀ t ∈ ts, component_ok t = true) :
    newfs_calc_lvl (abs_path ts) = ts.length
    ∧ strtok_all (c_string (abs_path ts)) [] = ts := by
  have hc : c_string (abs_path ts) = abs_path ts :=
    c_string_of_no_nul _ (abs_path_no_nul ts hok)
  cases ts with
  | nil => exact absurd rfl hne
  | cons t ts =>
    obtain ⟨ht1, _, ht3⟩ := component_ok_spec t (hok t (List.mem_cons_self _ _))
    have hrest : ∀ u ∈ ts, component_ok u = true := fun u hu => hok u (List.mem_cons_of_mem _ hu)
    refine ⟨?_, ?_⟩
    · unfold newfs_calc_lvl
      rw [hc]
      have hlen : abs_path (t :: ts) ≠ [47] := by
        intro heq
        have := congrArg List.length heq
        cases t with
        | nil => exact ht1 rfl
        | cons a t' => simp [abs_path] at this
      rw [if_neg hlen]
      exact abs_path_count (t :: ts) hok
    · rw [hc]
      simp only [abs_path, strtok_all, if_true]
      rw [strtok_all_component t (abs_path ts) [] ht3, List.nil_append,
        strtok_all_abs_path ts t ht1 hrest]

/-! ## The child scan of `newfs_lookup` -/

theorem fname_hit_iff (stored c : List Nat) : fname_hit stored c = true ↔ stored.take c.length = c := by
  unfold fname_hit
  exact beq_iff_eq

theorem scan_dentrys_none (c : List Nat) : ∀ (l : List newfs_dentry) (k0 : Nat),
    (∀ e ∈ l, e.fname.take c.length ≠ c) → scan_dentrys c l k0 = none
  | [], _, _ => rfl
  | e :: l, k0, h => by
    have he : ¬ fname_hit e.fname c = true := fun hh =>
      h e (List.mem_cons_self _ _) ((fname_hit_iff _ _).1 hh)
    simp only [scan_dentrys, he, if_false]
    exact scan_dentrys_none c l (k0 + 1) (fun e' he' => h e' (List.mem_cons_of_mem _ he'))

theorem scan_dentrys_first (c : List Nat) : ∀ (l : List newfs_dentry) (k0 k : Nat)
    (e : newfs_dentry), l[k]? = some e → e.fname.take c.length = c →
    (∀ (j : Nat) (e' : newfs_dentry), j < k → l[j]? = some e' → e'.fname.take c.length ≠ c) →
    scan_dentrys c l k0 = some (k0 + k, e)
  | [], _, k, e, h, _, _ => by simp at h
  | x :: l, k0, 0, e, h, hc, _ => by
    simp only [List.getElem?_cons_zero, Option.some.injEq] at h
    subst h
    simp only [scan_dentrys, (fname_hit_iff _ _).2 hc, if_true, Nat.add_zero]
  | x :: l, k0, k + 1, e, h, hc, hlow => by
    have hx : ¬ fname_hit x.fname c = true := fun hh =>
      hlow 0 x (Nat.succ_pos k) (by simp) ((fname_hit_iff _ _).1 hh)
    simp only [scan_dentrys, hx, if_false]
    rw [scan_dentrys_first c l (k0 + 1) k e (by simpa using h) hc
      (fun j e' hj he' => hlow (j + 1) e' (by omega) (by simpa using he'))]
    have e1 : k0 + 1 + k = k0 + (k + 1) := by omega
    rw [e1]
    simp

/-- One round of the loop of `newfs_lookup` at a directory whose record is
loaded, when no child agrees with the component. -/
theorem lookup_walk_dir_miss (total_lvl : Nat) (c : List Nat) (rest : List (List Nat))
    (lvl0 : Nat) (fname : List Nat) (ino : Nat) (r : newfs_inode) (pos : List Nat)
    (st : LookupState) (h : ∀ e ∈ r.dentrys, e.fname.take c.length ≠ c) :
    lookup_walk total_lvl (c :: rest) lvl0 (.mk fname ino (some r) NEWFS_DIR) pos st
      = { st with is_find := false, dentry_ret := some (pos, .mk fname ino (some r) NEWFS_DIR) } := by
  have hs := scan_dentrys_none c r.dentrys 0 h
  simp only [lookup_walk, newfs_dentry.inode, newfs_dentry.ftype]
  simp only [if_true, hs]
  exact if_neg (fun hh => absurd hh.1 (by decide))

/-- One round of the loop of `newfs_lookup` at a directory whose record is
loaded, when `e`, child number `k`, is the first child that agrees with the
component. -/
theorem lookup_walk_dir_hit (total_lvl : Nat) (c : List Nat) (rest : List (List Nat))
    (lvl0 : Nat) (fname : List Nat) (ino : Nat) (r : newfs_inode) (pos : List Nat)
    (st : LookupState) (k : Nat) (e : newfs_dentry) (hk : r.dentrys[k]? = some e)
    (hc : e.fname.take c.length = c)
    (hlow : ∀ (j : Nat) (e' : newfs_dentry), j < k → r.dentrys[j]? = some e' →
      e'.fname.take c.length ≠ c) :
    lookup_walk total_lvl (c :: rest) lvl0 (.mk fname ino (some r) NEWFS_DIR) pos st
      = if lvl0 + 1 = total_lvl then
          { st with is_find := true, dentry_ret := some (pos ++ [k], e) }
        else lookup_walk total_lvl rest (lvl0 + 1) e (pos ++ [k]) st := by
  have hs := scan_dentrys_first c r.dentrys 0 k e hk hc hlow
  rw [Nat.zero_add] at hs
  conv_lhs => simp only [lookup_walk, newfs_dentry.inode, newfs_dentry.ftype]
  simp only [if_true, hs]
  exact if_neg (fun hh => absurd hh.1 (by decide))

/-- The child scan of `newfs_lookup` as its statements compute it, at a
directory entry whose record `r` is loaded, for a component `c` of at most 128
bytes.  At any level of the walk: if no child of `r` agrees with `c` on its
first `len(c)` bytes, the walk ends with the directory's own entry and
`is_find = FALSE`; if `e`, child number `k`, is the first child in list order
that agrees, the walk ends at the final level with `e` and `is_find = TRUE`,
and goes on from `e` otherwise.  For the path `/c` under a root of that kind
the result of `newfs_lookup` is the root entry with `is_find = FALSE` in the
first case and the entry `e` with `is_find = TRUE` in the second; `overrun`
tells whether the copy of the path stayed within its buffer. -/
theorem newfs_lookup_child_scan (sb : newfs_super) (d : Disk) (fname : List Nat) (ino : Nat)
    (r : newfs_inode) (c : List Nat) (is_find0 : Bool)
    (total_lvl lvl0 : Nat) (rest : List (List Nat)) (pos : List Nat) (st : LookupState)
    (hroot : sb.root_dentry = some (.mk fname ino (some r) NEWFS_DIR))
    (hc : component_ok c = true) (_hlen : c.length ≤ NEWFS_MAX_FILE_NAME) :
    ((∀ e ∈ r.dentrys, e.fname.take c.length ≠ c) →
      lookup_walk total_lvl (c :: rest) lvl0 (.mk fname ino (some r) NEWFS_DIR) pos st
        = { st with is_find := false, dentry_ret := some (pos, .mk fname ino (some r) NEWFS_DIR) }
      ∧ newfs_lookup sb d (47 :: c) is_find0
        = { fault := false, dentry_ret := some (.mk fname ino (some r) NEWFS_DIR),
            is_find := false, is_root := false, sb := sb, disk := d,
            overrun := path_cpy_overrun (47 :: c), undefined_read := false })
    ∧ (∀ (k : Nat) (e : newfs_dentry), r.dentrys[k]? = some e → e.fname.take c.length = c →
        (∀ (j : Nat) (e' : newfs_dentry), j < k → r.dentrys[j]? = some e' →
          e'.fname.take c.length ≠ c) →
        lookup_walk total_lvl (c :: rest) lvl0 (.mk fname ino (some r) NEWFS_DIR) pos st
          = (if lvl0 + 1 = total_lvl then
              { st with is_find := true, dentry_ret := some (pos ++ [k], e) }
            else lookup_walk total_lvl rest (lvl0 + 1) e (pos ++ [k]) st)
        ∧ (newfs_lookup sb d (47 :: c) is_find0).fault = false
        ∧ (newfs_lookup sb d (47 :: c) is_find0).is_find = true
        ∧ (newfs_lookup sb d (47 :: c) is_find0).is_root = false
        ∧ (newfs_lookup sb d (47 :: c) is_find0).overrun = path_cpy_overrun (47 :: c)
        ∧ ∃ p, (newfs_lookup sb d (47 :: c) is_find0).dentry_ret
              = some (.mk e.fname e.ino p e.ftype)
            ∧ (∀ q, e.inode = some q → p = some q)) := by
  have hp : (47 :: c) = abs_path [c] := by simp [abs_path]
  obtain ⟨hl, ht⟩ := abs_path_levels [c] (by simp) (by simpa using hc)
  rw [← hp] at hl ht
  have hl1 : newfs_calc_lvl (47 :: c) = 1 := hl
  constructor
  · intro hmiss
    refine ⟨lookup_walk_dir_miss total_lvl c rest lvl0 fname ino r pos st hmiss, ?_⟩
    unfold newfs_lookup
    simp only [hroot, hl1, ht, Nat.one_ne_zero, if_false,
      lookup_walk_dir_miss 1 c [] 0 fname ino r _ _ hmiss, Bool.false_eq_true,
      newfs_dentry.inode]
  · intro k e hk hagree hlow
    refine ⟨lookup_walk_dir_hit total_lvl c rest lvl0 fname ino r pos st k e hk hagree hlow, ?_⟩
    have hw := lookup_walk_dir_hit 1 c [] 0 fname ino r []
      { fault := false, dentry_ret := none, is_find := is_find0, is_root := false,
        sb := sb, disk := d, undefined_read := false } k e hk hagree hlow
    rw [if_pos rfl] at hw
    unfold newfs_lookup
    simp only [hroot, hl1, ht, Nat.one_ne_zero, if_false, hw, Bool.false_eq_true]
    cases hi : e.inode with
    | some q =>
      refine ⟨rfl, rfl, rfl, rfl, some q, ?_, fun q' hq' => hq'.symm ▸ rfl⟩
      simp only
      cases e with
      | mk a b p t =>
        simp only [newfs_dentry.inode] at hi
        subst hi
        rfl
    | none =>
      exact ⟨rfl, rfl, rfl, rfl, _, rfl, fun q' hq' => by cases hq'⟩

/-- The child scan at a concrete input: under a root with the children `abc`
(head) and `ab`, the component `ab` selects `abc`, the first child in list
order that agrees with it on two bytes; the path `/ab` fits the copy
buffer. -/
theorem newfs_lookup_child_scan_witness :
    (newfs_lookup two_name_super (zero_disk 64 1) [47, 97, 98] false).fault = false
    ∧ (newfs_lookup two_name_super (zero_disk 64 1) [47, 97, 98] false).is_find = true
    ∧ ∃ p, (newfs_lookup two_name_super (zero_disk 64 1) [47, 97, 98] false).dentry_ret
        = some (.mk (assign_fname [97, 98, 99]) 2 p NEWFS_REG_FILE) := by
  obtain ⟨_, h2, h3, _, _, p, h5, _⟩ :=
    (newfs_lookup_child_scan two_name_super (zero_disk 64 1) (assign_fname [47]) 0
      (.mk 0 0 (List.replicate NEWFS_MAX_FILE_NAME 0) 2
        [.mk (assign_fname [97, 98, 99]) 2 none NEWFS_REG_FILE,
         .mk (assign_fname [97, 98]) 1 none NEWFS_REG_FILE] [])
      [97, 98] false 1 0 [] []
      { fault := false, dentry_ret := none, is_find := false, is_root := false,
        sb := two_name_super, disk := zero_disk 64 1, undefined_read := false }
      rfl (by decide) (by decide)).2 0
      (.mk (assign_fname [97, 98, 99]) 2 none NEWFS_REG_FILE) rfl (by decide)
      (fun j _ hj _ => absurd hj (Nat.not_lt_zero j))
  exact ⟨h2, h3, p, h5⟩

/-! ## C22 -/

/-- C22 (amended): for the root path `/` the level count is 0 and `strtok`
yields no token; for every absolute path `/t1/.../tn` with `n ≥ 1` components
that are not empty and hold neither NUL nor `/`, `newfs_calc_lvl` returns `n`
and the tokens that `strtok` yields in `newfs_lookup` are `t1, ..., tn`. -/
theorem newfs_calc_lvl_abs_path (ts : List (List Nat)) (hne : ts ≠ [])
    (hok : ∀ t ∈ ts, component_ok t = true) :
    newfs_calc_lvl (abs_path ts) = ts.length
    ∧ strtok_all (c_string (abs_path ts)) [] = ts
    ∧ (strtok_all (c_string (abs_path ts)) []).length = newfs_calc_lvl (abs_path ts)
    ∧ newfs_calc_lvl [47] = 0
    ∧ strtok_all (c_string [47]) [] = [] := by
  obtain ⟨h1, h2⟩ := abs_path_levels ts hne hok
  exact ⟨h1, h2, by rw [h1, h2], by decide, by decide⟩

/-- C22 (amended) at a concrete input: `/av/c/d/f` has 4 levels and 4
tokens. -/
theorem newfs_calc_lvl_abs_path_witness :
    newfs_calc_lvl (abs_path [[97, 118], [99], [100], [102]]) = 4
    ∧ strtok_all (c_string (abs_path [[97, 118], [99], [100], [102]])) []
        = [[97, 118], [99], [100], [102]] :=
  ⟨(newfs_calc_lvl_abs_path [[97, 118], [99], [100], [102]] (by decide) (by decide)).1,
   (newfs_calc_lvl_abs_path [[97, 118], [99], [100], [102]] (by decide) (by decide)).2.1⟩

/-- C22 as stated fails: for `/a/` the level count is 2 but `strtok` yields
one token, for `a` the count is 0 with one token, and for `//a` it is 2 with
one token. -/
theorem newfs_calc_lvl_counts_slashes :
    newfs_calc_lvl [47, 97, 47] = 2
    ∧ strtok_all (c_string [47, 97, 47]) [] = [[97]]
    ∧ newfs_calc_lvl [97] = 0
    ∧ strtok_all (c_string [97]) [] = [[97]]
    ∧ newfs_calc_lvl [47, 47, 97] = 2
    ∧ strtok_all (c_string [47, 47, 97]) [] = [[97]] := by
  refine ⟨?_, ?_, ?_, ?_, ?_, ?_⟩ <;> decide

/-! ## C23 -/

set_option maxRecDepth 1000000 in
/-- C23 on the code: after the first-use mount of the zero-filled 4 MiB device
with 512-byte units (`max_ino = 584`, 4194304 bytes), the slot of index number
500 ends at byte 4192256, the slot of index number 501 runs from 4192256 to
4199424, across the end of the device, and the slot of the last index number,
583, starts at byte 4780032, where a unit read and a unit write both fail:
no byte of it is on the device.  For every super block and index number the
data area of a slot does end where the next slot begins. -/
theorem newfs_slot_past_device :
    mount_4m.fault = false
    ∧ mount_4m.sb.max_ino = 584
    ∧ mount_4m.disk.sz_disk = 4194304
    ∧ NEWFS_INO_OFS mount_4m.sb 500 + 7 * mount_4m.sb.sz_blk = 4192256
    ∧ NEWFS_INO_OFS mount_4m.sb 501 = 4192256
    ∧ NEWFS_INO_OFS mount_4m.sb 501 + 7 * mount_4m.sb.sz_blk = 4199424
    ∧ NEWFS_INO_OFS mount_4m.sb 583 = 4780032
    ∧ (ddriver_read (ddriver_seek mount_4m.disk 4780032) (fun _ => 0) 0 512).2.2 = false
    ∧ (ddriver_write (ddriver_seek mount_4m.disk 4780032) (fun _ => 0) 0 512).2 = false
    ∧ (∀ (sb : newfs_super) (i : Nat),
        NEWFS_DATA_OFS sb i + 6 * sb.sz_blk = NEWFS_INO_OFS sb (i + 1)) := by
  refine ⟨?_, ?_, ?_, ?_, ?_, ?_, ?_, ?_, ?_, ?_⟩
  · decide
  · decide
  · decide
  · decide
  · decide
  · decide
  · decide
  · decide
  · decide
  · intro sb i
    rw [data_ofs_eq, ino_ofs_succ]
    omega

/-! ## C24 -/

set_option maxRecDepth 1000000 in
/-- C24 on the code: `newfs_read_inode` never changes the index bitmap, but it
links every child entry it reads with `newfs_alloc_dentry`, which calls
`newfs_alloc_data` and so sets one more bit of the data bitmap per child.  On
the zero-filled 4 MiB device with 512-byte units, with `/a` and `/a/b`
created, the first bytes of the two bitmaps are 7 (three index numbers) and 3
(two data bits) before the unmount; after the second mount, which loads the
root with its one child, the data bitmap starts with 7, and after
`newfs_lookup("/a")`, which loads `/a` with its one child, with 15; the index
bitmap starts with 7 throughout. -/
theorem newfs_read_inode_sets_data_bits :
    (persist_scenario (zero_disk 4194304 512) (super_d_of_bytes [])).map
        (fun r => (r.before.sb.map_inode.take 2, r.before.sb.map_data.take 2))
      = some ([7, 0], [3, 0])
    ∧ (persist_scenario (zero_disk 4194304 512) (super_d_of_bytes [])).map
        (fun r => (r.umount.ret, r.mount2.ret, r.mount2.fault, r.after_a.fault))
      = some (NEWFS_ERROR_NONE, NEWFS_ERROR_NONE, false, false)
    ∧ (persist_scenario (zero_disk 4194304 512) (super_d_of_bytes [])).map
        (fun r => (r.mount2.sb.map_inode.take 2, r.mount2.sb.map_data.take 2))
      = some ([7, 0], [7, 0])
    ∧ (persist_scenario (zero_disk 4194304 512) (super_d_of_bytes [])).map
        (fun r => (r.after_a.sb.map_inode.take 2, r.after_a.sb.map_data.take 2))
      = some ([7, 0], [15, 0])
    ∧ (∀ (sb : newfs_super) (d : Disk) (dentry : newfs_dentry) (ino : Nat),
        (newfs_read_inode sb d dentry ino).sb.map_inode = sb.map_inode) := by
  refine ⟨?_, ?_, ?_, ?_, ?_⟩
  · decide
  · decide
  · decide
  · decide
  · intro sb d dentry ino
    rw [newfs_read_inode_sb]

/-! ## C25 -/

/-- C25 (amended): under a layout with a positive I/O unit, blocks of two
units that hold an on-disk index record, and slots on unit boundaries, let `r`
be a record such that every directory among `r` and the records loaded below
it has child entries that fit the six data blocks of its slot
(`136 * count ≤ 6 * sz_blk`), and let `j` be an index number other than those
of `r` and of the records loaded below it.  Then `newfs_sync_inode(r)` leaves
every byte of the slot of `j` as it was. -/
theorem newfs_sync_inode_keeps_other_slots (sb : newfs_super) (hsb : super_ok sb)
    (r : newfs_inode) (ftype : Nat) (d : Disk) (j : Nat)
    (hout : inode_outside sb j r ftype = true) (a : Nat)
    (ha1 : NEWFS_INO_OFS sb j ≤ a) (ha2 : a < NEWFS_INO_OFS sb (j + 1)) :
    (newfs_sync_inode sb r ftype d).disk.mem a = d.mem a := by
  rw [(newfs_sync_inode_patches sb r ftype d).1,
    (apply_patches_spec sb hsb.1 (inode_patches sb r ftype) d).2.2 a]
  rw [last_cover_outside sb d.sz_disk (inode_patches sb r ftype) a]
  · rfl
  · intro p hp hc
    have := inode_patches_outside sb hsb j r ftype hout p hp
    unfold patch_outside at this
    omega

set_option maxRecDepth 1000000 in
/-- C25 (amended) at a concrete input: after the first-use mount of the
zero-filled 4 MiB device, syncing a directory with index number 1 and 45
children leaves byte 615528, which lies in the slot of index number 2, as it
was. -/
theorem newfs_sync_inode_keeps_other_slots_witness :
    (newfs_sync_inode mount_4m.sb (crowded_dir 1 45) NEWFS_DIR mount_4m.disk).disk.mem 615528
      = mount_4m.disk.mem 615528 :=
  newfs_sync_inode_keeps_other_slots mount_4m.sb (by decide) (crowded_dir 1 45) NEWFS_DIR
    mount_4m.disk 2 (by decide) 615528 (by decide) (by decide)

set_option maxRecDepth 1000000 in
/-- C25 as stated fails: after the first-use mount of the zero-filled 4 MiB
device (blocks of 1024 bytes, so six data blocks hold 45 entries of 136
bytes), syncing a directory with index number 1 and 46 children writes the
last entry across the end of slot 1: byte 615528, in the slot of index number
2 (bytes 615424 to 622591), changes from 0 to 1. -/
theorem newfs_sync_inode_overflows_slot :
    NEWFS_INO_OFS mount_4m.sb 2 = 615424
    ∧ NEWFS_INO_OFS mount_4m.sb 3 = 622592
    ∧ mount_4m.disk.mem 615528 = 0
    ∧ (newfs_sync_inode mount_4m.sb (crowded_dir 1 46) NEWFS_DIR mount_4m.disk).ret
        = NEWFS_ERROR_NONE
    ∧ (newfs_sync_inode mount_4m.sb (crowded_dir 1 46) NEWFS_DIR mount_4m.disk).disk.mem 615528
        = 1 := by
  refine ⟨?_, ?_, ?_, ?_, ?_⟩
  · decide
  · decide
  · decide
  · decide
  · decide

/-! ## C26 -/

set_option maxRecDepth 1000000 in
/-- C26 on the code: after the first-use mount of the zero-filled 4 MiB
device, `newfs_umount` succeeds and closes the device, and the mounted flag is
still `TRUE`; a second `newfs_umount` right after does not take the
not-mounted branch: it syncs and writes again, returns `NEWFS_ERROR_NONE` and
closes the device a second time (run on a blank device instead, it leaves the
magic marker there).  No path of `newfs_umount` changes the flag. -/
theorem newfs_umount_keeps_mounted_flag :
    mount_4m.sb.is_mounted = true
    ∧ (newfs_umount mount_4m.sb mount_4m.disk stack_junk).ret = NEWFS_ERROR_NONE
    ∧ (newfs_umount mount_4m.sb mount_4m.disk stack_junk).closed = true
    ∧ (newfs_umount mount_4m.sb mount_4m.disk stack_junk).sb.is_mounted = true
    ∧ (newfs_umount (newfs_umount mount_4m.sb mount_4m.disk stack_junk).sb
        (newfs_umount mount_4m.sb mount_4m.disk stack_junk).disk stack_junk).ret
        = NEWFS_ERROR_NONE
    ∧ (newfs_umount (newfs_umount mount_4m.sb mount_4m.disk stack_junk).sb
        (newfs_umount mount_4m.sb mount_4m.disk stack_junk).disk stack_junk).closed = true
    ∧ (newfs_umount (newfs_umount mount_4m.sb mount_4m.disk stack_junk).sb
        (zero_disk 4194304 512) stack_junk).disk.mem 0 = 83
    ∧ (∀ (sb : newfs_super) (d : Disk) (junk : newfs_super_d),
        (newfs_umount sb d junk).sb.is_mounted = sb.is_mounted) := by
  refine ⟨?_, ?_, ?_, ?_, ?_, ?_, ?_, ?_⟩
  · decide
  · decide
  · decide
  · decide
  · decide
  · decide
  · decide
  · intro sb d junk
    unfold newfs_umount
    split
    · rfl
    · split
      · rfl
      · split
        · rfl
        · simp only [newfs_driver_write_ret, ne_eq, not_true_eq_false, if_false]

/-! ## C9: the slot offsets in `int` arithmetic -/

/-- The layout that the first-use `newfs_mount` computes on the zero-filled
device of 2000 MiB with 4096-byte I/O units. -/
theorem mount_2000m_layout :
    mount_2000m.sb.sz_blk = 8192 ∧ mount_2000m.sb.sz_disk = 2097152000
    ∧ mount_2000m.sb.max_ino = 36571
    ∧ mount_2000m.sb.map_inode_blks = 1
    ∧ mount_2000m.sb.map_data_blks = 1 ∧ mount_2000m.sb.map_data_offset = 16384
    ∧ mount_2000m.sb.data_offset = 299614208 := by
  obtain ⟨_, h2, h3, h4, _, h6, _, h8, h9, _, h11⟩ :=
    newfs_mount_first_use super_zero (zero_disk 2097152000 4096)
      (is_first_use_zero _ _ (by decide) (fun _ => rfl))
  have e1 : (zero_disk 2097152000 4096).sz_io = 4096 := rfl
  have e2 : (zero_disk 2097152000 4096).sz_disk = 2097152000 := rfl
  rw [e1, e2] at h4 h11
  rw [e1] at h3 h9
  rw [e2] at h2
  norm_num at h3 h4 h9 h11
  unfold mount_2000m
  exact ⟨h3, h2, h4, h6, h8, h9, h11⟩

/-- The layout that the first-use `newfs_mount` computes on the zero-filled
device of 2000 MiB with 512-byte I/O units. -/
theorem mount_2000m_512_layout :
    mount_2000m_512.sb.sz_blk = 1024 ∧ mount_2000m_512.sb.sz_disk = 2097152000
    ∧ mount_2000m_512.sb.max_ino = 292571
    ∧ mount_2000m_512.sb.map_inode_blks = 1
    ∧ mount_2000m_512.sb.map_data_blks = 1 ∧ mount_2000m_512.sb.map_data_offset = 2048
    ∧ mount_2000m_512.sb.data_offset = 299595776 := by
  obtain ⟨_, h2, h3, h4, _, h6, _, h8, h9, _, h11⟩ :=
    newfs_mount_first_use super_zero (zero_disk 2097152000 512)
      (is_first_use_zero _ _ (by decide) (fun _ => rfl))
  have e1 : (zero_disk 2097152000 512).sz_io = 512 := rfl
  have e2 : (zero_disk 2097152000 512).sz_disk = 2097152000 := rfl
  rw [e1, e2] at h4 h11
  rw [e1] at h3 h9
  rw [e2] at h2
  norm_num at h3 h4 h9 h11
  unfold mount_2000m_512
  exact ⟨h3, h2, h4, h6, h8, h9, h11⟩

/-- A value within the range of `int` is what the `int` expression yields. -/
theorem c_int_of_range (v : Int) (h1 : -2147483648 ≤ v) (h2 : v ≤ 2147483647) : c_int v = v := by
  unfold c_int
  omega

/-- Where no operation of the macro leaves the range of `int`, the value the
code computes for `NEWFS_INO_OFS(ino)` is the natural number
`NEWFS_INO_OFS sb ino`. -/
theorem NEWFS_INO_OFS_int_eq (sb : newfs_super) (ino : Nat)
    (h : NEWFS_INO_OFS sb ino ≤ 2147483647) :
    NEWFS_INO_OFS_int sb ino = (NEWFS_INO_OFS sb ino : Int) := by
  unfold NEWFS_INO_OFS NEWFS_BLKS_SZ at h
  unfold NEWFS_INO_OFS_int NEWFS_INO_OFS NEWFS_BLKS_SZ
  have e : NEWFS_INODE_PER_FILE + NEWFS_DATA_PER_FILE = 7 := rfl
  rw [e] at h ⊢
  by_cases h0 : ino = 0
  · subst h0
    simp only [Nat.zero_mul, Nat.add_zero, Nat.cast_zero, Int.zero_mul] at h ⊢
    have : c_int 0 = 0 := by decide
    rw [this, Int.add_zero]
    exact c_int_of_range _ (by omega) (by omega)
  · have hpos : 1 ≤ ino := Nat.one_le_iff_ne_zero.mpr h0
    have h7 : 7 * sb.sz_blk ≤ ino * (7 * sb.sz_blk) := Nat.le_mul_of_pos_left _ hpos
    have c1 : c_int (((7 : Nat) : Int) * (sb.sz_blk : Int)) = ((7 * sb.sz_blk : Nat) : Int) := by
      rw [← Nat.cast_mul]
      exact c_int_of_range _ (by omega) (by omega)
    rw [c1]
    have c2 : c_int ((ino : Int) * ((7 * sb.sz_blk : Nat) : Int))
        = ((ino * (7 * sb.sz_blk) : Nat) : Int) := by
      rw [← Nat.cast_mul]
      exact c_int_of_range _ (by omega) (by omega)
    rw [c2, ← Nat.cast_add]
    exact c_int_of_range _ (by omega) (by omega)

/-- Under the layout of a first-use `newfs_mount`, as long as the offset of
index number `j` is at most `INT_MAX`, the values that the code computes in
`int` arithmetic are increasing from `i` to `j` and lie past the data bitmap. -/
theorem newfs_ino_ofs_int_in_range (sb0 : newfs_super) (d : Disk) (hfirst : is_first_use sb0 d)
    (hblk : 0 < (newfs_mount sb0 d).sb.sz_blk) (i j : Nat) (hij : i < j)
    (hj : j < (newfs_mount sb0 d).sb.max_ino)
    (hmax : NEWFS_INO_OFS (newfs_mount sb0 d).sb j ≤ 2147483647) :
    NEWFS_INO_OFS_int (newfs_mount sb0 d).sb i < NEWFS_INO_OFS_int (newfs_mount sb0 d).sb j
    ∧ (((newfs_mount sb0 d).sb.map_data_offset
        + (newfs_mount sb0 d).sb.map_data_blks * (newfs_mount sb0 d).sb.sz_blk : Nat) : Int)
      ≤ NEWFS_INO_OFS_int (newfs_mount sb0 d).sb i := by
  obtain ⟨h1, h2⟩ := newfs_ino_ofs_increasing sb0 d hfirst hblk i j hij hj
  rw [NEWFS_INO_OFS_int_eq _ i (by omega), NEWFS_INO_OFS_int_eq _ j hmax]
  exact ⟨by exact_mod_cast h1, by exact_mod_cast h2⟩

/-- C9 fails in the code on a device of 2000 MiB.  After the first-use
`newfs_mount` of the zero-filled device with 4096-byte I/O units (no fault,
`sz_disk = 2097152000`, which an `int` holds) `max_ino` is 36571 and the index
bitmap that `newfs_alloc_inode` scans has 65536 bits, so index number 32225
is one the allocator hands out.  `NEWFS_INO_OFS(32224)` is 2147467264, and
the value of `NEWFS_INO_OFS(32225)`, 2147524608, is more than `INT_MAX`: the
`int` arithmetic of the macro wraps to -2147442688, so for `i = 32224` and
`j = 32225` the offset of `j` is below that of `i`, and below the end of the
data bitmap at byte 24576.  The same on the device with 512-byte units at
index number 257797 (below `max_ino = 292571`), whose offset 2147484672 wraps
to -2147482624. -/
theorem newfs_ino_ofs_int_wraps :
    mount_2000m.fault = false
    ∧ mount_2000m.sb.sz_disk = 2097152000
    ∧ mount_2000m.sb.max_ino = 36571
    ∧ UINT8_BITS * NEWFS_BLKS_SZ mount_2000m.sb mount_2000m.sb.map_inode_blks = 65536
    ∧ mount_2000m.sb.map_data_offset + mount_2000m.sb.map_data_blks * mount_2000m.sb.sz_blk
        = 24576
    ∧ NEWFS_INO_OFS mount_2000m.sb 32225 = 2147524608
    ∧ NEWFS_INO_OFS_int mount_2000m.sb 32224 = 2147467264
    ∧ NEWFS_INO_OFS_int mount_2000m.sb 32225 = -2147442688
    ∧ ¬ (NEWFS_INO_OFS_int mount_2000m.sb 32224 < NEWFS_INO_OFS_int mount_2000m.sb 32225)
    ∧ ¬ (((mount_2000m.sb.map_data_offset
          + mount_2000m.sb.map_data_blks * mount_2000m.sb.sz_blk : Nat) : Int)
        ≤ NEWFS_INO_OFS_int mount_2000m.sb 32225)
    ∧ mount_2000m_512.sb.max_ino = 292571
    ∧ NEWFS_INO_OFS mount_2000m_512.sb 257797 = 2147484672
    ∧ NEWFS_INO_OFS_int mount_2000m_512.sb 257797 = -2147482624
    ∧ ¬ (NEWFS_INO_OFS_int mount_2000m_512.sb 0 < NEWFS_INO_OFS_int mount_2000m_512.sb 257797) := by
  obtain ⟨a1, a2, a3, a4, a5, a6, a7⟩ := mount_2000m_layout
  obtain ⟨b1, _, b3, _, _, _, b7⟩ := mount_2000m_512_layout
  have hfault : mount_2000m.fault = false :=
    (newfs_mount_zero super_zero (zero_disk 2097152000 4096) (by decide) (fun _ => rfl)
      (by decide)).1
  have e : NEWFS_INODE_PER_FILE + NEWFS_DATA_PER_FILE = 7 := rfl
  have e8 : UINT8_BITS = 8 := rfl
  unfold NEWFS_INO_OFS_int NEWFS_INO_OFS NEWFS_BLKS_SZ c_int
  rw [a1, a4, a5, a6, a7, b1, b7, e, e8]
  refine ⟨hfault, a2, a3, ?_, ?_, ?_, ?_, ?_, ?_, ?_, b3, ?_, ?_, ?_⟩ <;> norm_num

/-! ## C17: the read through the unassigned pointer -/

set_option maxRecDepth 1000000 in
/-- C17 fails in the code whenever the data bitmap has a clear bit other than
bit `max_data`.  `newfs_alloc_dentry` always starts with `newfs_alloc_data`,
and its `undefined_read` is that of this call; the call reads the type tag
through its unassigned pointer exactly when its scan finds a clear bit at a
position other than `max_data`.  After the first-use `newfs_mount` of the
zero-filled 4 MiB device (`max_data = 3504`, data bitmap all clear) the scan
stops at bit 0, so `newfs_alloc_dentry(root record, entry "a")` goes through
that read before it inserts the entry. -/
theorem newfs_alloc_dentry_undefined_read :
    (∀ (sb : newfs_super) (parent : newfs_inode) (e : newfs_dentry),
      (newfs_alloc_dentry sb parent e).undefined_read = (newfs_alloc_data sb e).undefined_read)
    ∧ (∀ (sb : newfs_super) (e : newfs_dentry),
      (newfs_alloc_data sb e).undefined_read = true ↔
        (map_scan (NEWFS_BLKS_SZ sb sb.map_data_blks) sb.map_data 0).is_find_free_entry = true
        ∧ (map_scan (NEWFS_BLKS_SZ sb sb.map_data_blks) sb.map_data 0).cursor ≠ sb.max_data)
    ∧ mount_4m.fault = false
    ∧ mount_4m.sb.max_data = 3504
    ∧ mount_4m.sb.map_data.take 2 = [0, 0]
    ∧ (map_scan (NEWFS_BLKS_SZ mount_4m.sb mount_4m.sb.map_data_blks) mount_4m.sb.map_data
        0).is_find_free_entry = true
    ∧ (map_scan (NEWFS_BLKS_SZ mount_4m.sb mount_4m.sb.map_data_blks) mount_4m.sb.map_data
        0).cursor = 0
    ∧ mount_4m.sb.root_dentry = some empty_root
    ∧ empty_root.inode = some (.mk 0 0 (List.replicate NEWFS_MAX_FILE_NAME 0) 0 [] [])
    ∧ (newfs_alloc_dentry mount_4m.sb (.mk 0 0 (List.replicate NEWFS_MAX_FILE_NAME 0) 0 [] [])
        (new_dentry [97] NEWFS_DIR)).undefined_read = true := by
  refine ⟨fun _ _ _ => rfl, ?_, ?_, ?_, ?_, ?_, ?_, ?_, rfl, ?_⟩
  · intro sb e
    unfold newfs_alloc_data
    simp only [Bool.not_eq_true', Bool.or_eq_false_iff, Bool.not_eq_false', beq_eq_false_iff_ne,
      ne_eq]
  · decide
  · decide
  · decide
  · decide
  · decide
  · unfold mount_4m
    rw [(newfs_mount_zero super_zero (zero_disk 4194304 512) (by decide) (fun _ => rfl)
      (by decide)).2.2]
  · decide

/-! ## C21: the copy of the path -/

set_option maxRecDepth 1000000 in
/-- C21 fails in the code for a component of 100 bytes (and for every path of
8 bytes or more).  `newfs_lookup` copies `path` with `strcpy` into
`path_cpy`, a buffer of `sizeof(path)` = 8 bytes, before it scans anything:
for every call `overrun` tells whether the string and its NUL need more than
8 bytes, which is so exactly when the path has 8 bytes or more.  Under a root
whose only child is named by 100 letters `a`, the lookup of `/` followed by
these letters copies 102 bytes into the 8-byte buffer; the statements after
the copy would select that child (`is_find = TRUE`, index number 1).  The
lookup of `/ab` stays within the buffer. -/
theorem newfs_lookup_path_cpy_overrun :
    SIZEOF_PATH = 8
    ∧ (∀ (sb : newfs_super) (d : Disk) (path : List Nat) (is_find0 : Bool),
      (newfs_lookup sb d path is_find0).overrun = path_cpy_overrun path)
    ∧ (∀ path : List Nat, path_cpy_overrun path = true ↔ 8 ≤ (c_string path).length)
    ∧ (c_string (47 :: List.replicate 100 97)).length + 1 = 102
    ∧ (newfs_lookup long_name_super (zero_disk 64 1) (47 :: List.replicate 100 97) false).overrun
        = true
    ∧ (newfs_lookup long_name_super (zero_disk 64 1) (47 :: List.replicate 100 97) false).is_find
        = true
    ∧ (newfs_lookup long_name_super (zero_disk 64 1) (47 :: List.replicate 100 97)
        false).dentry_ret.map (fun e => (e.fname, e.ino))
        = some (assign_fname (List.replicate 100 97), 1)
    ∧ (newfs_lookup two_name_super (zero_disk 64 1) [47, 97, 98] false).overrun = false := by
  refine ⟨rfl, ?_, ?_, ?_, ?_, ?_, ?_, ?_⟩
  · intro sb d path is_find0
    unfold newfs_lookup
    cases sb.root_dentry with
    | none => rfl
    | some root =>
      simp only
      generalize lookup_walk _ _ _ _ _ _ = st
      repeat' (first | rfl | split)
  · intro path
    unfold path_cpy_overrun SIZEOF_PATH
    simp only [decide_eq_true_eq]
    omega
  · decide
  · decide
  · decide
  · decide
  · decide

/-! ## C3: the round trip through the device -/

/-- A bitmap scan that finds no clear bit leaves the bitmap as it was. -/
theorem map_scan_not_found : ∀ (n : Nat) (m : List Nat) (c : Nat),
    (map_scan n m c).is_find_free_entry = false → (map_scan n m c).map = m
  | 0, _, _, _ => rfl
  | _ + 1, [], _, _ => rfl
  | n + 1, byte :: rest, c, h => by
    unfold map_scan at h ⊢
    cases hb : bit_scan byte UINT8_BITS 0 with
    | some b =>
      rw [hb] at h
      exact absurd h (by simp)
    | none =>
      rw [hb] at h
      simp only at h ⊢
      rw [map_scan_not_found n rest _ h]

/-- On a data bitmap without a clear bit `newfs_alloc_data` returns after the
scan: the super block stays and the unassigned pointer is not read. -/
theorem newfs_alloc_data_full (sb : newfs_super) (e : newfs_dentry)
    (h : map_data_full sb = true) :
    (newfs_alloc_data sb e).sb = sb ∧ (newfs_alloc_data sb e).undefined_read = false := by
  unfold map_data_full at h
  have hf : (map_scan (NEWFS_BLKS_SZ sb sb.map_data_blks) sb.map_data 0).is_find_free_entry
      = false := by simpa using h
  unfold newfs_alloc_data
  constructor
  · simp only
    rw [map_scan_not_found _ _ _ hf]
  · simp only [hf, Bool.not_false, Bool.true_or, Bool.not_true]

/-- The child loop of `newfs_read_inode` on a data bitmap without a clear bit
never reads the unassigned pointer. -/
theorem read_dentrys_full (ino : Nat) : ∀ (n i : Nat) (sb : newfs_super) (d : Disk)
    (inode : newfs_inode), map_data_full sb = true →
    (read_dentrys ino n i sb d inode).undefined_read = false
  | 0, _, _, _, _, _ => rfl
  | n + 1, i, sb, d, inode, h => by
    simp only [read_dentrys, newfs_driver_read_ret, ne_eq, not_true_eq_false, if_false]
    obtain ⟨h1, h2⟩ := newfs_alloc_data_full sb
      (newfs_dentry.mk
        (new_dentry (dentry_d_of_bytes (newfs_driver_read sb d
          (NEWFS_DATA_OFS sb ino + i * SIZEOF_DENTRY_D) SIZEOF_DENTRY_D).content).fname
          (dentry_d_of_bytes (newfs_driver_read sb d
          (NEWFS_DATA_OFS sb ino + i * SIZEOF_DENTRY_D) SIZEOF_DENTRY_D).content).ftype).fname
        (dentry_d_of_bytes (newfs_driver_read sb d
          (NEWFS_DATA_OFS sb ino + i * SIZEOF_DENTRY_D) SIZEOF_DENTRY_D).content).ino
        (new_dentry (dentry_d_of_bytes (newfs_driver_read sb d
          (NEWFS_DATA_OFS sb ino + i * SIZEOF_DENTRY_D) SIZEOF_DENTRY_D).content).fname
          (dentry_d_of_bytes (newfs_driver_read sb d
          (NEWFS_DATA_OFS sb ino + i * SIZEOF_DENTRY_D) SIZEOF_DENTRY_D).content).ftype).inode
        (new_dentry (dentry_d_of_bytes (newfs_driver_read sb d
          (NEWFS_DATA_OFS sb ino + i * SIZEOF_DENTRY_D) SIZEOF_DENTRY_D).content).fname
          (dentry_d_of_bytes (newfs_driver_read sb d
          (NEWFS_DATA_OFS sb ino + i * SIZEOF_DENTRY_D) SIZEOF_DENTRY_D).content).ftype).ftype) h
    simp only [newfs_alloc_dentry, h1, h2, Bool.false_or]
    exact read_dentrys_full ino n (i + 1) sb _ _ h

/-- The child loop of `newfs_read_inode` adds one to the child count in every
round. -/
theorem read_dentrys_count (ino : Nat) : ∀ (n i : Nat) (sb : newfs_super) (d : Disk)
    (inode r : newfs_inode), (read_dentrys ino n i sb d inode).ret = some r →
    r.dir_cnt = inode.dir_cnt + (n : Int)
  | 0, _, _, _, inode, r, h => by
    simp only [read_dentrys, Option.some.injEq] at h
    rw [← h]; simp
  | n + 1, i, sb, d, inode, r, h => by
    simp only [read_dentrys, newfs_driver_read_ret, ne_eq, not_true_eq_false, if_false] at h
    have := read_dentrys_count ino n (i + 1) _ _ _ r h
    rw [this]
    simp only [newfs_alloc_dentry, newfs_inode.dir_cnt, Nat.cast_add, Nat.cast_one]
    ring

/-- A `newfs_read_inode` that returns a record without children has not read
the unassigned pointer of `newfs_alloc_data`. -/
theorem newfs_read_inode_no_children (sb : newfs_super) (d : Disk) (owner : newfs_dentry)
    (ino : Nat) (r : newfs_inode) (h : (newfs_read_inode sb d owner ino).ret = some r)
    (h0 : r.dir_cnt = 0) : (newfs_read_inode sb d owner ino).undefined_read = false := by
  unfold newfs_read_inode at h ⊢
  simp only [newfs_driver_read_ret, ne_eq, not_true_eq_false, if_false] at h ⊢
  by_cases hdir : owner.ftype = NEWFS_DIR
  · rw [if_pos hdir] at h ⊢
    generalize (inode_d_of_bytes (newfs_driver_read sb d (NEWFS_INO_OFS sb ino)
      SIZEOF_INODE_D).content).dir_cnt.toNat = n at h ⊢
    cases n with
    | zero => rfl
    | succ n =>
      have := read_dentrys_count ino (n + 1) 0 _ _ _ r h
      rw [h0] at this
      simp only [newfs_inode.dir_cnt, Nat.cast_add, Nat.cast_one] at this
      omega
  · rw [if_neg hdir]
    split <;> rfl

/-- The read of `newfs_read_inode` on a data bitmap without a clear bit never
reads the unassigned pointer. -/
theorem newfs_read_inode_full (sb : newfs_super) (d : Disk) (owner : newfs_dentry) (ino : Nat)
    (h : map_data_full sb = true) : (newfs_read_inode sb d owner ino).undefined_read = false := by
  unfold newfs_read_inode
  simp only [newfs_driver_read_ret, ne_eq, not_true_eq_false, if_false]
  by_cases hdir : owner.ftype = NEWFS_DIR
  · rw [if_pos hdir]
    exact read_dentrys_full ino _ 0 sb _ _ h
  · rw [if_neg hdir]
    split <;> rfl

/-- C3, as the code has it.  Take a super block laid out as `newfs_mount`
does (`super_ok`: a positive I/O unit, blocks of two units that hold an
on-disk index record, `data_offset` on a unit boundary), a record `r` that the
on-disk form can hold (`record_ok`), owned by the entry `owner`, and a device
that contains the slot of `r` (`NEWFS_INO_OFS(r.ino + 1) ≤ sz_disk`); and,
when `r` has children, a data bitmap without a clear bit, so that the calls of
`newfs_alloc_dentry` in the read return from `newfs_alloc_data` before its
read through the unassigned pointer.  Then `newfs_sync_inode(r)` followed by
`newfs_read_inode(owner, r.ino)` does not go through that read and yields a
record with the same index number, size, symbolic-link target and child count;
for a directory the children come back with the same (name, type tag, bound
index number) but in reverse order, because `newfs_read_inode` inserts each
entry it reads at the head of the list; for a regular file the data bytes are
the same. -/
theorem newfs_sync_read_roundtrip (sb : newfs_super) (d : Disk) (owner : newfs_dentry)
    (r : newfs_inode) (hsb : super_ok sb) (hdev : NEWFS_INO_OFS sb (r.ino + 1) ≤ d.sz_disk)
    (hr : record_ok sb owner.ftype r = true)
    (hmap : r.dentrys ≠ [] → map_data_full sb = true) :
    (newfs_read_inode sb (newfs_sync_inode sb r owner.ftype d).disk owner r.ino).undefined_read
      = false
    ∧ ∃ r', (newfs_read_inode sb (newfs_sync_inode sb r owner.ftype d).disk owner r.ino).ret
        = some r'
      ∧ r'.ino = r.ino ∧ r'.size = r.size ∧ r'.target_path = r.target_path
      ∧ r'.dir_cnt = r.dir_cnt
      ∧ child_keys r' = (child_keys r).reverse
      ∧ (owner.ftype = NEWFS_REG_FILE → r'.data = r.data) := by
  obtain ⟨r', h1, h2, h3, h4, h5, h6, h7⟩ := newfs_sync_read_record sb d owner r hsb hdev hr
  refine ⟨?_, r', h1, h2, h3, h4, h5, h6, h7⟩
  by_cases hnil : r.dentrys = []
  · apply newfs_read_inode_no_children _ _ _ _ r' h1
    rw [h5]
    have hc : r.dir_cnt = (r.dentrys.length : Int) := by
      simp only [record_ok, Bool.and_eq_true, decide_eq_true_eq] at hr
      exact hr.1.1.1.2
    rw [hc, hnil]
    rfl
  · exact newfs_read_inode_full _ _ _ _ (hmap hnil)

set_option maxRecDepth 1000000 in
/-- C3 at a concrete input: the directory with children `a`, `b` in slot 1 of
the freshly mounted 4 MiB device, with every bit of the data bitmap in use. -/
theorem newfs_sync_read_roundtrip_witness :
    super_ok mount_4m_full
    ∧ NEWFS_INO_OFS mount_4m_full (two_child_dir.ino + 1) ≤ mount_4m.disk.sz_disk
    ∧ record_ok mount_4m_full two_child_owner.ftype two_child_dir = true
    ∧ map_data_full mount_4m_full = true
    ∧ (newfs_read_inode mount_4m_full
        (newfs_sync_inode mount_4m_full two_child_dir two_child_owner.ftype mount_4m.disk).disk
        two_child_owner two_child_dir.ino).undefined_read = false
    ∧ ∃ r', (newfs_read_inode mount_4m_full
          (newfs_sync_inode mount_4m_full two_child_dir two_child_owner.ftype mount_4m.disk).disk
          two_child_owner two_child_dir.ino).ret = some r'
      ∧ r'.ino = two_child_dir.ino ∧ r'.size = two_child_dir.size
      ∧ r'.target_path = two_child_dir.target_path
      ∧ r'.dir_cnt = two_child_dir.dir_cnt
      ∧ child_keys r' = (child_keys two_child_dir).reverse
      ∧ (two_child_owner.ftype = NEWFS_REG_FILE → r'.data = two_child_dir.data) :=
  ⟨by decide, by decide, by decide, by decide,
   newfs_sync_read_roundtrip mount_4m_full mount_4m.disk two_child_owner two_child_dir
    (by decide) (by decide) (by decide) (fun _ => by decide)⟩

set_option maxRecDepth 1000000 in
/-- C3 as stated fails for a directory with two children: on the freshly
mounted 4 MiB device with every bit of the data bitmap in use (so that the
read stays clear of the unassigned pointer), after `newfs_sync_inode` and
`newfs_read_inode` the children `a`, `b` of a record that the on-disk form can
hold come back as `b`, `a`. -/
theorem newfs_sync_read_reverses_children :
    super_ok mount_4m_full
    ∧ NEWFS_INO_OFS mount_4m_full (two_child_dir.ino + 1) ≤ mount_4m.disk.sz_disk
    ∧ record_ok mount_4m_full two_child_owner.ftype two_child_dir = true
    ∧ map_data_full mount_4m_full = true
    ∧ (newfs_read_inode mount_4m_full
        (newfs_sync_inode mount_4m_full two_child_dir two_child_owner.ftype mount_4m.disk).disk
        two_child_owner two_child_dir.ino).undefined_read = false
    ∧ (newfs_read_inode mount_4m_full
        (newfs_sync_inode mount_4m_full two_child_dir two_child_owner.ftype mount_4m.disk).disk
        two_child_owner two_child_dir.ino).ret.map child_keys
      = some [(assign_fname [98], NEWFS_REG_FILE, 3), (assign_fname [97], NEWFS_DIR, 2)]
    ∧ child_keys two_child_dir
      = [(assign_fname [97], NEWFS_DIR, 2), (assign_fname [98], NEWFS_REG_FILE, 3)]
    ∧ (newfs_read_inode mount_4m_full
        (newfs_sync_inode mount_4m_full two_child_dir two_child_owner.ftype mount_4m.disk).disk
        two_child_owner two_child_dir.ino).ret.map child_keys
      ≠ some (child_keys two_child_dir) := by
  refine ⟨?_, ?_, ?_, ?_, ?_, ?_, ?_, ?_⟩ <;> decide
